import Mathlib

/-!
# Event booking server: inventory store, booking ledger and the booking transaction core

A shallow embedding of `server/routes/bookings.js` and `server/routes/events.js`, and of
the quantity selector, the countdown and the `seatUpdate` listener of the client.
The two SQL tables are lists of rows, each route handler is a pure function from
the store (and the request) to the store after the request, the HTTP response, the
Socket.IO messages emitted and the calls made on the pooled connection.

Conventions of the embedding:
* seat counts and quantities are `Int`; identifiers are `Nat`; an absent JSON field
  (`undefined`) is `none`;
* prices and amounts are JavaScript numbers, that is IEEE-754 doubles (`JsNumber`), and
  `event[0].price * quantity` is the product of doubles, rounded to the nearest one
  (`jsMul`); the quantity enters it as the double nearest to it (`JsNumber.ofInt`), which
  is the quantity itself up to `2 ^ 53`; the column types are not part of the sources, so
  a row keeps the number it is handed;
* `AUTO_INCREMENT` is a counter kept next to each table, so an identifier is
  never handed out twice; the tables carry no other constraint (their
  declarations are not part of the sources);
* the random UUID drawn by `uuidv4()` and the clock reading used for
  `booking_date` are inputs of the request;
* date-time values are text of the form `YYYY-MM-DD HH:MM:SS`, compared character
  by character; `DATE(date)` is the first ten characters; text comparisons of SQL
  are exact (the column collations are not part of the sources);
* where JavaScript divides numbers (the countdown of the client) they are exact
  rationals;
* `app.get('io')` is always set (`server/index.js` sets it at start-up).
-/

set_option exponentiation.threshold 4096

namespace EventBooking

/-! ## JavaScript numbers -/

/-- A value of the Number type of JavaScript, an IEEE-754 double. Every finite double is a
whole multiple of `2 ^ (-1074)`, the least positive double: `finite k` is the number
`k × 2 ^ (-1074)`. The two zeros are one value, `finite 0` (JavaScript holds them equal and
both falsy, and prints both as `0`). -/
inductive JsNumber where
  | finite (units : Int)
  | infinity (negative : Bool)
  | nan
deriving DecidableEq

/-- The number of binary digits of `n`, for `n < 2 ^ 2 ^ j`, found by halving the span. -/
def bitLengthAux : Nat → Nat → Nat
  | 0, n => if n = 0 then 0 else 1
  | j + 1, n =>
    if 2 ^ 2 ^ j ≤ n then 2 ^ j + bitLengthAux j (n / 2 ^ 2 ^ j) else bitLengthAux j n

/-- The number of binary digits of `n`, for `n < 2 ^ 4096`. -/
def bitLength (n : Nat) : Nat := bitLengthAux 12 n

/-- The whole number nearest to `n / 2 ^ s`, the even one of the two when `n / 2 ^ s` lies
half-way between them. -/
def roundShift (n s : Nat) : Nat :=
  let q := n / 2 ^ s
  let r := n % 2 ^ s
  if 2 * r < 2 ^ s then q
  else if 2 * r = 2 ^ s then (if q % 2 = 0 then q else q + 1)
  else q + 1

/-- The double nearest to `n × 2 ^ (-2148)`, with the sign given (IEEE-754 round to nearest,
ties to even); `2 ^ (-2148)` is the grain of a product of two finite doubles. At most 53
binary digits are kept, none of them below `2 ^ (-1074)`, and a result of `2 ^ 1024` or more is
an infinity. -/
def roundUnits (negative : Bool) (n : Nat) : JsNumber :=
  if 2 ^ 3172 ≤ n then JsNumber.infinity negative
  else
    let s := max 1074 (bitLength n - 53)
    let k := roundShift n s * 2 ^ (s - 1074)
    if 2 ^ 2098 ≤ k then JsNumber.infinity negative
    else JsNumber.finite (if negative then -(k : Int) else (k : Int))

/-- The double nearest to the whole number `i`: what a JSON number written without a fraction
is read as. -/
def JsNumber.ofInt (i : Int) : JsNumber :=
  roundUnits (decide (i < 0)) (i.natAbs * 2 ^ 2148)

/-- The whole number `i` as a double, exact when `i` is one (`|i| ≤ 2 ^ 53` is enough). -/
def JsNumber.whole (i : Int) : JsNumber :=
  JsNumber.finite (i * ((2 ^ 1074 : Nat) : Int))

instance (n : Nat) : OfNat JsNumber n := ⟨JsNumber.ofInt n⟩

/-- Unary minus of JavaScript. -/
def JsNumber.neg : JsNumber → JsNumber
  | JsNumber.finite k => JsNumber.finite (-k)
  | JsNumber.infinity negative => JsNumber.infinity (!negative)
  | JsNumber.nan => JsNumber.nan

instance : Neg JsNumber := ⟨JsNumber.neg⟩

/-- The operator `*` of JavaScript on numbers: the exact product rounded to the nearest double;
zero times an infinity is NaN. -/
def jsMul : JsNumber → JsNumber → JsNumber
  | JsNumber.finite a, JsNumber.finite b =>
    roundUnits (decide (a < 0) != decide (b < 0)) (a.natAbs * b.natAbs)
  | JsNumber.finite a, JsNumber.infinity negative =>
    if a = 0 then JsNumber.nan else JsNumber.infinity (decide (a < 0) != negative)
  | JsNumber.infinity negative, JsNumber.finite b =>
    if b = 0 then JsNumber.nan else JsNumber.infinity (negative != decide (b < 0))
  | JsNumber.infinity na, JsNumber.infinity nb => JsNumber.infinity (na != nb)
  | JsNumber.nan, _ => JsNumber.nan
  | _, JsNumber.nan => JsNumber.nan

/-- The doubles, in units of `2 ^ (-1074)`: magnitudes below `2 ^ 1024` written with at most
53 binary digits. -/
def IsDouble (k : Nat) : Prop :=
  k < 2 ^ 2098 ∧ ∃ m t : Nat, m < 2 ^ 53 ∧ k = m * 2 ^ t

/-! ## Data model -/

/-- Values of the `status` column of a booking. -/
inductive BookingStatus where
  | confirmed
  | cancelled
deriving DecidableEq

/-- Modelled from the spec: a row of the `events` table. The table declaration is not
part of the sources; the columns are those the route handlers read and write
(section 3, Event). -/
structure Event where
  id : Nat
  title : String
  description : Option String
  location : String
  date : String
  total_seats : Int
  available_seats : Int
  price : JsNumber
  img : Option String
deriving DecidableEq

/-- Modelled from the spec: a row of the `bookings` table. The table declaration is not
part of the sources; the columns are those of the `INSERT` in `router.post('/')`
together with `id`, `status` (default `confirmed`) and `booking_date` (section 3,
Booking). -/
structure Booking where
  id : Nat
  event_id : Nat
  name : String
  email : String
  mobile : String
  quantity : Int
  total_amount : JsNumber
  booking_code : String
  status : BookingStatus
  booking_date : Nat
deriving DecidableEq

/-- The persisted state: both tables and their `AUTO_INCREMENT` counters. -/
structure Store where
  events : List Event
  bookings : List Booking
  nextEventId : Nat
  nextBookingId : Nat
deriving DecidableEq

/-- The store of a freshly created database. -/
def Store.empty : Store :=
  { events := [], bookings := [], nextEventId := 1, nextBookingId := 1 }

/-- A row of `SELECT b.*, e.title as event_title, ... FROM bookings b JOIN events e`. -/
structure JoinedBooking where
  booking : Booking
  event_title : String
  event_date : String
  event_location : String
  event_img : Option String
deriving DecidableEq

/-- The JSON document sent with a response, next to the `success` flag. -/
inductive Payload where
  | error (msg : String)
  | message (msg : String)
  | booking (row : Option JoinedBooking)
  | bookings (rows : List JoinedBooking)
  | event (row : Option Event)
  | events (rows : List Event)
deriving DecidableEq

/-- An HTTP response: status code, `success` flag and payload. -/
structure Response where
  status : Nat
  success : Bool
  payload : Payload
deriving DecidableEq

/-- A message handed to `io.emit`. -/
inductive Emit where
  | seatUpdate (eventId : Nat) (availableSeats : Int)
  | bookingCreated (row : Option JoinedBooking)
  | eventCreated (row : Option Event)
  | eventUpdated (row : Option Event)
  | eventDeleted (id : Nat)
deriving DecidableEq

/-- Calls made on the connection taken from the pool. -/
inductive ConnOp where
  | beginTransaction
  | commit
  | rollback
  | release
deriving DecidableEq

/-- What one request leaves behind. -/
structure Outcome where
  store : Store
  response : Response
  emitted : List Emit
  conn : List ConnOp
deriving DecidableEq

/-- Body of `POST /api/bookings`. -/
structure BookingBody where
  event_id : Option Nat
  name : Option String
  email : Option String
  mobile : Option String
  quantity : Option Int
deriving DecidableEq

/-- Body of `POST /api/events` and `PUT /api/events/:id`. -/
structure EventBody where
  title : Option String
  description : Option String
  location : Option String
  date : Option String
  total_seats : Option Int
  price : Option JsNumber
  img : Option String
deriving DecidableEq

/-! ## Queries shared by the handlers -/

/-- The rows of `SELECT * FROM events WHERE id = ?`. -/
def selectEvents (s : Store) (id : Nat) : List Event :=
  s.events.filter (fun e => e.id == id)

/-- The rows of `SELECT * FROM bookings WHERE id = ?`. -/
def selectBookings (s : Store) (id : Nat) : List Booking :=
  s.bookings.filter (fun b => b.id == id)

/-- The rows of `SELECT b.*, e.title ... FROM bookings b JOIN events e ON b.event_id = e.id`
restricted to the bookings satisfying `p`. -/
def joinBookings (s : Store) (p : Booking → Bool) : List JoinedBooking :=
  (s.bookings.filter p).flatMap (fun b =>
    (s.events.filter (fun e => e.id == b.event_id)).map (fun e =>
      { booking := b, event_title := e.title, event_date := e.date,
        event_location := e.location, event_img := e.img }))

/-- SQL `COALESCE(?, column)`. -/
def coalesce {α : Type} (new : Option α) (old : α) : α :=
  match new with
  | some v => v
  | none => old

/-! ## `routes/bookings.js` -/

/-- The booking code built from a UUID: `EVT-` followed by the upper-cased text before
the first hyphen (`uuid.split('-')[0].toUpperCase()`). -/
def generateBookingCode (uuid : String) : String :=
  "EVT-" ++ String.mk ((uuid.data.takeWhile (fun c => c != '-')).map Char.toUpper)

/-- The response of a rejected request. -/
def failure (status : Nat) (msg : String) : Response :=
  { status := status, success := false, payload := Payload.error msg }

/-- Handler of `POST /api/bookings` (Reserve). -/
def bookings_post (s : Store) (body : BookingBody) (uuid : String) (now : Nat) : Outcome :=
  -- connection.beginTransaction() comes before the validation of the body
  let invalid : Outcome :=
    { store := s, response := failure 400 "All fields are required", emitted := [],
      conn := [ConnOp.beginTransaction, ConnOp.release] }
  match body.event_id, body.name, body.email, body.mobile, body.quantity with
  | some event_id, some name, some email, some mobile, some quantity =>
    if event_id = 0 ∨ name = "" ∨ email = "" ∨ mobile = "" ∨ quantity = 0 then invalid
    else
      match selectEvents s event_id with
      | [] =>
        { store := s, response := failure 404 "Event not found", emitted := [],
          conn := [ConnOp.beginTransaction, ConnOp.rollback, ConnOp.release] }
      | event0 :: _ =>
        if event0.available_seats < quantity then
          { store := s,
            response := failure 400
              ("Only " ++ toString event0.available_seats ++ " seats available"),
            emitted := [],
            conn := [ConnOp.beginTransaction, ConnOp.rollback, ConnOp.release] }
        else
          let total_amount := jsMul event0.price (JsNumber.ofInt quantity)
          let booking_code := generateBookingCode uuid
          let insertId := s.nextBookingId
          -- the INSERT leaves `status` and `booking_date` to the column defaults
          let row : Booking :=
            { id := insertId, event_id := event_id, name := name, email := email,
              mobile := mobile, quantity := quantity, total_amount := total_amount,
              booking_code := booking_code, status := BookingStatus.confirmed,
              booking_date := now }
          let s1 : Store :=
            { s with bookings := s.bookings ++ [row], nextBookingId := insertId + 1 }
          let s2 : Store :=
            { s1 with events := s1.events.map (fun e =>
                if e.id = event_id then
                  { e with available_seats := e.available_seats - quantity }
                else e) }
          -- committed; what follows reads through the pool
          let newBooking := joinBookings s2 (fun b => b.id == insertId)
          match selectEvents s2 event_id with
          | [] =>
            -- updatedEvent[0] is undefined: the TypeError lands in the catch block
            { store := s2, response := failure 500 "Failed to create booking", emitted := [],
              conn := [ConnOp.beginTransaction, ConnOp.commit, ConnOp.rollback,
                ConnOp.release] }
          | updated0 :: _ =>
            { store := s2,
              response :=
                { status := 201, success := true, payload := Payload.booking newBooking.head? },
              emitted :=
                [Emit.seatUpdate event_id updated0.available_seats,
                 Emit.bookingCreated newBooking.head?],
              conn := [ConnOp.beginTransaction, ConnOp.commit, ConnOp.release] }
  | _, _, _, _, _ => invalid

/-- Handler of `PUT /api/bookings/:id/cancel` (Cancel). -/
def bookings_put_cancel (s : Store) (bookingId : Nat) : Outcome :=
  match selectBookings s bookingId with
  | [] =>
    { store := s, response := failure 404 "Booking not found", emitted := [],
      conn := [ConnOp.beginTransaction, ConnOp.rollback, ConnOp.release] }
  | booking0 :: _ =>
    if booking0.status = BookingStatus.cancelled then
      { store := s, response := failure 400 "Booking already cancelled", emitted := [],
        conn := [ConnOp.beginTransaction, ConnOp.rollback, ConnOp.release] }
    else
      let s1 : Store :=
        { s with bookings := s.bookings.map (fun b =>
            if b.id = bookingId then { b with status := BookingStatus.cancelled } else b) }
      let s2 : Store :=
        { s1 with events := s1.events.map (fun e =>
            if e.id = booking0.event_id then
              { e with available_seats := e.available_seats + booking0.quantity }
            else e) }
      -- committed; what follows reads through the pool
      match selectEvents s2 booking0.event_id with
      | [] =>
        -- updatedEvent[0] is undefined: the TypeError lands in the catch block
        { store := s2, response := failure 500 "Failed to cancel booking", emitted := [],
          conn := [ConnOp.beginTransaction, ConnOp.commit, ConnOp.rollback, ConnOp.release] }
      | updated0 :: _ =>
        { store := s2,
          response :=
            { status := 200, success := true,
              payload := Payload.message "Booking cancelled successfully" },
          emitted := [Emit.seatUpdate booking0.event_id updated0.available_seats],
          conn := [ConnOp.beginTransaction, ConnOp.commit, ConnOp.release] }

/-! ## `routes/events.js` -/

/-- Handler of `POST /api/events` (create-event). -/
def events_post (s : Store) (body : EventBody) : Outcome :=
  let invalid : Outcome :=
    { store := s, response := failure 400 "Title, location, and date are required",
      emitted := [], conn := [] }
  match body.title, body.location, body.date with
  | some title, some location, some date =>
    if title = "" ∨ location = "" ∨ date = "" then invalid
    else
      -- total_seats || 100 and price || 0
      let seats : Int :=
        match body.total_seats with
        | some n => if n = 0 then 100 else n
        | none => 100
      let price : JsNumber :=
        match body.price with
        | some p => if p = 0 ∨ p = JsNumber.nan then 0 else p
        | none => 0
      let insertId := s.nextEventId
      let row : Event :=
        { id := insertId, title := title, description := body.description,
          location := location, date := date, total_seats := seats,
          available_seats := seats, price := price, img := body.img }
      let s1 : Store := { s with events := s.events ++ [row], nextEventId := insertId + 1 }
      let newEvent := selectEvents s1 insertId
      { store := s1,
        response := { status := 201, success := true, payload := Payload.event newEvent.head? },
        emitted := [Emit.eventCreated newEvent.head?], conn := [] }
  | _, _, _ => invalid

/-- Handler of `PUT /api/events/:id` (update-event). -/
def events_put (s : Store) (eventId : Nat) (body : EventBody) : Outcome :=
  match selectEvents s eventId with
  | [] => { store := s, response := failure 404 "Event not found", emitted := [], conn := [] }
  | current0 :: _ =>
    let available_seats : Int :=
      match body.total_seats with
      | some total_seats =>
        if total_seats ≠ 0 ∧ total_seats ≠ current0.total_seats then
          let bookedSeats := current0.total_seats - current0.available_seats
          max 0 (total_seats - bookedSeats)
        else current0.available_seats
      | none => current0.available_seats
    let s1 : Store :=
      { s with events := s.events.map (fun e =>
          if e.id = eventId then
            { e with
              title := coalesce body.title e.title,
              description :=
                match body.description with
                | some d => some d
                | none => e.description,
              location := coalesce body.location e.location,
              date := coalesce body.date e.date,
              total_seats := coalesce body.total_seats e.total_seats,
              available_seats := available_seats,
              price := coalesce body.price e.price,
              img :=
                match body.img with
                | some i => some i
                | none => e.img }
          else e) }
    let updatedEvent := selectEvents s1 eventId
    { store := s1,
      response := { status := 200, success := true, payload := Payload.event updatedEvent.head? },
      emitted := [Emit.eventUpdated updatedEvent.head?], conn := [] }

/-- Handler of `DELETE /api/events/:id` (delete-event). -/
def events_delete (s : Store) (eventId : Nat) : Outcome :=
  match selectEvents s eventId with
  | [] => { store := s, response := failure 404 "Event not found", emitted := [], conn := [] }
  | _ :: _ =>
    { store := { s with events := s.events.filter (fun e => e.id != eventId) },
      response :=
        { status := 200, success := true, payload := Payload.message "Event deleted successfully" },
      emitted := [Emit.eventDeleted eventId], conn := [] }

/-! ## Requests and runs -/

/-- The state-changing requests of the server. -/
inductive Request where
  | createEvent (body : EventBody)
  | updateEvent (eventId : Nat) (body : EventBody)
  | deleteEvent (eventId : Nat)
  | reserve (body : BookingBody) (uuid : String) (now : Nat)
  | cancel (bookingId : Nat)
deriving DecidableEq

/-- Dispatch of a request to its handler. -/
def handle (s : Store) : Request → Outcome
  | Request.createEvent body => events_post s body
  | Request.updateEvent eventId body => events_put s eventId body
  | Request.deleteEvent eventId => events_delete s eventId
  | Request.reserve body uuid now => bookings_post s body uuid now
  | Request.cancel bookingId => bookings_put_cancel s bookingId

/-- The store after serving the requests one after another. -/
def run (s : Store) (rs : List Request) : Store :=
  rs.foldl (fun acc r => (handle acc r).store) s

/-- Sum of the quantities of the confirmed bookings of one event. -/
def confirmedSeats (bookings : List Booking) (eventId : Nat) : Int :=
  ((bookings.filter (fun b =>
    b.event_id == eventId && b.status == BookingStatus.confirmed)).map
      (fun b => b.quantity)).sum

/-- The store a committed reservation of `q` seats on event `eid` leaves behind. -/
def reserved (s : Store) (eid : Nat) (n em m : String) (q : Int) (price : JsNumber)
    (uuid : String) (now : Nat) : Store :=
  { events := s.events.map (fun x =>
      if x.id = eid then { x with available_seats := x.available_seats - q } else x),
    bookings := s.bookings ++
      [{ id := s.nextBookingId, event_id := eid, name := n, email := em, mobile := m,
         quantity := q, total_amount := jsMul price (JsNumber.ofInt q),
         booking_code := generateBookingCode uuid,
         status := BookingStatus.confirmed, booking_date := now }],
    nextEventId := s.nextEventId,
    nextBookingId := s.nextBookingId + 1 }


/-! ## Concrete stores and requests used as witnesses -/

/-- The create-event request of scenario A: two seats at price 50. -/
def concertBody : EventBody :=
  { title := some "Concert", description := none, location := some "Hall",
    date := some "2025-06-01 20:00:00", total_seats := some 2, price := some 50, img := none }

/-- Scenario A: a fresh store holding one event with total = available = 2 and price 50. -/
def scenarioA : Store := (events_post Store.empty concertBody).store

/-- The event of scenario A as created. -/
def concert : Event :=
  { id := 1, title := "Concert", description := none, location := "Hall",
    date := "2025-06-01 20:00:00", total_seats := 2, available_seats := 2, price := 50,
    img := none }

/-- A booking request by one customer for `q` seats of event `eid`. -/
def order (eid : Nat) (q : Int) : BookingBody :=
  { event_id := some eid, name := some "Ann", email := some "ann@example.org",
    mobile := some "5550100", quantity := some q }

/-- Scenario A after both seats were reserved. -/
def soldOutA : Store :=
  (bookings_post scenarioA (order 1 2) "3f2a9c1e-0b7d-4e58-9a6f-1c2d3e4f5a6b" 10).store

/-- The create-event request of scenario B: an event priced 20. -/
def workshopBody : EventBody :=
  { title := some "Workshop", description := some "Hands-on", location := some "Lab",
    date := some "2025-07-15 09:00:00", total_seats := none, price := some 20, img := none }

/-- Scenario B: a fresh store holding one event with price 20 (and the default 100 seats). -/
def scenarioB : Store := (events_post Store.empty workshopBody).store

/-- The event of scenario B as created. -/
def workshop : Event :=
  { id := 1, title := "Workshop", description := some "Hands-on", location := "Lab",
    date := "2025-07-15 09:00:00", total_seats := 100, available_seats := 100, price := 20,
    img := none }

/-- The store a committed cancellation of booking `bookingId`, which holds `q` seats of event
`eventId`, leaves behind. -/
def cancelled (s : Store) (bookingId eventId : Nat) (q : Int) : Store :=
  { events := s.events.map (fun x =>
      if x.id = eventId then { x with available_seats := x.available_seats + q } else x),
    bookings := s.bookings.map (fun b =>
      if b.id = bookingId then { b with status := BookingStatus.cancelled } else b),
    nextEventId := s.nextEventId,
    nextBookingId := s.nextBookingId }

/-- Primary keys and references: identifiers were handed out by the counters and are pairwise
distinct, and every booking references an identifier that was handed out. -/
def KeysOk (s : Store) : Prop :=
  (∀ e ∈ s.events, e.id < s.nextEventId)
  ∧ s.events.Pairwise (fun a b => a.id ≠ b.id)
  ∧ (∀ b ∈ s.bookings, b.id < s.nextBookingId ∧ b.event_id < s.nextEventId)
  ∧ s.bookings.Pairwise (fun a b => a.id ≠ b.id)

/-- The outcomes of serving the requests one after another, in order. -/
def serve (s : Store) : List Request → List Outcome
  | [] => []
  | r :: rs => handle s r :: serve (handle s r).store rs

/-- The row written by `UPDATE events SET ... WHERE id = ?` over a row `e`, with the
`available_seats` value the handler computed. -/
def updatedRow (body : EventBody) (available_seats : Int) (e : Event) : Event :=
  { e with
    title := coalesce body.title e.title,
    description :=
      match body.description with
      | some d => some d
      | none => e.description,
    location := coalesce body.location e.location,
    date := coalesce body.date e.date,
    total_seats := coalesce body.total_seats e.total_seats,
    available_seats := available_seats,
    price := coalesce body.price e.price,
    img :=
      match body.img with
      | some i => some i
      | none => e.img }

/-- The `available_seats` value computed by the update handler from the current row. -/
def resizedAvailable (body : EventBody) (current0 : Event) : Int :=
  match body.total_seats with
  | some total_seats =>
    if total_seats ≠ 0 ∧ total_seats ≠ current0.total_seats then
      max 0 (total_seats - (current0.total_seats - current0.available_seats))
    else current0.available_seats
  | none => current0.available_seats

/-- The booking row of scenario A after both seats were reserved. -/
def annBooking : Booking :=
  { id := 1, event_id := 1, name := "Ann", email := "ann@example.org", mobile := "5550100",
    quantity := 2, total_amount := 100, booking_code := "EVT-3F2A9C1E",
    status := BookingStatus.confirmed, booking_date := 10 }

/-- Scenario A after both seats were reserved and the booking was cancelled again. -/
def cancelledA : Store := (bookings_put_cancel soldOutA 1).store

/-- A Reserve request for `q` seats of event `eid` with every field present. -/
def isOrderFor (eid : Nat) (q : Int) : Request → Bool
  | Request.reserve body _ _ =>
    body.event_id == some eid && body.quantity == some q
      && (match body.name with
          | some n => n != ""
          | none => false)
      && (match body.email with
          | some em => em != ""
          | none => false)
      && (match body.mobile with
          | some m => m != ""
          | none => false)
  | _ => false

/-- A fresh store holding one event with five seats. -/
def fiveSeats : Store :=
  (events_post Store.empty
    { title := some "Recital", description := none, location := some "Club",
      date := some "2025-09-09 19:30:00", total_seats := some 5, price := some 12,
      img := none }).store

/-- Three requests for two seats each of event 1. -/
def threeOrders : List Request :=
  [Request.reserve (order 1 2) "11111111-1111-4111-8111-111111111111" 21,
   Request.reserve (order 1 2) "22222222-2222-4222-8222-222222222222" 22,
   Request.reserve (order 1 2) "33333333-3333-4333-8333-333333333333" 23]

/-- The event of `fiveSeats` as created. -/
def recital : Event :=
  { id := 1, title := "Recital", description := none, location := "Club",
    date := "2025-09-09 19:30:00", total_seats := 5, available_seats := 5, price := 12,
    img := none }

/-! ## Runs that keep the seat accounting -/

/-- A request that stays within the seat accounting when served in store `s`: a create-event
request carries no negative `total_seats`; an update-event request carries no `total_seats`, or
one that is non-zero and not below the seats currently booked on the event
(`total_seats - available_seats`); a Reserve request that carries a quantity carries a
positive one. -/
def orderly (s : Store) : Request → Bool
  | Request.createEvent body =>
    match body.total_seats with
    | some t => decide (0 ≤ t)
    | none => true
  | Request.updateEvent eventId body =>
    match body.total_seats with
    | some t =>
      decide (t ≠ 0)
        && s.events.all (fun e =>
            e.id != eventId || decide (e.total_seats - e.available_seats ≤ t))
    | none => true
  | Request.deleteEvent _ => true
  | Request.reserve body _ _ =>
    match body.quantity with
    | some q => decide (0 < q)
    | none => true
  | Request.cancel _ => true

/-- Every request of the run satisfies `p` in the store it is served in. -/
def runWhere (p : Store → Request → Bool) (s : Store) : List Request → Bool
  | [] => true
  | r :: rs => p s r && runWhere p (handle s r).store rs

/-- Whether the request is a delete-event request. -/
def isDelete : Request → Bool
  | Request.deleteEvent _ => true
  | _ => false

/-- The seat accounting of a store: booked quantities are positive, and every event has a
non-negative `available_seats` equal to `total_seats` minus its confirmed seats. -/
def SeatsAccounted (s : Store) : Prop :=
  (∀ b ∈ s.bookings, 0 < b.quantity)
  ∧ ∀ e ∈ s.events,
      0 ≤ e.available_seats
      ∧ e.available_seats = e.total_seats - confirmedSeats s.bookings e.id

/-- An update-event body that only carries `total_seats`. -/
def resizeTo (t : Int) : EventBody :=
  { title := none, description := none, location := none, date := none,
    total_seats := some t, price := none, img := none }

/-- Scenario C as a run: an event with 100 seats, a booking of 70 of them, then an admin
update that sets `total_seats` to 40. -/
def shrinkRun : List Request :=
  [Request.createEvent
     { title := some "Festival", description := none, location := some "Park",
       date := some "2025-08-20 12:00:00", total_seats := some 100, price := some 30,
       img := none },
   Request.reserve (order 1 70) "5c0ffee5-aaaa-4aaa-8aaa-aaaaaaaaaaaa" 31,
   Request.updateEvent 1 (resizeTo 40)]

/-- A run of orderly requests of every kind. -/
def orderlyRun : List Request :=
  [Request.createEvent concertBody,
   Request.reserve (order 1 2) "3f2a9c1e-0b7d-4e58-9a6f-1c2d3e4f5a6b" 10,
   Request.cancel 1,
   Request.updateEvent 1 (resizeTo 10),
   Request.reserve (order 1 3) "0a1b2c3d-4e5f-4a6b-8c7d-9e8f7a6b5c4d" 12,
   Request.createEvent workshopBody,
   Request.reserve (order 2 4) "abcdef01-2345-4678-89ab-cdef01234567" 13,
   Request.deleteEvent 2]

/-- A run of orderly requests without delete-event. -/
def orderlyRunNoDelete : List Request :=
  [Request.createEvent concertBody,
   Request.reserve (order 1 2) "3f2a9c1e-0b7d-4e58-9a6f-1c2d3e4f5a6b" 10,
   Request.updateEvent 1 (resizeTo 7),
   Request.reserve (order 1 5) "0a1b2c3d-4e5f-4a6b-8c7d-9e8f7a6b5c4d" 12,
   Request.cancel 1]

/-! ## Lookup by booking code, and missing fields -/

/-- Handler of `GET /api/bookings/code/:code` (Get-booking-by-code): the first row of the
join whose `booking_code` is the requested one. -/
def bookings_get_code (s : Store) (code : String) : Response :=
  match joinBookings s (fun b => b.booking_code == code) with
  | [] => failure 404 "Booking not found"
  | row0 :: _ => { status := 200, success := true, payload := Payload.booking (some row0) }

/-- Whether the validation `!event_id || !name || !email || !mobile || !quantity` of
`router.post('/')` fires: some field is absent, or present with a falsy value (`0`, `""`). -/
def missingField (body : BookingBody) : Bool :=
  (match body.event_id with
   | some event_id => event_id == 0
   | none => true)
  || (match body.name with
      | some name => name == ""
      | none => true)
  || (match body.email with
      | some email => email == ""
      | none => true)
  || (match body.mobile with
      | some mobile => mobile == ""
      | none => true)
  || (match body.quantity with
      | some quantity => quantity == 0
      | none => true)

/-- One booking row before and after a request: untouched, or moved from `confirmed` to
`cancelled` with every other field kept. -/
def StatusStep (b b' : Booking) : Prop :=
  b' = b ∨ (b.status = BookingStatus.confirmed
    ∧ b' = { b with status := BookingStatus.cancelled })

/-- A booking request that leaves out the customer name. -/
def namelessOrder : BookingBody :=
  { event_id := some 1, name := none, email := some "ann@example.org",
    mobile := some "5550100", quantity := some 1 }

/-- A run of orderly requests without delete-event that ends before a cancellation. -/
def runBeforeCancel : List Request :=
  [Request.createEvent concertBody,
   Request.reserve (order 1 2) "3f2a9c1e-0b7d-4e58-9a6f-1c2d3e4f5a6b" 10,
   Request.updateEvent 1 (resizeTo 7),
   Request.reserve (order 1 5) "0a1b2c3d-4e5f-4a6b-8c7d-9e8f7a6b5c4d" 12]

/-! ## Canonical UUID text -/

/-- The hexadecimal digits, in either case. -/
def hexDigits : List Char := "0123456789abcdefABCDEF".data

/-- The hexadecimal digits without the lower-case letters. -/
def upperHexDigits : List Char := "0123456789ABCDEF".data

/-- Whether the characters are groups of hexadecimal digits of the given lengths, separated
by single hyphens. -/
def hexGroups : List Char → List Nat → Bool
  | _, [] => false
  | cs, [n] => cs.length == n && cs.all (fun c => decide (c ∈ hexDigits))
  | cs, n :: m :: ns =>
    (cs.take n).length == n && (cs.take n).all (fun c => decide (c ∈ hexDigits))
      && (cs.drop n).head? == some '-' && hexGroups (cs.drop (n + 1)) (m :: ns)

/-- A UUID in canonical form: five hyphen-separated groups of 8-4-4-4-12 hexadecimal digits. -/
def isCanonicalUuid (uuid : String) : Bool :=
  hexGroups uuid.data [8, 4, 4, 4, 12]

/-- Two Reserve requests, after the creation of the event of scenario B, whose UUIDs differ
but share the first group. -/
def collidingRun : List Request :=
  [Request.createEvent workshopBody,
   Request.reserve (order 1 1) "c0ffee00-1111-4111-8111-111111111111" 41,
   Request.reserve (order 1 3) "c0ffee00-2222-4222-9222-222222222222" 42]

/-- The booking row carried by a response, when it carries one. -/
def returnedBooking (r : Response) : Option Booking :=
  match r.payload with
  | Payload.booking (some row) => some row.booking
  | _ => none

/-- A run that books a seat of the event of scenario B and then deletes the event. -/
def orphaningRun : List Request :=
  [Request.createEvent workshopBody,
   Request.reserve (order 1 1) "9b1deb4d-3b7d-4bad-9bdd-2b0d7b3dcb6d" 10,
   Request.deleteEvent 1]

/-- Scenario B after one seat was reserved. -/
def bookedB : Store :=
  (bookings_post scenarioB (order 1 1) "9b1deb4d-3b7d-4bad-9bdd-2b0d7b3dcb6d" 10).store

/-- The store in which the second request of `collidingRun` is served. -/
def beforeCollision : Store :=
  run Store.empty
    [Request.createEvent workshopBody,
     Request.reserve (order 1 1) "c0ffee00-1111-4111-8111-111111111111" 41]

/-! ## Failures after the commit -/

/-- The steps of `router.post('/')` between `connection.commit()` and the response that can
raise: the two reads through the pool and the two `io.emit` calls. -/
inductive PostCommitStep where
  | rereadBooking
  | rereadEvent
  | emitSeatUpdate
  | emitBookingCreated
deriving DecidableEq

/-- What `router.post('/')` does after `connection.commit()` on the committed store `s2`, when
the step `fault` (if any) raises as it is reached. The steps sit in the `try` block of the
handler, so a raise lands in its `catch`: `connection.rollback()`, then 500. -/
def afterCommit (fault : Option PostCommitStep) (s2 : Store) (event_id insertId : Nat) :
    Outcome :=
  let caught (emitted : List Emit) : Outcome :=
    { store := s2, response := failure 500 "Failed to create booking", emitted := emitted,
      conn := [ConnOp.beginTransaction, ConnOp.commit, ConnOp.rollback, ConnOp.release] }
  if fault = some PostCommitStep.rereadBooking then caught []
  else
    let newBooking := joinBookings s2 (fun b => b.id == insertId)
    if fault = some PostCommitStep.rereadEvent then caught []
    else
      match selectEvents s2 event_id with
      | [] => caught []
      | updated0 :: _ =>
        if fault = some PostCommitStep.emitSeatUpdate then caught []
        else if fault = some PostCommitStep.emitBookingCreated then
          caught [Emit.seatUpdate event_id updated0.available_seats]
        else
          { store := s2,
            response :=
              { status := 201, success := true, payload := Payload.booking newBooking.head? },
            emitted :=
              [Emit.seatUpdate event_id updated0.available_seats,
               Emit.bookingCreated newBooking.head?],
            conn := [ConnOp.beginTransaction, ConnOp.commit, ConnOp.release] }

/-- Handler of `POST /api/bookings` in an environment where the post-commit step `fault`, if
any, raises. With `fault = none` it is `bookings_post`. -/
def bookings_post_env (fault : Option PostCommitStep) (s : Store) (body : BookingBody)
    (uuid : String) (now : Nat) : Outcome :=
  let invalid : Outcome :=
    { store := s, response := failure 400 "All fields are required", emitted := [],
      conn := [ConnOp.beginTransaction, ConnOp.release] }
  match body.event_id, body.name, body.email, body.mobile, body.quantity with
  | some event_id, some name, some email, some mobile, some quantity =>
    if event_id = 0 ∨ name = "" ∨ email = "" ∨ mobile = "" ∨ quantity = 0 then invalid
    else
      match selectEvents s event_id with
      | [] =>
        { store := s, response := failure 404 "Event not found", emitted := [],
          conn := [ConnOp.beginTransaction, ConnOp.rollback, ConnOp.release] }
      | event0 :: _ =>
        if event0.available_seats < quantity then
          { store := s,
            response := failure 400
              ("Only " ++ toString event0.available_seats ++ " seats available"),
            emitted := [],
            conn := [ConnOp.beginTransaction, ConnOp.rollback, ConnOp.release] }
        else
          let total_amount := jsMul event0.price (JsNumber.ofInt quantity)
          let booking_code := generateBookingCode uuid
          let insertId := s.nextBookingId
          let row : Booking :=
            { id := insertId, event_id := event_id, name := name, email := email,
              mobile := mobile, quantity := quantity, total_amount := total_amount,
              booking_code := booking_code, status := BookingStatus.confirmed,
              booking_date := now }
          let s1 : Store :=
            { s with bookings := s.bookings ++ [row], nextBookingId := insertId + 1 }
          let s2 : Store :=
            { s1 with events := s1.events.map (fun e =>
                if e.id = event_id then
                  { e with available_seats := e.available_seats - quantity }
                else e) }
          afterCommit fault s2 event_id insertId
  | _, _, _, _, _ => invalid

/-! ## Client: quantity selector and seat updates -/

/-- The quantity kept by `handleQuantityChange` of `EventDetailsPage.jsx`: the state
`quantity` after a call with `delta`, on an event with the given `available_seats`. -/
def handleQuantityChange (available_seats : Int) (quantity : Int) (delta : Int) : Int :=
  let newQuantity := quantity + delta
  if newQuantity ≥ 1 ∧ newQuantity ≤ min 10 available_seats then newQuantity else quantity

/-- The quantity after a sequence of `handleQuantityChange` calls, starting from `quantity`. -/
def quantityAfter (available_seats : Int) (quantity : Int) (deltas : List Int) : Int :=
  deltas.foldl (handleQuantityChange available_seats) quantity

/-- The `seatUpdate` listener of `EventsPage.jsx` and `AdminDashboard.jsx`: the event list
after the message `{ eventId, availableSeats }`. -/
def onSeatUpdate (prev : List Event) (eventId : Nat) (availableSeats : Int) : List Event :=
  prev.map (fun e => if e.id = eventId then { e with available_seats := availableSeats } else e)

/-- Whether the validation `!title || !location || !date` of the create-event handler fires:
some field is absent or the empty string. -/
def missingEventField (body : EventBody) : Bool :=
  (match body.title with
   | some title => title == ""
   | none => true)
  || (match body.location with
      | some location => location == ""
      | none => true)
  || (match body.date with
      | some date => date == ""
      | none => true)

/-- The run of scenario C followed by the cancellation of the booking of 70 seats: the event
is left with `total_seats = 40` and `available_seats = 70`. -/
def shrinkThenCancelRun : List Request :=
  shrinkRun ++ [Request.cancel 1]

/-! ## The order of the actions of Reserve -/

/-- An action of a handler that is visible outside it: a call on the pooled connection or a
message handed to `io.emit`. -/
inductive LogEntry where
  | conn (op : ConnOp)
  | emit (m : Emit)
deriving DecidableEq

/-- The actions of `router.post('/')` of `routes/bookings.js` in the order in which the handler
performs them (`connection.release()` sits in the `finally` block and comes last). -/
def bookings_post_log (s : Store) (body : BookingBody) (uuid : String) (now : Nat) :
    List LogEntry :=
  let invalid : List LogEntry :=
    [LogEntry.conn ConnOp.beginTransaction, LogEntry.conn ConnOp.release]
  let rolledBack : List LogEntry :=
    [LogEntry.conn ConnOp.beginTransaction, LogEntry.conn ConnOp.rollback,
     LogEntry.conn ConnOp.release]
  match body.event_id, body.name, body.email, body.mobile, body.quantity with
  | some event_id, some name, some email, some mobile, some quantity =>
    if event_id = 0 ∨ name = "" ∨ email = "" ∨ mobile = "" ∨ quantity = 0 then invalid
    else
      match selectEvents s event_id with
      | [] => rolledBack
      | event0 :: _ =>
        if event0.available_seats < quantity then rolledBack
        else
          let s2 : Store :=
            reserved s event_id name email mobile quantity event0.price uuid now
          let newBooking := joinBookings s2 (fun b => b.id == s.nextBookingId)
          match selectEvents s2 event_id with
          | [] =>
            [LogEntry.conn ConnOp.beginTransaction, LogEntry.conn ConnOp.commit,
             LogEntry.conn ConnOp.rollback, LogEntry.conn ConnOp.release]
          | updated0 :: _ =>
            [LogEntry.conn ConnOp.beginTransaction, LogEntry.conn ConnOp.commit,
             LogEntry.emit (Emit.seatUpdate event_id updated0.available_seats),
             LogEntry.emit (Emit.bookingCreated newBooking.head?),
             LogEntry.conn ConnOp.release]
  | _, _, _, _, _ => invalid

/-- The connection call of a log entry, if it is one. -/
def LogEntry.connOp? : LogEntry → Option ConnOp
  | LogEntry.conn op => some op
  | LogEntry.emit _ => none

/-- The message of a log entry, if it is one. -/
def LogEntry.message? : LogEntry → Option Emit
  | LogEntry.conn _ => none
  | LogEntry.emit m => some m

/-! ## List bookings (admin) -/

/-- Handler of `GET /api/bookings` (List bookings, admin): the join of bookings with their
events, without the image column, `ORDER BY b.booking_date DESC`. -/
def bookings_get (s : Store) : Response :=
  { status := 200, success := true,
    payload := Payload.bookings
      (List.insertionSort (fun a b => b.booking.booking_date ≤ a.booking.booking_date)
        ((joinBookings s (fun _ => true)).map (fun row => { row with event_img := none }))) }

/-- The rows carried by a response that lists bookings. -/
def listedBookings (r : Response) : List JoinedBooking :=
  match r.payload with
  | Payload.bookings rows => rows
  | _ => []

/-- Whether the event a booking references is still in the events table. -/
def hasEvent (s : Store) (b : Booking) : Bool :=
  s.events.any (fun e => e.id == b.event_id)

/-! ## Client: countdown -/

/-- The value returned by `calculateTimeLeft` of `CountdownTimer.jsx`. -/
structure TimeLeft where
  days : Int
  hours : Int
  minutes : Int
  seconds : Int
deriving DecidableEq

/-- JavaScript `x % m` on numbers taken as exact rationals: the quotient is truncated towards
zero, so the remainder has the sign of `x`. -/
def jsRem (x m : ℚ) : ℚ :=
  x - m * (if 0 ≤ x / m then (⌊x / m⌋ : ℚ) else (⌈x / m⌉ : ℚ))

/-- The countdown of `CountdownTimer.jsx` for `difference = new Date(targetDate) - new Date()`
milliseconds; JavaScript numbers are taken as exact rationals and `Math.floor` as the floor. -/
def calculateTimeLeft (difference : Int) : TimeLeft :=
  if difference ≤ 0 then { days := 0, hours := 0, minutes := 0, seconds := 0 }
  else
    { days := ⌊(difference : ℚ) / (1000 * 60 * 60 * 24)⌋,
      hours := ⌊jsRem ((difference : ℚ) / (1000 * 60 * 60)) 24⌋,
      minutes := ⌊jsRem ((difference : ℚ) / 1000 / 60) 60⌋,
      seconds := ⌊jsRem ((difference : ℚ) / 1000) 60⌋ }

/-! ## List events -/

/-- The query string of `GET /api/events`. -/
structure EventQuery where
  search : Option String
  location : Option String
  date : Option String
  startDate : Option String
  endDate : Option String
deriving DecidableEq

/-- SQL `text LIKE pattern` on the characters of pattern and text: `%` stands for any run of
characters, `_` for any one character, and a backslash makes the character after it stand for
itself. Characters are compared exactly. -/
def likeMatch : List Char → List Char → Bool
  | [], t => t.isEmpty
  | '%' :: p, t => t.tails.any (fun u => likeMatch p u)
  | '_' :: p, t =>
    match t with
    | [] => false
    | _ :: u => likeMatch p u
  | '\\' :: x :: p, t =>
    match t with
    | [] => false
    | c :: u => x == c && likeMatch p u
  | x :: p, t =>
    match t with
    | [] => false
    | c :: u => x == c && likeMatch p u

/-- SQL `column LIKE ?` with the parameter `%value%`. -/
def likeContains (value text : String) : Bool :=
  likeMatch ('%' :: value.data ++ ['%']) text.data

/-- Order of two date-time texts, character by character; on texts of the form
`YYYY-MM-DD HH:MM:SS` (or a leading part of it) it is the order in time. -/
def textLe : List Char → List Char → Bool
  | [], _ => true
  | _ :: _, [] => false
  | a :: s, b :: t => decide (a < b) || (a == b && textLe s t)

/-- The `WHERE` clause built by `router.get("/")` of `routes/events.js`: a filter is added for
each parameter that is present and not the empty string. A row whose description is `NULL`
does not match through its description. -/
def eventMatches (q : EventQuery) (e : Event) : Bool :=
  (match q.search with
   | some v =>
     v == "" || likeContains v e.title
       || (match e.description with
           | some d => likeContains v d
           | none => false)
   | none => true)
  && (match q.location with
      | some v => v == "" || likeContains v e.location
      | none => true)
  && (match q.date with
      | some v => v == "" || String.mk (e.date.data.take 10) == v
      | none => true)
  && (match q.startDate with
      | some v => v == "" || textLe v.data e.date.data
      | none => true)
  && (match q.endDate with
      | some v => v == "" || textLe e.date.data v.data
      | none => true)

/-- Handler of `GET /api/events` (List events): the rows matching the filters,
`ORDER BY date ASC`. -/
def events_get (s : Store) (q : EventQuery) : Response :=
  { status := 200, success := true,
    payload := Payload.events
      (List.insertionSort (fun a b => textLe a.date.data b.date.data = true)
        (s.events.filter (eventMatches q))) }

/-- The rows carried by a response that lists events. -/
def listedEvents (r : Response) : List Event :=
  match r.payload with
  | Payload.events rows => rows
  | _ => []

/-- Whether a filter value, if present, contains none of the characters `%`, `_` and
backslash, which `LIKE` does not take literally. -/
def isPlain (v : Option String) : Bool :=
  match v with
  | some t => t.data.all (fun c => c != '%' && c != '_' && c != '\\')
  | none => true

/-- The filters as the specification words them: each filter that is present and not empty
must hold of the event; `search` is a substring of the title or of the description,
`location` a substring of the location, `date` the calendar date of the event, and
`startDate ≤ date ≤ endDate`. -/
def satisfiesFilters (q : EventQuery) (e : Event) : Prop :=
  (∀ v, q.search = some v → v ≠ "" →
    v.data <:+: e.title.data ∨ ∃ d, e.description = some d ∧ v.data <:+: d.data)
  ∧ (∀ v, q.location = some v → v ≠ "" → v.data <:+: e.location.data)
  ∧ (∀ v, q.date = some v → v ≠ "" → String.mk (e.date.data.take 10) = v)
  ∧ (∀ v, q.startDate = some v → v ≠ "" → textLe v.data e.date.data = true)
  ∧ (∀ v, q.endDate = some v → v ≠ "" → textLe e.date.data v.data = true)

/-- The query without any filter. -/
def noFilter : EventQuery :=
  { search := none, location := none, date := none, startDate := none, endDate := none }

/-- A store with three events, created out of date order. -/
def threeEvents : Store :=
  run Store.empty
    [Request.createEvent
       { title := some "Festival", description := some "Open air", location := some "Park",
         date := some "2025-08-20 12:00:00", total_seats := some 100, price := some 30,
         img := none },
     Request.createEvent concertBody,
     Request.createEvent workshopBody]

/-- A create-event request for a large venue: 4000000000000000 seats at price 3. -/
def stadiumBody : EventBody :=
  { title := some "Final", description := none, location := some "Stadium",
    date := some "2025-10-10 18:00:00", total_seats := some 4000000000000000, price := some 3,
    img := none }

/-- A fresh store holding the event of `stadiumBody`. -/
def stadium : Store := (events_post Store.empty stadiumBody).store

/-- The price 29.99 as JavaScript reads it: the double `8441434551552573 × 2 ^ (-48)`. -/
def galaPrice : JsNumber := JsNumber.finite ((8441434551552573 * 2 ^ 1026 : Nat) : Int)

/-- A create-event request with a price in cents: 50 seats at 29.99. -/
def galaBody : EventBody :=
  { title := some "Gala", description := none, location := some "Opera",
    date := some "2025-12-31 21:00:00", total_seats := some 50, price := some galaPrice,
    img := none }

/-- A fresh store holding the event of `galaBody`. -/
def gala : Store := (events_post Store.empty galaBody).store

/-! # Theorems -/

/-! ## JavaScript numbers: what the rounding returns -/

/-- The digit count never exceeds an exponent whose power of two is above the number. -/
theorem bitLengthAux_le (j : Nat) : ∀ n b : Nat, n < 2 ^ b → bitLengthAux j n ≤ b := by
  induction j with
  | zero =>
    intro n b hb
    unfold bitLengthAux
    split_ifs with h0
    · exact Nat.zero_le b
    · rcases b with _ | b
      · simp at hb; exact absurd hb h0
      · exact Nat.succ_le_succ (Nat.zero_le b)
  | succ j ih =>
    intro n b hb
    unfold bitLengthAux
    split_ifs with hge
    · have hlt : 2 ^ 2 ^ j < 2 ^ b := lt_of_le_of_lt hge hb
      have hjb : 2 ^ j < b := (Nat.pow_lt_pow_iff_right (by norm_num)).mp hlt
      obtain ⟨c, rfl⟩ : ∃ c, b = 2 ^ j + c := ⟨b - 2 ^ j, by omega⟩
      have hdiv : n / 2 ^ 2 ^ j < 2 ^ c := by
        rw [Nat.div_lt_iff_lt_mul (by positivity)]
        rw [pow_add] at hb
        linarith [Nat.mul_comm (2 ^ 2 ^ j) (2 ^ c)]
      exact Nat.add_le_add_left (ih _ _ hdiv) _
    · exact ih n b hb

/-- A number below `2 ^ 2 ^ j` is below two to the power of its digit count. -/
theorem lt_two_pow_bitLengthAux (j : Nat) : ∀ n : Nat, n < 2 ^ 2 ^ j → n < 2 ^ bitLengthAux j n := by
  induction j with
  | zero =>
    intro n hn
    unfold bitLengthAux
    simp at hn
    split_ifs with h0
    · simp [h0]
    · simpa using hn
  | succ j ih =>
    intro n hn
    unfold bitLengthAux
    split_ifs with hge
    · have hdiv : n / 2 ^ 2 ^ j < 2 ^ 2 ^ j := by
        rw [Nat.div_lt_iff_lt_mul (by positivity)]
        calc n < 2 ^ 2 ^ (j + 1) := hn
          _ = 2 ^ 2 ^ j * 2 ^ 2 ^ j := by rw [← pow_add, pow_succ]; ring_nf
      have h := ih _ hdiv
      rw [pow_add]
      have := (Nat.div_lt_iff_lt_mul (by positivity : 0 < 2 ^ 2 ^ j)).mp h
      linarith [Nat.mul_comm (2 ^ 2 ^ j) (2 ^ bitLengthAux j (n / 2 ^ 2 ^ j))]
    · exact ih n (not_le.mp hge)

/-- Below `2 ^ 4096`, `bitLength` is the number of binary digits (`Nat.size`). -/
theorem bitLength_eq_size (n : Nat) (hn : n < 2 ^ 4096) : bitLength n = Nat.size n := by
  apply le_antisymm
  · exact bitLengthAux_le 12 n _ (Nat.lt_size_self n)
  · exact Nat.size_le.mpr (lt_two_pow_bitLengthAux 12 n (by simpa using hn))


/-- A number that is a whole multiple of `2 ^ s` is its own rounding. -/
theorem roundShift_of_dvd (n s : Nat) (h : 2 ^ s ∣ n) : roundShift n s = n / 2 ^ s := by
  have hr : n % 2 ^ s = 0 := Nat.mod_eq_zero_of_dvd h
  have hpos : 0 < 2 ^ s := by positivity
  simp [roundShift, hr, hpos]

/-- Rounding leaves a double as it is: a number `m × 2 ^ t` with `m < 2 ^ 53` and
`1074 ≤ t` that stays below `2 ^ 1024`. -/
theorem roundUnits_exact_of_lt (negative : Bool) (m t : Nat) (hm : m < 2 ^ 53) (ht : 1074 ≤ t)
    (hk : m * 2 ^ (t - 1074) < 2 ^ 2098) :
    roundUnits negative (m * 2 ^ t)
      = JsNumber.finite
          (if negative then -((m * 2 ^ (t - 1074) : Nat) : Int)
           else ((m * 2 ^ (t - 1074) : Nat) : Int)) := by
  have hsplit : m * 2 ^ t = m * 2 ^ (t - 1074) * 2 ^ 1074 := by
    rw [Nat.mul_assoc, ← pow_add, Nat.sub_add_cancel ht]
  have hn : m * 2 ^ t < 2 ^ 3172 := by
    rw [hsplit]
    calc m * 2 ^ (t - 1074) * 2 ^ 1074 < 2 ^ 2098 * 2 ^ 1074 :=
          Nat.mul_lt_mul_of_pos_right hk (by positivity)
      _ = 2 ^ 3172 := by rw [← pow_add]
  have hbits : bitLength (m * 2 ^ t) ≤ 53 + t := by
    apply bitLengthAux_le
    rw [pow_add]
    exact Nat.mul_lt_mul_of_pos_right hm (by positivity)
  have hs : max 1074 (bitLength (m * 2 ^ t) - 53) ≤ t := by
    apply max_le ht
    omega
  obtain ⟨s, hsdef⟩ : ∃ s, s = max 1074 (bitLength (m * 2 ^ t) - 53) := ⟨_, rfl⟩
  have hs1 : 1074 ≤ s := by rw [hsdef]; exact le_max_left _ _
  have hst : s ≤ t := by rw [hsdef]; exact hs
  have hdvd : 2 ^ s ∣ m * 2 ^ t := Dvd.dvd.mul_left (pow_dvd_pow 2 hst) m
  have hq : m * 2 ^ t / 2 ^ s = m * 2 ^ (t - s) := by
    have : m * 2 ^ t = m * 2 ^ (t - s) * 2 ^ s := by
      rw [Nat.mul_assoc, ← pow_add, Nat.sub_add_cancel hst]
    rw [this]
    exact Nat.mul_div_cancel _ (by positivity)
  have hkeq : roundShift (m * 2 ^ t) s * 2 ^ (s - 1074) = m * 2 ^ (t - 1074) := by
    have he : t - s + (s - 1074) = t - 1074 := by omega
    rw [roundShift_of_dvd _ _ hdvd, hq, Nat.mul_assoc, ← pow_add, he]
  unfold roundUnits
  rw [if_neg (not_le.mpr hn)]
  simp only
  rw [← hsdef, hkeq, if_neg (not_le.mpr hk)]

/-- Rounding leaves a double as it is, also at `m = 2 ^ 53`. -/
theorem roundUnits_exact (negative : Bool) (m t : Nat) (hm : m ≤ 2 ^ 53) (ht : 1074 ≤ t)
    (hk : m * 2 ^ (t - 1074) < 2 ^ 2098) :
    roundUnits negative (m * 2 ^ t)
      = JsNumber.finite
          (if negative then -((m * 2 ^ (t - 1074) : Nat) : Int)
           else ((m * 2 ^ (t - 1074) : Nat) : Int)) := by
  rcases Nat.lt_or_ge m (2 ^ 53) with hlt | hge
  · exact roundUnits_exact_of_lt negative m t hlt ht hk
  · have hmeq : m = 2 ^ 53 := le_antisymm hm hge
    have h1 : m * 2 ^ t = 2 ^ 52 * 2 ^ (t + 1) := by
      have he : 53 + t = 52 + (t + 1) := by omega
      rw [hmeq, ← pow_add, ← pow_add, he]
    have h2 : m * 2 ^ (t - 1074) = 2 ^ 52 * 2 ^ (t + 1 - 1074) := by
      have he : 53 + (t - 1074) = 52 + (t + 1 - 1074) := by omega
      rw [hmeq, ← pow_add, ← pow_add, he]
    rw [h1, h2]
    apply roundUnits_exact_of_lt negative (2 ^ 52) (t + 1) (by norm_num) (by omega)
    rw [← h2]
    exact hk

/-- A whole number of at most 53 binary digits is read as itself. -/
theorem ofInt_eq_whole (i : Int) (hi : i.natAbs ≤ 2 ^ 53) : JsNumber.ofInt i = JsNumber.whole i := by
  unfold JsNumber.ofInt JsNumber.whole
  have hk : i.natAbs * 2 ^ (2148 - 1074) < 2 ^ 2098 := by
    calc i.natAbs * 2 ^ (2148 - 1074) ≤ 2 ^ 53 * 2 ^ (2148 - 1074) :=
          Nat.mul_le_mul_right _ hi
      _ < 2 ^ 2098 := by rw [← pow_add]; exact Nat.pow_lt_pow_right (by norm_num) (by norm_num)
  rw [roundUnits_exact _ i.natAbs 2148 hi (by norm_num) hk]
  congr 1
  have h1074 : 2148 - 1074 = 1074 := by norm_num
  rw [h1074]
  rcases lt_or_le i 0 with hneg | hpos
  · simp only [hneg, decide_True, if_true]
    rw [Nat.cast_mul, Int.natCast_natAbs, abs_of_neg hneg]
    ring
  · simp only [not_lt.mpr hpos, decide_False, Bool.false_eq_true, if_false]
    rw [Nat.cast_mul, Int.natCast_natAbs, abs_of_nonneg hpos]

/-- The product of two whole numbers is exact as long as it has at most 53 binary digits. -/
theorem jsMul_whole (p q : Int) (h : (p * q).natAbs ≤ 2 ^ 53) :
    jsMul (JsNumber.whole p) (JsNumber.whole q) = JsNumber.whole (p * q) := by
  have hU : (0 : Int) < ((2 ^ 1074 : Nat) : Int) := by positivity
  have hn : (p * ((2 ^ 1074 : Nat) : Int)).natAbs * (q * ((2 ^ 1074 : Nat) : Int)).natAbs
      = (p * q).natAbs * 2 ^ 2148 := by
    rw [Int.natAbs_mul, Int.natAbs_mul, Int.natAbs_mul, Int.natAbs_ofNat]
    have : (2 : Nat) ^ 2148 = 2 ^ 1074 * 2 ^ 1074 := by rw [← pow_add]
    rw [this]
    ring
  have hk : (p * q).natAbs * 2 ^ (2148 - 1074) < 2 ^ 2098 := by
    calc (p * q).natAbs * 2 ^ (2148 - 1074) ≤ 2 ^ 53 * 2 ^ (2148 - 1074) :=
          Nat.mul_le_mul_right _ h
      _ < 2 ^ 2098 := by rw [← pow_add]; exact Nat.pow_lt_pow_right (by norm_num) (by norm_num)
  unfold JsNumber.whole
  simp only [jsMul]
  rw [hn, roundUnits_exact _ (p * q).natAbs 2148 h (by norm_num) hk]
  congr 1
  have h1074 : 2148 - 1074 = 1074 := by norm_num
  rw [h1074, Nat.cast_mul, Int.natCast_natAbs]
  have hp : (p * ((2 ^ 1074 : Nat) : Int) < 0) ↔ p < 0 := by
    constructor
    · intro hlt
      by_contra hge
      exact absurd hlt (not_lt.mpr (mul_nonneg (not_lt.mp hge) hU.le))
    · intro hlt
      exact mul_neg_of_neg_of_pos hlt hU
  have hq : (q * ((2 ^ 1074 : Nat) : Int) < 0) ↔ q < 0 := by
    constructor
    · intro hlt
      by_contra hge
      exact absurd hlt (not_lt.mpr (mul_nonneg (not_lt.mp hge) hU.le))
    · intro hlt
      exact mul_neg_of_neg_of_pos hlt hU
  simp only [hp, hq]
  rcases lt_trichotomy p 0 with hp0 | hp0 | hp0 <;> rcases lt_trichotomy q 0 with hq0 | hq0 | hq0
  · have : 0 < p * q := mul_pos_of_neg_of_neg hp0 hq0
    simp [hp0, hq0, abs_of_pos this]
  · subst hq0; simp
  · have : p * q < 0 := mul_neg_of_neg_of_pos hp0 hq0
    simp [hp0, not_lt.mpr hq0.le, abs_of_neg this]
  · subst hp0; simp
  · subst hp0; simp
  · subst hp0; simp
  · have : p * q < 0 := mul_neg_of_pos_of_neg hp0 hq0
    simp [hq0, not_lt.mpr hp0.le, abs_of_neg this]
  · subst hq0; simp
  · have : 0 < p * q := mul_pos hp0 hq0
    simp [not_lt.mpr hp0.le, not_lt.mpr hq0.le, abs_of_pos this]

/-- The rounding of `n / 2 ^ s` is the quotient when the remainder is at most half of
`2 ^ s`, and the quotient plus one when it is at least half. -/
theorem roundShift_cases (n s : Nat) :
    (roundShift n s = n / 2 ^ s ∧ 2 * (n % 2 ^ s) ≤ 2 ^ s)
    ∨ (roundShift n s = n / 2 ^ s + 1 ∧ 2 ^ s ≤ 2 * (n % 2 ^ s)) := by
  unfold roundShift
  simp only
  split_ifs with h1 h2 h3
  · exact Or.inl ⟨rfl, h1.le⟩
  · exact Or.inl ⟨rfl, h2.le⟩
  · exact Or.inr ⟨rfl, h2.ge⟩
  · exact Or.inr ⟨rfl, not_lt.mp h1⟩

/-- No double lies strictly between two neighbouring multiples of `2 ^ s`, when `s` is 1074 or
the lower multiple has 53 binary digits. -/
theorem no_double_between (m t s q : Nat) (hm : m < 2 ^ 53) (hs : s = 1074 ∨ 2 ^ 52 ≤ q)
    (hlo : q * 2 ^ s < m * 2 ^ (t + 1074)) (hhi : m * 2 ^ (t + 1074) < q * 2 ^ s + 2 ^ s) :
    False := by
  have hpos : 0 < 2 ^ s := by positivity
  by_cases hT : s ≤ t + 1074
  · have hD : m * 2 ^ (t + 1074) = m * 2 ^ (t + 1074 - s) * 2 ^ s := by
      rw [Nat.mul_assoc, ← pow_add, Nat.sub_add_cancel hT]
    rw [hD] at hlo hhi
    have h1 : q < m * 2 ^ (t + 1074 - s) := Nat.lt_of_mul_lt_mul_right hlo
    have h2 : m * 2 ^ (t + 1074 - s) < q + 1 := by
      apply Nat.lt_of_mul_lt_mul_right (a := 2 ^ s)
      rw [Nat.add_mul, Nat.one_mul]
      exact hhi
    omega
  · have hq : 2 ^ 52 ≤ q := by
      rcases hs with hs | hs
      · omega
      · exact hs
    have hle : t + 1074 + 1 ≤ s := by omega
    have h1 : m * 2 ^ (t + 1074) < 2 ^ 53 * 2 ^ (t + 1074) :=
      Nat.mul_lt_mul_of_pos_right hm (by positivity)
    have h2 : 2 ^ 53 * 2 ^ (t + 1074) ≤ 2 ^ 52 * 2 ^ s := by
      have : (2 : Nat) ^ 53 * 2 ^ (t + 1074) = 2 ^ 52 * 2 ^ (t + 1074 + 1) := by
        rw [← pow_add, ← pow_add]
        have he : 53 + (t + 1074) = 52 + (t + 1074 + 1) := by omega
        rw [he]
      rw [this]
      exact Nat.mul_le_mul_left _ (Nat.pow_le_pow_right (by norm_num) hle)
    have h3 : 2 ^ 52 * 2 ^ s ≤ q * 2 ^ s := Nat.mul_le_mul_right _ hq
    omega

/-- Of the two multiples of `P` around `n`, the one the rounding picks is as near to `n` as
any number outside the gap between them. -/
theorem nearest_of_neighbours (A P r n D R : Nat) (hdm : A + r = n) (hr : r < P)
    (hR : (R = A ∧ 2 * r ≤ P) ∨ (R = A + P ∧ P ≤ 2 * r)) (hD : D ≤ A ∨ A + P ≤ D) :
    |(R : Int) - (n : Int)| ≤ |(D : Int) - (n : Int)| := by
  have hup := le_abs_self ((D : Int) - (n : Int))
  have hdown := neg_abs_le ((D : Int) - (n : Int))
  generalize |(D : Int) - (n : Int)| = X at hup hdown ⊢
  rw [abs_le]
  omega

/-- What `roundUnits` returns when it returns a finite number: a double, with the sign
asked for, that is as near to `n × 2 ^ (-2148)` as any double is. -/
theorem roundUnits_nearest (negative : Bool) (n : Nat) (k : Int)
    (h : roundUnits negative n = JsNumber.finite k) :
    IsDouble k.natAbs
    ∧ k = (if negative then -(k.natAbs : Int) else (k.natAbs : Int))
    ∧ ∀ d : Nat, IsDouble d →
        |((k.natAbs * 2 ^ 1074 : Nat) : Int) - (n : Int)|
          ≤ |((d * 2 ^ 1074 : Nat) : Int) - (n : Int)| := by
  unfold roundUnits at h
  by_cases hbig : 2 ^ 3172 ≤ n
  · rw [if_pos hbig] at h
    cases h
  rw [if_neg hbig] at h
  simp only at h
  obtain ⟨s, hsdef⟩ : ∃ s, s = max 1074 (bitLength n - 53) := ⟨_, rfl⟩
  rw [← hsdef] at h
  by_cases hover : 2 ^ 2098 ≤ roundShift n s * 2 ^ (s - 1074)
  · rw [if_pos hover] at h
    cases h
  rw [if_neg hover] at h
  have hk : k.natAbs = roundShift n s * 2 ^ (s - 1074) := by
    cases negative
    · simp only [Bool.false_eq_true, if_false, JsNumber.finite.injEq] at h
      rw [← h]
      exact Int.natAbs_ofNat _
    · simp only [if_true, JsNumber.finite.injEq] at h
      rw [← h, Int.natAbs_neg]
      exact Int.natAbs_ofNat _
  have hsign : k = (if negative then -(k.natAbs : Int) else (k.natAbs : Int)) := by
    rw [hk]
    simp only [JsNumber.finite.injEq] at h
    exact h.symm
  have hn4096 : n < 2 ^ 4096 :=
    lt_trans (not_le.mp hbig) (Nat.pow_lt_pow_right (by norm_num) (by norm_num))
  have hsize : bitLength n = Nat.size n := bitLength_eq_size n hn4096
  have hs1 : 1074 ≤ s := by rw [hsdef]; exact le_max_left _ _
  have hs2 : Nat.size n ≤ s + 53 := by
    have : bitLength n - 53 ≤ s := by rw [hsdef]; exact le_max_right _ _
    omega
  have hpos : 0 < 2 ^ s := by positivity
  -- the quotient has at most 53 binary digits
  have hq53 : n / 2 ^ s < 2 ^ 53 := by
    rw [Nat.div_lt_iff_lt_mul hpos, ← pow_add]
    exact lt_of_lt_of_le (Nat.lt_size_self n) (Nat.pow_le_pow_right (by norm_num) (by omega))
  -- and exactly 53 unless s = 1074
  have hq52 : s = 1074 ∨ 2 ^ 52 ≤ n / 2 ^ s := by
    by_cases hs3 : s = 1074
    · exact Or.inl hs3
    · right
      have hseq : s = bitLength n - 53 := by
        rcases max_choice 1074 (bitLength n - 53) with hm | hm
        · rw [hm] at hsdef; exact absurd hsdef hs3
        · rw [hm] at hsdef; exact hsdef
      have hL : s + 52 < Nat.size n := by omega
      have h2 : 2 ^ (s + 52) ≤ n := Nat.lt_size.mp hL
      rw [Nat.le_div_iff_mul_le hpos, ← pow_add]
      have he : 52 + s = s + 52 := by omega
      rw [he]
      exact h2
  have hsplit : 2 ^ s = 2 ^ (s - 1074) * 2 ^ 1074 := by
    rw [← pow_add, Nat.sub_add_cancel hs1]
  have hK : k.natAbs * 2 ^ 1074 = roundShift n s * 2 ^ s := by
    rw [hk, Nat.mul_assoc, ← hsplit]
  have hdm : n / 2 ^ s * 2 ^ s + n % 2 ^ s = n := by
    rw [Nat.mul_comm]; exact Nat.div_add_mod n (2 ^ s)
  refine ⟨?_, hsign, ?_⟩
  · -- the result is a double
    refine ⟨by rw [hk]; exact not_le.mp hover, ?_⟩
    rcases roundShift_cases n s with ⟨hr, _⟩ | ⟨hr, _⟩
    · exact ⟨n / 2 ^ s, s - 1074, hq53, by rw [hk, hr]⟩
    · rcases Nat.lt_or_ge (n / 2 ^ s + 1) (2 ^ 53) with hlt | hge
      · exact ⟨n / 2 ^ s + 1, s - 1074, hlt, by rw [hk, hr]⟩
      · have heq : n / 2 ^ s + 1 = 2 ^ 53 := by omega
        refine ⟨2 ^ 52, s - 1074 + 1, by norm_num, ?_⟩
        rw [hk, hr, heq, ← pow_add, ← pow_add]
        have he : 53 + (s - 1074) = 52 + (s - 1074 + 1) := by omega
        rw [he]
  · intro d hd
    obtain ⟨_, m, t, hm, hdm2⟩ := hd
    have hD : d * 2 ^ 1074 = m * 2 ^ (t + 1074) := by
      rw [hdm2, Nat.mul_assoc, ← pow_add]
    rw [hK, hD]
    apply nearest_of_neighbours (n / 2 ^ s * 2 ^ s) (2 ^ s) (n % 2 ^ s) n _ _ hdm
      (Nat.mod_lt _ hpos)
    · rcases roundShift_cases n s with ⟨hr, hhalf⟩ | ⟨hr, hhalf⟩
      · exact Or.inl ⟨by rw [hr], hhalf⟩
      · exact Or.inr ⟨by rw [hr, Nat.add_mul, Nat.one_mul], hhalf⟩
    · rcases Nat.lt_or_ge (n / 2 ^ s * 2 ^ s) (m * 2 ^ (t + 1074)) with hlo | hlo
      · right
        by_contra hcon
        exact no_double_between m t s (n / 2 ^ s) hm hq52 hlo (not_le.mp hcon)
      · exact Or.inl hlo

/-- The product `jsMul` returns for two finite numbers, when it is finite, is a double that
is as near to the exact product as any double is (all in units of `2 ^ (-1074)`, the exact
product `a × b` in units of `2 ^ (-2148)`). -/
theorem jsMul_nearest (a b k : Int)
    (h : jsMul (JsNumber.finite a) (JsNumber.finite b) = JsNumber.finite k) :
    IsDouble k.natAbs
    ∧ ∀ d : Int, IsDouble d.natAbs →
        |k * ((2 ^ 1074 : Nat) : Int) - a * b| ≤ |d * ((2 ^ 1074 : Nat) : Int) - a * b| := by
  simp only [jsMul] at h
  obtain ⟨hdouble, hsign, hnear⟩ := roundUnits_nearest _ _ k h
  refine ⟨hdouble, ?_⟩
  intro d hd
  have h1 := hnear d.natAbs hd
  generalize (2 : Nat) ^ 1074 = U at h1 ⊢
  simp only [Nat.cast_mul, Int.natCast_natAbs, ← abs_mul] at h1
  have hU : (0 : Int) ≤ (U : Int) := Int.natCast_nonneg U
  -- the sign of the result is the sign of the exact product
  have hsame : |k * (U : Int) - a * b| = |(|k| * (U : Int) - |a * b|)| := by
    rcases lt_trichotomy a 0 with ha | ha | ha <;> rcases lt_trichotomy b 0 with hb | hb | hb
    · have hab : 0 < a * b := mul_pos_of_neg_of_neg ha hb
      simp only [ha, hb, decide_True, bne_self_eq_false, Bool.false_eq_true, if_false] at hsign
      rw [abs_of_pos hab, hsign, abs_of_nonneg (Int.natCast_nonneg _)]
    · subst hb
      simp only [mul_zero, sub_zero, abs_zero]
      rw [abs_mul, abs_of_nonneg hU, abs_mul, abs_abs, abs_of_nonneg hU]
    · have hab : a * b < 0 := mul_neg_of_neg_of_pos ha hb
      simp only [ha, not_lt.mpr hb.le, decide_True, decide_False, Bool.bne_false, if_true] at hsign
      rw [abs_of_neg hab, hsign, abs_neg, abs_of_nonneg (Int.natCast_nonneg _), ← abs_neg]
      congr 1
      ring
    · subst ha
      simp only [zero_mul, sub_zero, abs_zero]
      rw [abs_mul, abs_of_nonneg hU, abs_mul, abs_abs, abs_of_nonneg hU]
    · subst ha
      simp only [zero_mul, sub_zero, abs_zero]
      rw [abs_mul, abs_of_nonneg hU, abs_mul, abs_abs, abs_of_nonneg hU]
    · subst ha
      simp only [zero_mul, sub_zero, abs_zero]
      rw [abs_mul, abs_of_nonneg hU, abs_mul, abs_abs, abs_of_nonneg hU]
    · have hab : a * b < 0 := mul_neg_of_pos_of_neg ha hb
      simp only [hb, not_lt.mpr ha.le, decide_True, decide_False, Bool.bne_true, Bool.not_false,
        if_true] at hsign
      rw [abs_of_neg hab, hsign, abs_neg, abs_of_nonneg (Int.natCast_nonneg _), ← abs_neg]
      congr 1
      ring
    · subst hb
      simp only [mul_zero, sub_zero, abs_zero]
      rw [abs_mul, abs_of_nonneg hU, abs_mul, abs_abs, abs_of_nonneg hU]
    · have hab : 0 < a * b := mul_pos ha hb
      simp only [not_lt.mpr ha.le, not_lt.mpr hb.le, decide_False, bne_self_eq_false,
        Bool.false_eq_true, if_false] at hsign
      rw [abs_of_pos hab, hsign, abs_of_nonneg (Int.natCast_nonneg _)]
  rw [hsame]
  refine le_trans h1 ?_
  have h2 := abs_abs_sub_abs_le (d * (U : Int)) (a * b)
  rw [abs_mul, abs_of_nonneg hU] at h2
  exact h2

/-- A magnitude that carries the sign of a product is the number itself. -/
theorem signed_natAbs (a b c : Int) (hpos : 0 < a * b → 0 ≤ c) (hneg : a * b < 0 → c ≤ 0)
    (hzero : a * b = 0 → c = 0) :
    (if (decide (a < 0) != decide (b < 0)) = true then -((c.natAbs : Nat) : Int)
     else ((c.natAbs : Nat) : Int)) = c := by
  rcases lt_trichotomy a 0 with ha | ha | ha <;> rcases lt_trichotomy b 0 with hb | hb | hb
  · have h := hpos (mul_pos_of_neg_of_neg ha hb)
    simp [ha, hb, abs_of_nonneg h]
  · subst hb; simp [hzero (mul_zero a)]
  · have h := hneg (mul_neg_of_neg_of_pos ha hb)
    simp [ha, not_lt.mpr hb.le, abs_of_nonpos h]
  · subst ha; simp [hzero (zero_mul b)]
  · subst ha; simp [hzero (zero_mul b)]
  · subst ha; simp [hzero (zero_mul b)]
  · have h := hneg (mul_neg_of_pos_of_neg ha hb)
    simp [hb, not_lt.mpr ha.le, abs_of_nonpos h]
  · subst hb; simp [hzero (mul_zero a)]
  · have h := hpos (mul_pos ha hb)
    simp [not_lt.mpr ha.le, not_lt.mpr hb.le, abs_of_nonneg h]

/-- When the exact product of two finite numbers is itself a double, `jsMul` returns it. -/
theorem jsMul_exact (a b c : Int) (hc : a * b = c * ((2 ^ 1074 : Nat) : Int))
    (hd : IsDouble c.natAbs) :
    jsMul (JsNumber.finite a) (JsNumber.finite b) = JsNumber.finite c := by
  obtain ⟨hlt, m, t, hm, hmt⟩ := hd
  have hn : a.natAbs * b.natAbs = m * 2 ^ (t + 1074) := by
    rw [← Int.natAbs_mul, hc, Int.natAbs_mul, Int.natAbs_ofNat, hmt, Nat.mul_assoc, ← pow_add]
  have hsub : t + 1074 - 1074 = t := by omega
  have hU : (0 : Int) < ((2 ^ 1074 : Nat) : Int) := by positivity
  simp only [jsMul]
  rw [hn, roundUnits_exact_of_lt _ m (t + 1074) hm (by omega) (by rw [hsub, ← hmt]; exact hlt),
    hsub, ← hmt]
  refine congrArg JsNumber.finite (signed_natAbs a b c ?_ ?_ ?_)
  · intro h
    rw [hc] at h
    exact le_of_lt (pos_of_mul_pos_left h hU.le)
  · intro h
    rw [hc] at h
    by_contra hcon
    exact absurd h (not_lt.mpr (mul_nonneg (le_of_lt (not_le.mp hcon)) hU.le))
  · intro h
    rw [hc] at h
    rcases mul_eq_zero.mp h with h0 | h0
    · exact h0
    · exact absurd h0 hU.ne'

/-! ## Reserve: one request -/

/-- Selecting by identifier commutes with an update that keeps identifiers. -/
theorem filter_id_map_event (f : Event → Event) (hf : ∀ e, (f e).id = e.id) (l : List Event)
    (id : Nat) :
    (l.map f).filter (fun e => e.id == id) = (l.filter (fun e => e.id == id)).map f := by
  induction l with
  | nil => rfl
  | cons a t ih =>
    by_cases h : a.id = id
    · simp [List.filter_cons, hf, h, ih]
    · simp [List.filter_cons, hf, h, ih]

/-- A selected row carries the identifier it was selected by. -/
theorem id_of_selectEvents {s : Store} {eid : Nat} {e : Event} {rest : List Event}
    (hsel : selectEvents s eid = e :: rest) : e.id = eid := by
  have : e ∈ selectEvents s eid := by rw [hsel]; exact List.mem_cons_self _ _
  simpa [selectEvents] using (List.mem_filter.mp this).2

/-- The whole outcome of a reservation that passes validation and finds enough seats. -/
theorem bookings_post_of_enough (s : Store) (eid : Nat) (n em m : String) (q : Int)
    (uuid : String) (now : Nat) (e : Event) (rest : List Event)
    (h0 : eid ≠ 0) (hn : n ≠ "") (hem : em ≠ "") (hm : m ≠ "") (hq : q ≠ 0)
    (hsel : selectEvents s eid = e :: rest) (hav : q ≤ e.available_seats) :
    bookings_post s
        { event_id := some eid, name := some n, email := some em, mobile := some m,
          quantity := some q } uuid now
      = { store := reserved s eid n em m q e.price uuid now,
          response :=
            { status := 201, success := true,
              payload := Payload.booking
                (joinBookings (reserved s eid n em m q e.price uuid now)
                  (fun b => b.id == s.nextBookingId)).head? },
          emitted :=
            [Emit.seatUpdate eid (e.available_seats - q),
             Emit.bookingCreated
               (joinBookings (reserved s eid n em m q e.price uuid now)
                 (fun b => b.id == s.nextBookingId)).head?],
          conn := [ConnOp.beginTransaction, ConnOp.commit, ConnOp.release] } := by
  have hsel2 : selectEvents (reserved s eid n em m q e.price uuid now) eid
      = { e with available_seats := e.available_seats - q } ::
          rest.map (fun x =>
            if x.id = eid then { x with available_seats := x.available_seats - q } else x) := by
    have he : e.id = eid := id_of_selectEvents hsel
    unfold selectEvents reserved
    simp only
    rw [filter_id_map_event _ (by intro x; by_cases hx : x.id = eid <;> simp [hx])]
    unfold selectEvents at hsel
    rw [hsel]
    simp [he]
  unfold reserved at hsel2
  simp only [bookings_post, h0, hn, hem, hm, hq, hsel, not_lt.mpr hav, or_self, if_false,
    hsel2, reserved]

/-- A reservation that succeeds passed validation, found its event and found enough seats. -/
theorem bookings_post_success_inv (s : Store) (body : BookingBody) (uuid : String) (now : Nat)
    (hok : (bookings_post s body uuid now).response.success = true) :
    ∃ eid n em m q e rest,
      body = { event_id := some eid, name := some n, email := some em, mobile := some m,
               quantity := some q }
      ∧ eid ≠ 0 ∧ n ≠ "" ∧ em ≠ "" ∧ m ≠ "" ∧ q ≠ 0
      ∧ selectEvents s eid = e :: rest ∧ q ≤ e.available_seats := by
  rcases body with ⟨_ | eid, _ | n, _ | em, _ | m, _ | q⟩ <;>
    try (simp [bookings_post, failure] at hok)
  by_cases hv : eid = 0 ∨ n = "" ∨ em = "" ∨ m = "" ∨ q = 0
  · simp [bookings_post, failure, hv] at hok
  · rcases hsel : selectEvents s eid with _ | ⟨e, rest⟩
    · simp [bookings_post, failure, hv, hsel] at hok
    · by_cases hlt : e.available_seats < q
      · simp [bookings_post, failure, hv, hsel, hlt] at hok
      · push_neg at hv
        exact ⟨eid, n, em, m, q, e, rest, rfl, hv.1, hv.2.1, hv.2.2.1, hv.2.2.2.1, hv.2.2.2.2,
          hsel, not_lt.mp hlt⟩

/-- C3: a Reserve request with every field present, on an existing event with fewer available
seats than the requested quantity, is answered 400 with the message
"Only <available_seats> seats available" and leaves the whole store (events and bookings
tables) as it was. -/
theorem reserve_insufficient_inventory (s : Store) (eid : Nat) (n em m : String) (q : Int)
    (uuid : String) (now : Nat) (e : Event) (rest : List Event)
    (h0 : eid ≠ 0) (hn : n ≠ "") (hem : em ≠ "") (hm : m ≠ "") (hq : q ≠ 0)
    (hsel : selectEvents s eid = e :: rest) (hlt : e.available_seats < q) :
    (bookings_post s
        { event_id := some eid, name := some n, email := some em, mobile := some m,
          quantity := some q } uuid now).response
      = failure 400 ("Only " ++ toString e.available_seats ++ " seats available")
    ∧ (bookings_post s
        { event_id := some eid, name := some n, email := some em, mobile := some m,
          quantity := some q } uuid now).store = s := by
  simp [bookings_post, h0, hn, hem, hm, hq, hsel, hlt]

/-- Witness of C3 (scenario A): with no seat left, a request for one seat is answered
"Only 0 seats available" and the store is unchanged. -/
theorem reserve_insufficient_inventory_witness :
    (bookings_post soldOutA (order 1 1) "77aa01bc-0000-4000-8000-000000000001" 11).response
      = failure 400 "Only 0 seats available"
    ∧ (bookings_post soldOutA (order 1 1) "77aa01bc-0000-4000-8000-000000000001" 11).store
      = soldOutA :=
  reserve_insufficient_inventory soldOutA 1 "Ann" "ann@example.org" "5550100" 1
    "77aa01bc-0000-4000-8000-000000000001" 11 { concert with available_seats := 0 } []
    (by decide) (by decide) (by decide) (by decide) (by decide) (by decide) (by decide)

/-- C4: a Reserve request with every field present, on an existing event, for a quantity
`0 < q ≤ available_seats`, succeeds (201); every event row with the requested identifier has
its `available_seats` lowered by exactly `q` and keeps its other fields, and every other event
row is unchanged. -/
theorem reserve_decrements_available (s : Store) (eid : Nat) (n em m : String) (q : Int)
    (uuid : String) (now : Nat) (e : Event) (rest : List Event)
    (h0 : eid ≠ 0) (hn : n ≠ "") (hem : em ≠ "") (hm : m ≠ "")
    (hsel : selectEvents s eid = e :: rest) (hpos : 0 < q) (hav : q ≤ e.available_seats) :
    (bookings_post s
        { event_id := some eid, name := some n, email := some em, mobile := some m,
          quantity := some q } uuid now).response.status = 201
    ∧ (bookings_post s
        { event_id := some eid, name := some n, email := some em, mobile := some m,
          quantity := some q } uuid now).response.success = true
    ∧ (bookings_post s
        { event_id := some eid, name := some n, email := some em, mobile := some m,
          quantity := some q } uuid now).store.events
      = s.events.map (fun x =>
          if x.id = eid then { x with available_seats := x.available_seats - q } else x)
    ∧ (selectEvents (bookings_post s
        { event_id := some eid, name := some n, email := some em, mobile := some m,
          quantity := some q } uuid now).store eid).head?
      = some { e with available_seats := e.available_seats - q } := by
  rw [bookings_post_of_enough s eid n em m q uuid now e rest h0 hn hem hm (ne_of_gt hpos) hsel hav]
  refine ⟨rfl, rfl, rfl, ?_⟩
  have he : e.id = eid := id_of_selectEvents hsel
  unfold selectEvents reserved
  simp only
  rw [filter_id_map_event _ (by intro x; by_cases hx : x.id = eid <;> simp [hx])]
  unfold selectEvents at hsel
  rw [hsel]
  simp [he]

/-- Witness of C4 (scenario A): total = available = 2, a request for 2 seats succeeds and
leaves `available_seats = 0`. -/
theorem reserve_decrements_available_witness :
    (bookings_post scenarioA (order 1 2) "3f2a9c1e-0b7d-4e58-9a6f-1c2d3e4f5a6b" 10).response.status
      = 201
    ∧ (bookings_post scenarioA (order 1 2)
        "3f2a9c1e-0b7d-4e58-9a6f-1c2d3e4f5a6b" 10).response.success = true
    ∧ (bookings_post scenarioA (order 1 2) "3f2a9c1e-0b7d-4e58-9a6f-1c2d3e4f5a6b" 10).store.events
      = [{ concert with available_seats := 0 }]
    ∧ (selectEvents (bookings_post scenarioA (order 1 2)
        "3f2a9c1e-0b7d-4e58-9a6f-1c2d3e4f5a6b" 10).store 1).head?
      = some { concert with available_seats := 0 } :=
  reserve_decrements_available scenarioA 1 "Ann" "ann@example.org" "5550100" 2
    "3f2a9c1e-0b7d-4e58-9a6f-1c2d3e4f5a6b" 10 concert []
    (by decide) (by decide) (by decide) (by decide) (by decide) (by decide) (by decide)

/-- C5, as stated, fails. At price 3 a Reserve of 3002399751580331 seats succeeds and the row
written carries `total_amount = 9007199254740992`: the product 9007199254740993 is no double,
it lies half-way between two, and the even one is taken. At price 29.99 (the double
`8441434551552573 × 2 ^ (-48)`) a Reserve of seven seats writes
`7386255232608501 × 2 ^ (-45)`, that is 209.92999999999998, which is not seven times the
price. -/
theorem reserve_total_amount_rounded :
    stadium.events.map (fun e => (e.price, e.available_seats))
      = [(JsNumber.whole 3, 4000000000000000)]
    ∧ (bookings_post stadium (order 1 3002399751580331)
        "d1a2b3c4-5e6f-4a7b-8c9d-0e1f2a3b4c5d" 10).response.success = true
    ∧ (bookings_post stadium (order 1 3002399751580331)
        "d1a2b3c4-5e6f-4a7b-8c9d-0e1f2a3b4c5d" 10).store.bookings.map
          (fun b => (b.quantity, b.total_amount))
      = [(3002399751580331, JsNumber.whole 9007199254740992)]
    ∧ JsNumber.whole 9007199254740992 ≠ JsNumber.whole (3 * 3002399751580331)
    ∧ gala.events.map (fun e => e.price) = [galaPrice]
    ∧ (bookings_post gala (order 1 7)
        "e2b3c4d5-6f7a-4b8c-9d0e-1f2a3b4c5d6e" 10).response.success = true
    ∧ (bookings_post gala (order 1 7)
        "e2b3c4d5-6f7a-4b8c-9d0e-1f2a3b4c5d6e" 10).store.bookings.map
          (fun b => (b.quantity, b.total_amount))
      = [(7, JsNumber.finite ((7386255232608501 * 2 ^ 1029 : Nat) : Int))]
    ∧ 7386255232608501 * 2 ^ 1029 ≠ 7 * (8441434551552573 * 2 ^ 1026) := by
  decide

/-- C5, amended: a successful Reserve request adds exactly one row at the end of the bookings
table and changes no other row; the new row references the requested event, carries the
requested name, email, mobile and quantity, has status `confirmed`, and its `total_amount` is
the JavaScript product of the price read from the event row and the quantity. For a finite
price and a quantity that does not exceed `2 ^ 53` in absolute value, that amount, when
finite, is a double as near to the exact product as any double is (numbers in units of
`2 ^ (-1074)`); when the exact product is itself a double, the amount is that product; this is
so in particular when the price is a whole number `p` and `p` times the quantity does not
exceed `2 ^ 53` in absolute value. -/
theorem reserve_adds_one_booking (s : Store) (body : BookingBody) (uuid : String) (now : Nat)
    (hok : (bookings_post s body uuid now).response.success = true) :
    ∃ eid n em m q e,
      body = { event_id := some eid, name := some n, email := some em, mobile := some m,
               quantity := some q }
      ∧ (selectEvents s eid).head? = some e
      ∧ (bookings_post s body uuid now).store.bookings
        = s.bookings ++
            [{ id := s.nextBookingId, event_id := eid, name := n, email := em, mobile := m,
               quantity := q, total_amount := jsMul e.price (JsNumber.ofInt q),
               booking_code := generateBookingCode uuid,
               status := BookingStatus.confirmed, booking_date := now }]
      ∧ (∀ k r : Int, e.price = JsNumber.finite k → |q| ≤ 2 ^ 53 →
          jsMul e.price (JsNumber.ofInt q) = JsNumber.finite r →
          IsDouble r.natAbs ∧ ∀ d : Int, IsDouble d.natAbs → |r - k * q| ≤ |d - k * q|)
      ∧ (∀ k : Int, e.price = JsNumber.finite k → |q| ≤ 2 ^ 53 → IsDouble (k * q).natAbs →
          jsMul e.price (JsNumber.ofInt q) = JsNumber.finite (k * q))
      ∧ (∀ p : Int, e.price = JsNumber.whole p → |q| ≤ 2 ^ 53 → |p * q| ≤ 2 ^ 53 →
          jsMul e.price (JsNumber.ofInt q) = JsNumber.whole (p * q)) := by
  obtain ⟨eid, n, em, m, q, e, rest, hb, h0, hn, hem, hm, hq, hsel, hav⟩ :=
    bookings_post_success_inv s body uuid now hok
  have hq53 : |q| ≤ 2 ^ 53 → q.natAbs ≤ 2 ^ 53 := by
    intro hqb
    rw [Int.abs_eq_natAbs] at hqb
    exact_mod_cast hqb
  refine ⟨eid, n, em, m, q, e, hb, by rw [hsel]; rfl, ?_, ?_, ?_, ?_⟩
  · rw [hb, bookings_post_of_enough s eid n em m q uuid now e rest h0 hn hem hm hq hsel hav]
    rfl
  · intro k r hk hqb hr
    rw [hk, ofInt_eq_whole q (hq53 hqb)] at hr
    obtain ⟨hdouble, hnear⟩ := jsMul_nearest k _ r hr
    refine ⟨hdouble, fun d hd => ?_⟩
    have h1 := hnear d hd
    have hU : (0 : Int) < (((2 : Nat) ^ 1074 : Nat) : Int) := by positivity
    generalize (((2 : Nat) ^ 1074 : Nat) : Int) = U at h1 hU
    have e1 : r * U - k * (q * U) = (r - k * q) * U := by ring
    have e2 : d * U - k * (q * U) = (d - k * q) * U := by ring
    rw [e1, e2, abs_mul, abs_mul, abs_of_pos hU] at h1
    exact le_of_mul_le_mul_right h1 hU
  · intro k hk hqb hd
    rw [hk, ofInt_eq_whole q (hq53 hqb)]
    exact jsMul_exact k _ (k * q) (by ring) hd
  · intro p hp hqb hpq
    have hpq53 : (p * q).natAbs ≤ 2 ^ 53 := by
      rw [Int.abs_eq_natAbs] at hpq
      exact_mod_cast hpq
    rw [hp, ofInt_eq_whole q (hq53 hqb)]
    exact jsMul_whole p q hpq53

/-- Witness of C5, amended (scenarios A and B, and a price in cents): price 50 and quantity 2
give `total_amount = 100`; price 20 and quantity 1 give `total_amount = 20`; price 29.99 and
quantity 2 give twice the price, 59.98. -/
theorem reserve_adds_one_booking_witness :
    ((bookings_post scenarioA (order 1 2)
        "3f2a9c1e-0b7d-4e58-9a6f-1c2d3e4f5a6b" 10).store.bookings.map
          (fun b => (b.event_id, b.quantity, b.total_amount, b.status))
      = [(1, 2, JsNumber.whole 100, BookingStatus.confirmed)])
    ∧ ((bookings_post scenarioB (order 1 1)
        "9b1deb4d-3b7d-4bad-9bdd-2b0d7b3dcb6d" 10).store.bookings.map
          (fun b => (b.event_id, b.quantity, b.total_amount, b.status))
      = [(1, 1, JsNumber.whole 20, BookingStatus.confirmed)])
    ∧ JsNumber.whole 100 = 100 ∧ JsNumber.whole 20 = 20
    ∧ ((bookings_post gala (order 1 2)
        "f3c4d5e6-7a8b-4c9d-8e1f-2a3b4c5d6e7f" 10).store.bookings.map
          (fun b => (b.event_id, b.quantity, b.total_amount, b.status))
      = [(1, 2, JsNumber.finite (((8441434551552573 * 2 ^ 1026 : Nat) : Int) * 2),
          BookingStatus.confirmed)]) := by
  obtain ⟨_, _, _, _, _, _, hb, hsel, hrows, _, _, hexact⟩ :=
    reserve_adds_one_booking scenarioA (order 1 2) "3f2a9c1e-0b7d-4e58-9a6f-1c2d3e4f5a6b" 10
      (by decide)
  obtain ⟨_, _, _, _, _, _, hb2, hsel2, hrows2, _, _, hexact2⟩ :=
    reserve_adds_one_booking scenarioB (order 1 1) "9b1deb4d-3b7d-4bad-9bdd-2b0d7b3dcb6d" 10
      (by decide)
  obtain ⟨_, _, _, _, _, _, hb3, hsel3, hrows3, _, hdouble3, _⟩ :=
    reserve_adds_one_booking gala (order 1 2) "f3c4d5e6-7a8b-4c9d-8e1f-2a3b4c5d6e7f" 10
      (by decide)
  simp only [order, BookingBody.mk.injEq, Option.some.injEq] at hb hb2 hb3
  obtain ⟨rfl, rfl, rfl, rfl, rfl⟩ := hb
  obtain ⟨rfl, rfl, rfl, rfl, rfl⟩ := hb2
  obtain ⟨rfl, rfl, rfl, rfl, rfl⟩ := hb3
  have h1 : (selectEvents scenarioA 1).head? = some concert := by decide
  have h2 : (selectEvents scenarioB 1).head? = some workshop := by decide
  have h3 : (selectEvents gala 1).head?
      = some { id := 1, title := "Gala", description := none, location := "Opera",
               date := "2025-12-31 21:00:00", total_seats := 50, available_seats := 50,
               price := galaPrice, img := none } := by decide
  rw [h1] at hsel
  rw [h2] at hsel2
  rw [h3] at hsel3
  cases hsel
  cases hsel2
  cases hsel3
  rw [hrows, hrows2, hrows3, hexact 50 (by decide) (by decide) (by decide),
    hexact2 20 (by decide) (by decide) (by decide),
    hdouble3 ((8441434551552573 * 2 ^ 1026 : Nat) : Int) rfl (by decide)
      ⟨by decide, 8441434551552573, 1027, by decide, by decide⟩]
  decide

/-! ## Cancel: one request -/

/-- A selected booking carries the identifier it was selected by. -/
theorem id_of_selectBookings {s : Store} {bid : Nat} {b : Booking} {rest : List Booking}
    (hsel : selectBookings s bid = b :: rest) : b.id = bid := by
  have : b ∈ selectBookings s bid := by rw [hsel]; exact List.mem_cons_self _ _
  simpa [selectBookings] using (List.mem_filter.mp this).2

/-- Selecting bookings by identifier commutes with an update that keeps identifiers. -/
theorem filter_id_map_booking (f : Booking → Booking) (hf : ∀ b, (f b).id = b.id)
    (l : List Booking) (id : Nat) :
    (l.map f).filter (fun b => b.id == id) = (l.filter (fun b => b.id == id)).map f := by
  induction l with
  | nil => rfl
  | cons a t ih =>
    by_cases h : a.id = id
    · simp [List.filter_cons, hf, h, ih]
    · simp [List.filter_cons, hf, h, ih]

/-- A status other than `cancelled` is `confirmed`. -/
theorem confirmed_of_ne_cancelled {st : BookingStatus} (h : st ≠ BookingStatus.cancelled) :
    st = BookingStatus.confirmed := by
  cases st
  · rfl
  · exact absurd rfl h

/-- Events selected after a cancellation. -/
theorem selectEvents_cancelled (s : Store) (bid eid : Nat) (q : Int) (id : Nat) :
    selectEvents (cancelled s bid eid q) id
      = (selectEvents s id).map (fun x =>
          if x.id = eid then { x with available_seats := x.available_seats + q } else x) := by
  unfold selectEvents cancelled
  simp only
  rw [filter_id_map_event _ (by intro x; by_cases hx : x.id = eid <;> simp [hx])]

/-- Bookings selected after a cancellation. -/
theorem selectBookings_cancelled (s : Store) (bid eid : Nat) (q : Int) (id : Nat) :
    selectBookings (cancelled s bid eid q) id
      = (selectBookings s id).map (fun b =>
          if b.id = bid then { b with status := BookingStatus.cancelled } else b) := by
  unfold selectBookings cancelled
  simp only
  rw [filter_id_map_booking _ (by intro x; by_cases hx : x.id = bid <;> simp [hx])]

/-- The store after a cancellation that found a confirmed booking. -/
theorem bookings_put_cancel_store (s : Store) (bid : Nat) (b : Booking) (rest : List Booking)
    (hsel : selectBookings s bid = b :: rest) (hst : b.status = BookingStatus.confirmed) :
    (bookings_put_cancel s bid).store = cancelled s bid b.event_id b.quantity := by
  have hne : b.status ≠ BookingStatus.cancelled := by rw [hst]; decide
  have key := selectEvents_cancelled s bid b.event_id b.quantity b.event_id
  unfold cancelled at key
  rcases hev : selectEvents s b.event_id with _ | ⟨e, erest⟩
  · rw [hev] at key
    simp only [List.map_nil] at key
    simp only [bookings_put_cancel, hsel, hne, if_false, key, cancelled]
  · rw [hev] at key
    simp only [List.map_cons] at key
    simp only [bookings_put_cancel, hsel, hne, if_false, key, cancelled]

/-- The whole outcome of a cancellation that found a confirmed booking of an existing event. -/
theorem bookings_put_cancel_of_confirmed (s : Store) (bid : Nat) (b : Booking)
    (rest : List Booking) (e : Event) (erest : List Event)
    (hsel : selectBookings s bid = b :: rest) (hst : b.status = BookingStatus.confirmed)
    (hev : selectEvents s b.event_id = e :: erest) :
    bookings_put_cancel s bid
      = { store := cancelled s bid b.event_id b.quantity,
          response :=
            { status := 200, success := true,
              payload := Payload.message "Booking cancelled successfully" },
          emitted := [Emit.seatUpdate b.event_id (e.available_seats + b.quantity)],
          conn := [ConnOp.beginTransaction, ConnOp.commit, ConnOp.release] } := by
  have hne : b.status ≠ BookingStatus.cancelled := by rw [hst]; decide
  have he : e.id = b.event_id := id_of_selectEvents hev
  have key := selectEvents_cancelled s bid b.event_id b.quantity b.event_id
  rw [hev] at key
  simp only [List.map_cons, he, if_true] at key
  unfold cancelled at key
  simp only [bookings_put_cancel, hsel, hne, if_false, key, cancelled]

/-- A cancellation either leaves the store alone or commits the cancellation of a confirmed
booking. -/
theorem bookings_put_cancel_store_cases (s : Store) (bid : Nat) :
    (bookings_put_cancel s bid).store = s
    ∨ ∃ b rest, selectBookings s bid = b :: rest ∧ b.status = BookingStatus.confirmed
        ∧ (bookings_put_cancel s bid).store = cancelled s bid b.event_id b.quantity := by
  rcases hsel : selectBookings s bid with _ | ⟨b, rest⟩
  · left
    simp [bookings_put_cancel, hsel]
  · by_cases hst : b.status = BookingStatus.cancelled
    · left
      simp [bookings_put_cancel, hsel, hst]
    · right
      exact ⟨b, rest, rfl, confirmed_of_ne_cancelled hst,
        bookings_put_cancel_store s bid b rest hsel (confirmed_of_ne_cancelled hst)⟩

/-- C9: a Cancel request on an existing booking with status `confirmed` whose event exists
succeeds (200); every booking row with that identifier gets status `cancelled` and keeps its
other fields, every other booking row is unchanged; every event row with the booking's
`event_id` has its `available_seats` raised by exactly the booking's quantity and keeps its
other fields, every other event row is unchanged. -/
theorem cancel_confirmed_booking (s : Store) (bookingId : Nat) (b : Booking)
    (rest : List Booking) (e : Event) (erest : List Event)
    (hsel : selectBookings s bookingId = b :: rest)
    (hst : b.status = BookingStatus.confirmed)
    (hev : selectEvents s b.event_id = e :: erest) :
    (bookings_put_cancel s bookingId).response
      = { status := 200, success := true,
          payload := Payload.message "Booking cancelled successfully" }
    ∧ (bookings_put_cancel s bookingId).store.bookings
      = s.bookings.map (fun x =>
          if x.id = bookingId then { x with status := BookingStatus.cancelled } else x)
    ∧ (bookings_put_cancel s bookingId).store.events
      = s.events.map (fun x =>
          if x.id = b.event_id then
            { x with available_seats := x.available_seats + b.quantity }
          else x)
    ∧ (selectEvents (bookings_put_cancel s bookingId).store b.event_id).head?
      = some { e with available_seats := e.available_seats + b.quantity }
    ∧ (selectBookings (bookings_put_cancel s bookingId).store bookingId).head?
      = some { b with status := BookingStatus.cancelled } := by
  rw [bookings_put_cancel_of_confirmed s bookingId b rest e erest hsel hst hev]
  refine ⟨rfl, rfl, rfl, ?_, ?_⟩
  · simp only
    rw [selectEvents_cancelled, hev]
    simp [id_of_selectEvents hev]
  · simp only
    rw [selectBookings_cancelled, hsel]
    simp [id_of_selectBookings hsel]

/-- C8: a Cancel request on a booking whose status is already `cancelled` is answered 400
"Booking already cancelled" and leaves the whole store as it was; and a second Cancel of the
same booking, straight after a first one, never changes the store (so `available_seats` moves
only the first time) and is answered "Booking already cancelled" whenever the first one
succeeded. -/
theorem cancel_already_cancelled (s : Store) (bookingId : Nat) :
    (∀ b rest, selectBookings s bookingId = b :: rest → b.status = BookingStatus.cancelled →
      (bookings_put_cancel s bookingId).response = failure 400 "Booking already cancelled"
      ∧ (bookings_put_cancel s bookingId).store = s)
    ∧ (bookings_put_cancel (bookings_put_cancel s bookingId).store bookingId).store
      = (bookings_put_cancel s bookingId).store
    ∧ ((bookings_put_cancel s bookingId).response.success = true →
      (bookings_put_cancel (bookings_put_cancel s bookingId).store bookingId).response
        = failure 400 "Booking already cancelled") := by
  have first : ∀ (t : Store) (b : Booking) (rest : List Booking),
      selectBookings t bookingId = b :: rest → b.status = BookingStatus.cancelled →
      (bookings_put_cancel t bookingId).response = failure 400 "Booking already cancelled"
      ∧ (bookings_put_cancel t bookingId).store = t := by
    intro t b rest hsel hst
    simp [bookings_put_cancel, hsel, hst]
  refine ⟨first s, ?_, ?_⟩
  · rcases bookings_put_cancel_store_cases s bookingId with h | ⟨b, rest, hsel, hst, h⟩
    · rw [h, h]
    · rw [h]
      have hsel2 := selectBookings_cancelled s bookingId b.event_id b.quantity bookingId
      rw [hsel] at hsel2
      simp only [List.map_cons, id_of_selectBookings hsel, if_true] at hsel2
      exact (first _ _ _ hsel2 rfl).2
  · intro hok
    rcases hsel : selectBookings s bookingId with _ | ⟨b, rest⟩
    · simp [bookings_put_cancel, hsel, failure] at hok
    · by_cases hst : b.status = BookingStatus.cancelled
      · simp [bookings_put_cancel, hsel, hst, failure] at hok
      · have hc := confirmed_of_ne_cancelled hst
        rw [bookings_put_cancel_store s bookingId b rest hsel hc]
        have hsel2 := selectBookings_cancelled s bookingId b.event_id b.quantity bookingId
        rw [hsel] at hsel2
        simp only [List.map_cons, id_of_selectBookings hsel, if_true] at hsel2
        exact (first _ _ _ hsel2 rfl).1

/-! ## Primary keys along a run -/

/-- A reservation either leaves the store alone or commits. -/
theorem bookings_post_store_cases (s : Store) (body : BookingBody) (uuid : String) (now : Nat) :
    ((bookings_post s body uuid now).store = s
      ∧ (bookings_post s body uuid now).response.success = false)
    ∨ ∃ eid n em m q e rest,
        body = { event_id := some eid, name := some n, email := some em, mobile := some m,
                 quantity := some q }
        ∧ q ≠ 0 ∧ selectEvents s eid = e :: rest ∧ q ≤ e.available_seats
        ∧ (bookings_post s body uuid now).store = reserved s eid n em m q e.price uuid now := by
  by_cases hok : (bookings_post s body uuid now).response.success = true
  · right
    obtain ⟨eid, n, em, m, q, e, rest, hb, h0, hn, hem, hm, hq, hsel, hav⟩ :=
      bookings_post_success_inv s body uuid now hok
    refine ⟨eid, n, em, m, q, e, rest, hb, hq, hsel, hav, ?_⟩
    rw [hb, bookings_post_of_enough s eid n em m q uuid now e rest h0 hn hem hm hq hsel hav]
  · left
    refine ⟨?_, by simpa using hok⟩
    rcases body with ⟨_ | eid, _ | n, _ | em, _ | m, _ | q⟩ <;>
      try (simp [bookings_post])
    by_cases hv : eid = 0 ∨ n = "" ∨ em = "" ∨ m = "" ∨ q = 0
    · simp [bookings_post, hv]
    · rcases hsel : selectEvents s eid with _ | ⟨e, rest⟩
      · simp [bookings_post, hv, hsel]
      · by_cases hlt : e.available_seats < q
        · simp [bookings_post, hv, hsel, hlt]
        · push_neg at hv
          exfalso
          apply hok
          rw [bookings_post_of_enough s eid n em m q uuid now e rest hv.1 hv.2.1 hv.2.2.1
            hv.2.2.2.1 hv.2.2.2.2 hsel (not_lt.mp hlt)]

/-- Reserve keeps the primary keys in order. -/
theorem keysOk_bookings_post (s : Store) (body : BookingBody) (uuid : String) (now : Nat)
    (h : KeysOk s) : KeysOk (bookings_post s body uuid now).store := by
  rcases bookings_post_store_cases s body uuid now with ⟨hs, _⟩ |
    ⟨eid, n, em, m, q, e, rest, _, _, hsel, _, hs⟩
  · rw [hs]; exact h
  · rw [hs]
    obtain ⟨h1, h2, h3, h4⟩ := h
    have he : e ∈ s.events := by
      have : e ∈ selectEvents s eid := by rw [hsel]; exact List.mem_cons_self _ _
      exact (List.mem_filter.mp this).1
    have heid : eid < s.nextEventId := by
      have := h1 e he
      rwa [id_of_selectEvents hsel] at this
    refine ⟨?_, ?_, ?_, ?_⟩
    · intro x hx
      simp only [reserved, List.mem_map] at hx
      obtain ⟨y, hy, rfl⟩ := hx
      have := h1 y hy
      by_cases hyid : y.id = eid <;> simpa [reserved, hyid] using this
    · simp only [reserved]
      rw [List.pairwise_map]
      refine h2.imp ?_
      intro a b hab
      by_cases ha : a.id = eid <;> by_cases hb : b.id = eid <;> simp_all
    · intro x hx
      simp only [reserved, List.mem_append, List.mem_singleton] at hx
      rcases hx with hx | rfl
      · have := h3 x hx
        exact ⟨Nat.lt_succ_of_lt this.1, this.2⟩
      · exact ⟨Nat.lt_succ_self _, heid⟩
    · simp only [reserved]
      rw [List.pairwise_append]
      refine ⟨h4, List.pairwise_singleton _ _, ?_⟩
      intro a ha b hb
      rw [List.mem_singleton] at hb
      subst hb
      exact Nat.ne_of_lt (h3 a ha).1

/-- Cancel keeps the primary keys in order. -/
theorem keysOk_bookings_put_cancel (s : Store) (bid : Nat) (h : KeysOk s) :
    KeysOk (bookings_put_cancel s bid).store := by
  rcases bookings_put_cancel_store_cases s bid with hs | ⟨b, rest, _, _, hs⟩
  · rw [hs]; exact h
  · rw [hs]
    obtain ⟨h1, h2, h3, h4⟩ := h
    refine ⟨?_, ?_, ?_, ?_⟩
    · intro x hx
      simp only [cancelled, List.mem_map] at hx
      obtain ⟨y, hy, rfl⟩ := hx
      have := h1 y hy
      by_cases hyid : y.id = b.event_id <;> simpa [cancelled, hyid] using this
    · simp only [cancelled]
      rw [List.pairwise_map]
      refine h2.imp ?_
      intro a c hac
      by_cases ha : a.id = b.event_id <;> by_cases hc : c.id = b.event_id <;> simp_all
    · intro x hx
      simp only [cancelled, List.mem_map] at hx
      obtain ⟨y, hy, rfl⟩ := hx
      have := h3 y hy
      by_cases hyid : y.id = bid <;> simpa [cancelled, hyid] using this
    · simp only [cancelled]
      rw [List.pairwise_map]
      refine h4.imp ?_
      intro a c hac
      by_cases ha : a.id = bid <;> by_cases hc : c.id = bid <;> simp_all

/-- Create-event either rejects the request or appends one row with a fresh identifier and all
seats available. -/
theorem events_post_store_cases (s : Store) (body : EventBody) :
    (events_post s body).store = s
    ∨ ∃ row : Event, row.id = s.nextEventId ∧ row.available_seats = row.total_seats
        ∧ (row.total_seats = 100 ∨ body.total_seats = some row.total_seats)
        ∧ (events_post s body).store
          = { s with events := s.events ++ [row], nextEventId := s.nextEventId + 1 } := by
  rcases body with ⟨_ | title, description, _ | location, _ | date, total_seats, price, img⟩ <;>
    try (left; simp [events_post]; done)
  by_cases hv : title = "" ∨ location = "" ∨ date = ""
  · left
    simp [events_post, hv]
  · right
    simp only [events_post, hv, if_false]
    refine ⟨_, rfl, rfl, ?_, rfl⟩
    rcases total_seats with _ | n
    · left; rfl
    · by_cases hn : n = 0
      · left; simp [hn]
      · right; simp [hn]

/-- Update-event either finds no row or rewrites the rows carrying the identifier. -/
theorem events_put_store_cases (s : Store) (eventId : Nat) (body : EventBody) :
    (events_put s eventId body).store = s
    ∨ ∃ cur rest, selectEvents s eventId = cur :: rest
        ∧ (events_put s eventId body).store
          = { s with events := s.events.map (fun e =>
              if e.id = eventId then updatedRow body (resizedAvailable body cur) e else e) } := by
  rcases hsel : selectEvents s eventId with _ | ⟨cur, rest⟩
  · left
    simp [events_put, hsel]
  · right
    refine ⟨cur, rest, rfl, ?_⟩
    simp only [events_put, hsel, updatedRow, resizedAvailable]

/-- Delete-event either finds no row or removes the rows carrying the identifier. -/
theorem events_delete_store_cases (s : Store) (eventId : Nat) :
    (events_delete s eventId).store = s
    ∨ (events_delete s eventId).store
        = { s with events := s.events.filter (fun e => e.id != eventId) } := by
  rcases hsel : selectEvents s eventId with _ | ⟨cur, rest⟩
  · left
    simp [events_delete, hsel]
  · right
    simp only [events_delete, hsel]

/-- Create-event keeps the primary keys in order. -/
theorem keysOk_events_post (s : Store) (body : EventBody) (h : KeysOk s) :
    KeysOk (events_post s body).store := by
  rcases events_post_store_cases s body with hs | ⟨row, hid, _, _, hs⟩
  · rw [hs]; exact h
  · rw [hs]
    obtain ⟨h1, h2, h3, h4⟩ := h
    refine ⟨?_, ?_, ?_, h4⟩
    · intro x hx
      simp only [List.mem_append, List.mem_singleton] at hx
      rcases hx with hx | rfl
      · exact Nat.lt_succ_of_lt (h1 x hx)
      · rw [hid]; exact Nat.lt_succ_self _
    · simp only
      rw [List.pairwise_append]
      refine ⟨h2, List.pairwise_singleton _ _, ?_⟩
      intro a ha b hb
      rw [List.mem_singleton] at hb
      subst hb
      rw [hid]
      exact Nat.ne_of_lt (h1 a ha)
    · intro b hb
      exact ⟨(h3 b hb).1, Nat.lt_succ_of_lt (h3 b hb).2⟩

/-- Update-event keeps the primary keys in order. -/
theorem keysOk_events_put (s : Store) (eventId : Nat) (body : EventBody) (h : KeysOk s) :
    KeysOk (events_put s eventId body).store := by
  rcases events_put_store_cases s eventId body with hs | ⟨cur, rest, _, hs⟩
  · rw [hs]; exact h
  · rw [hs]
    obtain ⟨h1, h2, h3, h4⟩ := h
    have hid : ∀ e : Event,
        (if e.id = eventId then updatedRow body (resizedAvailable body cur) e else e).id
          = e.id := by
      intro e
      by_cases he : e.id = eventId <;> simp [he, updatedRow]
    refine ⟨?_, ?_, h3, h4⟩
    · intro x hx
      simp only [List.mem_map] at hx
      obtain ⟨y, hy, rfl⟩ := hx
      rw [hid]
      exact h1 y hy
    · simp only
      rw [List.pairwise_map]
      refine h2.imp ?_
      intro a b hab
      rw [hid, hid]
      exact hab

/-- Delete-event keeps the primary keys in order. -/
theorem keysOk_events_delete (s : Store) (eventId : Nat) (h : KeysOk s) :
    KeysOk (events_delete s eventId).store := by
  rcases events_delete_store_cases s eventId with hs | hs
  · rw [hs]; exact h
  · rw [hs]
    obtain ⟨h1, h2, h3, h4⟩ := h
    refine ⟨?_, ?_, h3, h4⟩
    · intro x hx
      exact h1 x (List.mem_filter.mp hx).1
    · exact h2.sublist (List.filter_sublist _)

/-- Every request keeps the primary keys in order. -/
theorem keysOk_handle (s : Store) (r : Request) (h : KeysOk s) : KeysOk (handle s r).store := by
  cases r with
  | createEvent body => exact keysOk_events_post s body h
  | updateEvent eventId body => exact keysOk_events_put s eventId body h
  | deleteEvent eventId => exact keysOk_events_delete s eventId h
  | reserve body uuid now => exact keysOk_bookings_post s body uuid now h
  | cancel bookingId => exact keysOk_bookings_put_cancel s bookingId h

/-- The primary keys are in order in the empty store. -/
theorem keysOk_empty : KeysOk Store.empty := by
  refine ⟨?_, List.Pairwise.nil, ?_, List.Pairwise.nil⟩ <;> intro x hx <;> cases hx

/-- The primary keys stay in order along any run. -/
theorem keysOk_run (rs : List Request) (s : Store) (h : KeysOk s) : KeysOk (run s rs) := by
  induction rs generalizing s with
  | nil => exact h
  | cons r rs ih => exact ih _ (keysOk_handle s r h)

/-- Witness of C9 (scenario A): cancelling the confirmed booking of two seats succeeds, marks
the booking cancelled and brings `available_seats` from 0 back to 2. -/
theorem cancel_confirmed_booking_witness :
    (bookings_put_cancel soldOutA 1).response
      = { status := 200, success := true,
          payload := Payload.message "Booking cancelled successfully" }
    ∧ (bookings_put_cancel soldOutA 1).store.bookings
      = [{ annBooking with status := BookingStatus.cancelled }]
    ∧ (bookings_put_cancel soldOutA 1).store.events = [concert]
    ∧ (selectEvents (bookings_put_cancel soldOutA 1).store 1).head? = some concert
    ∧ (selectBookings (bookings_put_cancel soldOutA 1).store 1).head?
      = some { annBooking with status := BookingStatus.cancelled } :=
  cancel_confirmed_booking soldOutA 1 annBooking [] { concert with available_seats := 0 } []
    (by decide) (by decide) (by decide)

/-- Witness of C8 (scenario A): a second Cancel of the same booking is answered
"Booking already cancelled" and leaves the store as it was. -/
theorem cancel_already_cancelled_witness :
    (bookings_put_cancel cancelledA 1).response = failure 400 "Booking already cancelled"
    ∧ (bookings_put_cancel cancelledA 1).store = cancelledA :=
  (cancel_already_cancelled cancelledA 1).1 { annBooking with status := BookingStatus.cancelled }
    [] (by decide) (by decide)

/-! ## Reserve followed by Cancel -/

/-- The booking just inserted is the only one selected by its identifier. -/
theorem filter_fresh_booking (l : List Booking) (row : Booking)
    (hfresh : ∀ b ∈ l, b.id < row.id) :
    (l ++ [row]).filter (fun b => b.id == row.id) = [row] := by
  rw [List.filter_append]
  have h1 : l.filter (fun b => b.id == row.id) = [] := by
    rw [List.filter_eq_nil_iff]
    intro b hb
    simp [Nat.ne_of_lt (hfresh b hb)]
  rw [h1]
  simp

/-- Lowering and then raising `available_seats` by the same amount gives back the table. -/
theorem map_raise_lower (l : List Event) (eid : Nat) (q : Int) :
    (l.map (fun x =>
        if x.id = eid then { x with available_seats := x.available_seats - q } else x)).map
      (fun x => if x.id = eid then { x with available_seats := x.available_seats + q } else x)
      = l := by
  rw [List.map_map]
  conv_rhs => rw [← List.map_id l]
  apply List.map_congr_left
  intro x _
  by_cases hx : x.id = eid
  · obtain ⟨xid, t, d, lo, da, ts, av, pr, im⟩ := x
    simp only at hx
    subst hx
    simp
  · simp [hx]

/-- Reserve then Cancel of the created booking, in a store whose keys are in order. -/
theorem reserve_cancel_of_keysOk (s : Store) (hk : KeysOk s) (body : BookingBody)
    (uuid : String) (now : Nat)
    (hok : (bookings_post s body uuid now).response.success = true) :
    ∃ jb, (bookings_post s body uuid now).response.payload = Payload.booking (some jb)
      ∧ (bookings_put_cancel (bookings_post s body uuid now).store jb.booking.id).response.success
        = true
      ∧ (bookings_put_cancel (bookings_post s body uuid now).store jb.booking.id).store.events
        = s.events := by
  obtain ⟨eid, n, em, m, q, e, rest, hb, h0, hn, hem, hm, hq, hsel, hav⟩ :=
    bookings_post_success_inv s body uuid now hok
  rw [hb, bookings_post_of_enough s eid n em m q uuid now e rest h0 hn hem hm hq hsel hav]
  have he : e.id = eid := id_of_selectEvents hsel
  -- the events selected after the reservation
  have hsel2 : selectEvents (reserved s eid n em m q e.price uuid now) eid
      = { e with available_seats := e.available_seats - q } ::
          rest.map (fun x =>
            if x.id = eid then { x with available_seats := x.available_seats - q } else x) := by
    unfold selectEvents reserved
    simp only
    rw [filter_id_map_event _ (by intro x; by_cases hx : x.id = eid <;> simp [hx])]
    unfold selectEvents at hsel
    rw [hsel]
    simp [he]
  -- the bookings selected after the reservation
  have hselb : selectBookings (reserved s eid n em m q e.price uuid now) s.nextBookingId
      = [{ id := s.nextBookingId, event_id := eid, name := n, email := em, mobile := m,
           quantity := q, total_amount := jsMul e.price (JsNumber.ofInt q),
           booking_code := generateBookingCode uuid,
           status := BookingStatus.confirmed, booking_date := now }] := by
    unfold selectBookings reserved
    exact filter_fresh_booking s.bookings
      { id := s.nextBookingId, event_id := eid, name := n, email := em, mobile := m,
        quantity := q, total_amount := jsMul e.price (JsNumber.ofInt q),
        booking_code := generateBookingCode uuid,
        status := BookingStatus.confirmed, booking_date := now }
      (fun b hb => (hk.2.2.1 b hb).1)
  have hjoin : (joinBookings (reserved s eid n em m q e.price uuid now)
      (fun b => b.id == s.nextBookingId)).head?
      = some { booking :=
                { id := s.nextBookingId, event_id := eid, name := n, email := em, mobile := m,
                  quantity := q, total_amount := jsMul e.price (JsNumber.ofInt q),
                  booking_code := generateBookingCode uuid,
                  status := BookingStatus.confirmed, booking_date := now },
               event_title := e.title, event_date := e.date, event_location := e.location,
               event_img := e.img } := by
    unfold joinBookings
    unfold selectBookings at hselb
    rw [hselb]
    unfold selectEvents at hsel2
    simp only [List.flatMap_cons, List.flatMap_nil, List.append_nil, hsel2]
    rfl
  refine ⟨{ booking :=
              { id := s.nextBookingId, event_id := eid, name := n, email := em, mobile := m,
                quantity := q, total_amount := jsMul e.price (JsNumber.ofInt q),
                booking_code := generateBookingCode uuid,
                status := BookingStatus.confirmed, booking_date := now },
             event_title := e.title, event_date := e.date, event_location := e.location,
             event_img := e.img }, by simp only [hjoin], ?_⟩
  simp only
  rw [bookings_put_cancel_of_confirmed _ s.nextBookingId _ [] _ _ hselb rfl hsel2]
  refine ⟨rfl, ?_⟩
  simp only [cancelled, reserved]
  exact map_raise_lower s.events eid q

/-- C10: in every store reached from the empty one, whenever a Reserve request succeeds, a
Cancel of the booking it returned, issued straight afterwards, succeeds and leaves the events
table exactly as it was before the Reserve (the event's `available_seats` and every other
field of every event). -/
theorem reserve_then_cancel_restores (rs : List Request) (body : BookingBody) (uuid : String)
    (now : Nat)
    (hok : (bookings_post (run Store.empty rs) body uuid now).response.success = true) :
    ∃ jb,
      (bookings_post (run Store.empty rs) body uuid now).response.payload
        = Payload.booking (some jb)
      ∧ (bookings_put_cancel (bookings_post (run Store.empty rs) body uuid now).store
          jb.booking.id).response.success = true
      ∧ (bookings_put_cancel (bookings_post (run Store.empty rs) body uuid now).store
          jb.booking.id).store.events = (run Store.empty rs).events :=
  reserve_cancel_of_keysOk (run Store.empty rs) (keysOk_run rs Store.empty keysOk_empty) body uuid
    now hok

/-- Witness of C10 (quantity 3): on the event of scenario B, reserving three seats and
cancelling the booking returned brings the events table back. -/
theorem reserve_then_cancel_restores_witness :
    (bookings_post (run Store.empty [Request.createEvent workshopBody]) (order 1 3)
        "9b1deb4d-3b7d-4bad-9bdd-2b0d7b3dcb6d" 10).response.success = true
    ∧ ∃ jb,
      (bookings_post (run Store.empty [Request.createEvent workshopBody]) (order 1 3)
          "9b1deb4d-3b7d-4bad-9bdd-2b0d7b3dcb6d" 10).response.payload
        = Payload.booking (some jb)
      ∧ (bookings_put_cancel
          (bookings_post (run Store.empty [Request.createEvent workshopBody]) (order 1 3)
            "9b1deb4d-3b7d-4bad-9bdd-2b0d7b3dcb6d" 10).store
          jb.booking.id).response.success = true
      ∧ (bookings_put_cancel
          (bookings_post (run Store.empty [Request.createEvent workshopBody]) (order 1 3)
            "9b1deb4d-3b7d-4bad-9bdd-2b0d7b3dcb6d" 10).store
          jb.booking.id).store.events
        = (run Store.empty [Request.createEvent workshopBody]).events :=
  ⟨by decide,
   reserve_then_cancel_restores [Request.createEvent workshopBody] (order 1 3)
     "9b1deb4d-3b7d-4bad-9bdd-2b0d7b3dcb6d" 10 (by decide)⟩

/-! ## Serial reservations of a uniform quantity -/

/-- The shape of a request accepted by `isOrderFor`. -/
theorem isOrderFor_elim {eid : Nat} {q : Int} {r : Request} (h : isOrderFor eid q r = true) :
    ∃ n em m uuid now, n ≠ "" ∧ em ≠ "" ∧ m ≠ ""
      ∧ r = Request.reserve
          { event_id := some eid, name := some n, email := some em, mobile := some m,
            quantity := some q } uuid now := by
  cases r with
  | reserve body uuid now =>
    rcases body with ⟨event_id, _ | n, _ | em, _ | m, quantity⟩ <;>
      simp [isOrderFor] at h
    obtain ⟨⟨⟨⟨h1, h2⟩, h3⟩, h4⟩, h5⟩ := h
    exact ⟨n, em, m, uuid, now, h3, h4, h5, by rw [h1, h2]⟩
  | createEvent body => simp [isOrderFor] at h
  | updateEvent eventId body => simp [isOrderFor] at h
  | deleteEvent eventId => simp [isOrderFor] at h
  | cancel bookingId => simp [isOrderFor] at h

/-- Serving a non-empty list of requests. -/
theorem serve_cons (s : Store) (r : Request) (rs : List Request) :
    serve s (r :: rs) = handle s r :: serve (handle s r).store rs := rfl

/-- Running a non-empty list of requests. -/
theorem run_cons (s : Store) (r : Request) (rs : List Request) :
    run s (r :: rs) = run (handle s r).store rs := rfl

/-- Serving any number of uniform requests: the count of successes, the answer to the others
and the seats left. -/
theorem serve_uniform (Q : Nat) (hQ : 0 < Q) (eid : Nat) (h0 : eid ≠ 0) (reqs : List Request)
    (hreqs : ∀ r ∈ reqs, isOrderFor eid (Q : Int) r = true) :
    ∀ (s : Store) (e : Event) (rest : List Event) (N : Nat),
      selectEvents s eid = e :: rest → e.available_seats = (N : Int) →
      ((serve s reqs).filter (fun o => o.response.success)).length = min reqs.length (N / Q)
      ∧ (∀ o ∈ serve s reqs, o.response.success = false →
          o.response
            = failure 400 ("Only " ++ toString (((N % Q : Nat) : Int)) ++ " seats available"))
      ∧ (selectEvents (run s reqs) eid).head?
          = some { e with
              available_seats := (N : Int) - ((min reqs.length (N / Q) : Nat) : Int) * (Q : Int) }
      := by
  induction reqs with
  | nil =>
    intro s e rest N hsel hN
    refine ⟨by simp [serve], by simp [serve], ?_⟩
    simp only [run, List.foldl_nil, hsel, List.head?_cons, List.length_nil, Nat.zero_min]
    rw [← hN]
    simp
  | cons r rs ih =>
    intro s e rest N hsel hN
    have hrs : ∀ r ∈ rs, isOrderFor eid (Q : Int) r = true :=
      fun x hx => hreqs x (List.mem_cons_of_mem _ hx)
    obtain ⟨n, em, m, uuid, now, hn, hem, hm, rfl⟩ :=
      isOrderFor_elim (hreqs r (List.mem_cons_self _ _))
    have hQ0 : (Q : Int) ≠ 0 := by exact_mod_cast (Nat.pos_iff_ne_zero.mp hQ)
    by_cases hle : Q ≤ N
    · -- enough seats: the request succeeds and `Q` seats go
      have hav : (Q : Int) ≤ e.available_seats := by rw [hN]; exact_mod_cast hle
      have hout := bookings_post_of_enough s eid n em m (Q : Int) uuid now e rest h0 hn hem hm
        hQ0 hsel hav
      have he : e.id = eid := id_of_selectEvents hsel
      have hsel2 : selectEvents (reserved s eid n em m (Q : Int) e.price uuid now) eid
          = { e with available_seats := e.available_seats - (Q : Int) } ::
              rest.map (fun x =>
                if x.id = eid then
                  { x with available_seats := x.available_seats - (Q : Int) }
                else x) := by
        unfold selectEvents reserved
        simp only
        rw [filter_id_map_event _ (by intro x; by_cases hx : x.id = eid <;> simp [hx])]
        unfold selectEvents at hsel
        rw [hsel]
        simp [he]
      have hN2 : ({ e with available_seats := e.available_seats - (Q : Int) } : Event).available_seats
          = ((N - Q : Nat) : Int) := by
        simp only [hN]
        rw [Nat.cast_sub hle]
      obtain ⟨ih1, ih2, ih3⟩ := ih hrs _ _ _ (N - Q) hsel2 hN2
      have hdiv : N / Q = (N - Q) / Q + 1 := by
        rw [Nat.div_eq_sub_div hQ hle]
      have hmod : N % Q = (N - Q) % Q := by
        rw [Nat.mod_eq_sub_mod hle]
      have hstore : (handle s (Request.reserve
          { event_id := some eid, name := some n, email := some em, mobile := some m,
            quantity := some (Q : Int) } uuid now)).store
          = reserved s eid n em m (Q : Int) e.price uuid now := by
        simp only [handle, hout]
      have hsucc : (handle s (Request.reserve
          { event_id := some eid, name := some n, email := some em, mobile := some m,
            quantity := some (Q : Int) } uuid now)).response.success = true := by
        simp only [handle, hout]
      rw [serve_cons, run_cons, hstore]
      refine ⟨?_, ?_, ?_⟩
      · rw [List.filter_cons, if_pos hsucc, List.length_cons, ih1, hdiv, List.length_cons,
          Nat.succ_min_succ]
      · intro o ho hfail
        rw [List.mem_cons] at ho
        rcases ho with rfl | ho
        · rw [hsucc] at hfail
          exact absurd hfail (by decide)
        · rw [hmod]
          exact ih2 o ho hfail
      · rw [ih3, hdiv, List.length_cons, Nat.succ_min_succ]
        congr 1
        simp only [hN, Event.mk.injEq, true_and, and_true]
        push_cast [Nat.cast_sub hle]
        ring
    · -- not enough seats: the request is refused and nothing changes
      have hlt : e.available_seats < (Q : Int) := by
        rw [hN]; exact_mod_cast (Nat.lt_of_not_le hle)
      have hresp : (bookings_post s
          { event_id := some eid, name := some n, email := some em, mobile := some m,
            quantity := some (Q : Int) } uuid now).response
          = failure 400 ("Only " ++ toString e.available_seats ++ " seats available") := by
        simp [bookings_post, h0, hn, hem, hm, hQ0, hsel, hlt]
      have hstore : (bookings_post s
          { event_id := some eid, name := some n, email := some em, mobile := some m,
            quantity := some (Q : Int) } uuid now).store = s := by
        simp [bookings_post, h0, hn, hem, hm, hQ0, hsel, hlt]
      obtain ⟨ih1, ih2, ih3⟩ := ih hrs s e rest N hsel hN
      have hdiv : N / Q = 0 := Nat.div_eq_of_lt (Nat.lt_of_not_le hle)
      have hmod : N % Q = N := Nat.mod_eq_of_lt (Nat.lt_of_not_le hle)
      have hstore2 : (handle s (Request.reserve
          { event_id := some eid, name := some n, email := some em, mobile := some m,
            quantity := some (Q : Int) } uuid now)).store = s := hstore
      have hresp2 : (handle s (Request.reserve
          { event_id := some eid, name := some n, email := some em, mobile := some m,
            quantity := some (Q : Int) } uuid now)).response
          = failure 400 ("Only " ++ toString e.available_seats ++ " seats available") := hresp
      rw [serve_cons, run_cons, hstore2]
      refine ⟨?_, ?_, ?_⟩
      · rw [List.filter_cons, hresp2]
        simp only [failure, Bool.false_eq_true, if_false]
        rw [ih1, hdiv]
        simp
      · intro o ho hfail
        rw [List.mem_cons] at ho
        rcases ho with rfl | ho
        · rw [hresp2, hmod, hN]
        · exact ih2 o ho hfail
      · rw [ih3, hdiv]
        simp

/-- C6: on an existing event with `available_seats = N`, serving `M` Reserve requests of the
same positive quantity `Q` one after another, with `M * Q > N`, gives exactly `N / Q`
(rounded down) successes; every other request is answered with the insufficient-inventory
failure ("Only `N mod Q` seats available"); and the event is left with
`available_seats = N - (N / Q) * Q`. -/
theorem serial_reserves_succeed_floor (s : Store) (eid : Nat) (e : Event) (rest : List Event)
    (N Q : Nat) (reqs : List Request)
    (h0 : eid ≠ 0) (hsel : selectEvents s eid = e :: rest) (hN : e.available_seats = (N : Int))
    (hQ : 0 < Q) (hreqs : ∀ r ∈ reqs, isOrderFor eid (Q : Int) r = true)
    (hM : N < reqs.length * Q) :
    ((serve s reqs).filter (fun o => o.response.success)).length = N / Q
    ∧ (∀ o ∈ serve s reqs, o.response.success = false →
        o.response
          = failure 400 ("Only " ++ toString (((N % Q : Nat) : Int)) ++ " seats available"))
    ∧ (selectEvents (run s reqs) eid).head?
        = some { e with available_seats := (N : Int) - ((N / Q : Nat) : Int) * (Q : Int) } := by
  obtain ⟨h1, h2, h3⟩ := serve_uniform Q hQ eid h0 reqs hreqs s e rest N hsel hN
  have hlt : N / Q < reqs.length := (Nat.div_lt_iff_lt_mul hQ).mpr hM
  have hmin : min reqs.length (N / Q) = N / Q := Nat.min_eq_right (Nat.le_of_lt hlt)
  rw [hmin] at h1 h3
  exact ⟨h1, h2, h3⟩

/-- Witness of C6 (N = 5, Q = 2, M = 3): two requests succeed, the third is answered
"Only 1 seats available", and one seat is left. -/
theorem serial_reserves_succeed_floor_witness :
    ((serve fiveSeats threeOrders).filter (fun o => o.response.success)).length = 2
    ∧ (∀ o ∈ serve fiveSeats threeOrders, o.response.success = false →
        o.response = failure 400 "Only 1 seats available")
    ∧ (selectEvents (run fiveSeats threeOrders) 1).head?
        = some { recital with available_seats := 1 } :=
  serial_reserves_succeed_floor fiveSeats 1 recital [] 5 2 threeOrders
    (by decide) (by decide) (by decide) (by decide) (by decide) (by decide)

/-! ## Seat accounting -/

/-- Confirmed seats of a table with one more row in front. -/
theorem confirmedSeats_cons (a : Booking) (t : List Booking) (id : Nat) :
    confirmedSeats (a :: t) id
      = (if a.event_id = id ∧ a.status = BookingStatus.confirmed then a.quantity else 0)
        + confirmedSeats t id := by
  unfold confirmedSeats
  by_cases h : a.event_id = id ∧ a.status = BookingStatus.confirmed
  · rw [List.filter_cons, if_pos (by simpa using h), if_pos h]
    simp
  · rw [List.filter_cons, if_neg (by simpa using h), if_neg h]
    simp

/-- Confirmed seats of the empty table. -/
theorem confirmedSeats_nil (id : Nat) : confirmedSeats [] id = 0 := rfl

/-- Confirmed seats after one row was appended. -/
theorem confirmedSeats_append_single (l : List Booking) (row : Booking) (id : Nat) :
    confirmedSeats (l ++ [row]) id
      = confirmedSeats l id
        + (if row.event_id = id ∧ row.status = BookingStatus.confirmed then row.quantity
           else 0) := by
  induction l with
  | nil => simp [confirmedSeats_cons, confirmedSeats_nil]
  | cons a t ih =>
    rw [List.cons_append, confirmedSeats_cons, confirmedSeats_cons, ih]
    ring

/-- An event no booking references has no confirmed seats. -/
theorem confirmedSeats_of_no_ref (l : List Booking) (id : Nat)
    (h : ∀ b ∈ l, b.event_id ≠ id) : confirmedSeats l id = 0 := by
  induction l with
  | nil => rfl
  | cons a t ih =>
    rw [confirmedSeats_cons, ih (fun b hb => h b (List.mem_cons_of_mem _ hb))]
    simp [h a (List.mem_cons_self _ _)]

/-- Confirmed seats are non-negative when the booked quantities are. -/
theorem confirmedSeats_nonneg (l : List Booking) (id : Nat) (h : ∀ b ∈ l, 0 < b.quantity) :
    0 ≤ confirmedSeats l id := by
  induction l with
  | nil => simp [confirmedSeats_nil]
  | cons a t ih =>
    rw [confirmedSeats_cons]
    have h1 := ih (fun b hb => h b (List.mem_cons_of_mem _ hb))
    have h2 := h a (List.mem_cons_self _ _)
    split_ifs <;> omega

/-- Cancelling by an identifier no row carries changes nothing. -/
theorem map_cancel_of_absent (l : List Booking) (bid : Nat) (h : ∀ b ∈ l, b.id ≠ bid) :
    l.map (fun x => if x.id = bid then { x with status := BookingStatus.cancelled } else x)
      = l := by
  conv_rhs => rw [← List.map_id l]
  apply List.map_congr_left
  intro x hx
  simp [h x hx]

/-- Confirmed seats after the cancellation of one confirmed booking. -/
theorem confirmedSeats_cancel (l : List Booking) (b : Booking) (id : Nat)
    (hpw : l.Pairwise (fun x y => x.id ≠ y.id)) (hb : b ∈ l)
    (hst : b.status = BookingStatus.confirmed) :
    confirmedSeats
        (l.map (fun x =>
          if x.id = b.id then { x with status := BookingStatus.cancelled } else x)) id
      = confirmedSeats l id - (if b.event_id = id then b.quantity else 0) := by
  induction l with
  | nil => cases hb
  | cons a t ih =>
    rw [List.pairwise_cons] at hpw
    rw [List.mem_cons] at hb
    rcases hb with rfl | hb
    · rw [List.map_cons, if_pos rfl, map_cancel_of_absent t b.id (fun x hx => (hpw.1 x hx).symm),
        confirmedSeats_cons, confirmedSeats_cons]
      simp only [hst, and_true]
      split_ifs <;> simp_all
    · have hne : a.id ≠ b.id := hpw.1 b hb
      rw [List.map_cons, if_neg hne, confirmedSeats_cons, confirmedSeats_cons, ih hpw.2 hb]
      ring

/-- Rows of a table with distinct identifiers are determined by their identifier. -/
theorem event_eq_of_id_eq {l : List Event} (hpw : l.Pairwise (fun x y => x.id ≠ y.id))
    {a b : Event} (ha : a ∈ l) (hb : b ∈ l) (hid : a.id = b.id) : a = b := by
  induction l with
  | nil => cases ha
  | cons c t ih =>
    rw [List.pairwise_cons] at hpw
    rw [List.mem_cons] at ha hb
    rcases ha with rfl | ha <;> rcases hb with rfl | hb
    · rfl
    · exact absurd hid (hpw.1 b hb)
    · exact absurd hid.symm (hpw.1 a ha)
    · exact ih hpw.2 ha hb

/-- A selected event is a row of the table. -/
theorem mem_of_selectEvents {s : Store} {eid : Nat} {e : Event} {rest : List Event}
    (hsel : selectEvents s eid = e :: rest) : e ∈ s.events := by
  have : e ∈ selectEvents s eid := by rw [hsel]; exact List.mem_cons_self _ _
  exact (List.mem_filter.mp this).1

/-- A selected booking is a row of the table. -/
theorem mem_of_selectBookings {s : Store} {bid : Nat} {b : Booking} {rest : List Booking}
    (hsel : selectBookings s bid = b :: rest) : b ∈ s.bookings := by
  have : b ∈ selectBookings s bid := by rw [hsel]; exact List.mem_cons_self _ _
  exact (List.mem_filter.mp this).1

/-- Reserve with a positive quantity keeps the seat accounting. -/
theorem accounted_bookings_post (s : Store) (body : BookingBody) (uuid : String) (now : Nat)
    (hk : KeysOk s) (h : SeatsAccounted s)
    (ho : orderly s (Request.reserve body uuid now) = true) :
    SeatsAccounted (bookings_post s body uuid now).store := by
  rcases bookings_post_store_cases s body uuid now with ⟨hs, _⟩ |
    ⟨eid, n, em, m, q, e, rest, hb, _, hsel, hav, hs⟩
  · rw [hs]; exact h
  · rw [hs]
    subst hb
    have hq : 0 < q := by simpa [orderly] using ho
    obtain ⟨hpos, hacc⟩ := h
    have he : e.id = eid := id_of_selectEvents hsel
    have hemem : e ∈ s.events := mem_of_selectEvents hsel
    refine ⟨?_, ?_⟩
    · intro b hb
      simp only [reserved, List.mem_append, List.mem_singleton] at hb
      rcases hb with hb | rfl
      · exact hpos b hb
      · exact hq
    · intro x hx
      simp only [reserved, List.mem_map] at hx
      obtain ⟨y, hy, rfl⟩ := hx
      obtain ⟨hy0, hyacc⟩ := hacc y hy
      simp only [reserved]
      by_cases hyid : y.id = eid
      · have hye : y = e := event_eq_of_id_eq hk.2.1 hy hemem (hyid.trans he.symm)
        subst hye
        rw [if_pos hyid, confirmedSeats_append_single]
        simp only [hyid, and_self, if_true]
        constructor
        · omega
        · rw [hyid] at hyacc
          omega
      · rw [if_neg hyid, confirmedSeats_append_single]
        have hne : ¬ (eid = y.id ∧ BookingStatus.confirmed = BookingStatus.confirmed) :=
          fun hc => hyid hc.1.symm
        rw [if_neg hne, add_zero]
        exact ⟨hy0, hyacc⟩

/-- Cancel keeps the seat accounting. -/
theorem accounted_bookings_put_cancel (s : Store) (bid : Nat) (hk : KeysOk s)
    (h : SeatsAccounted s) : SeatsAccounted (bookings_put_cancel s bid).store := by
  rcases bookings_put_cancel_store_cases s bid with hs | ⟨b, rest, hsel, hst, hs⟩
  · rw [hs]; exact h
  · rw [hs]
    obtain ⟨hpos, hacc⟩ := h
    have hbid : b.id = bid := id_of_selectBookings hsel
    have hbmem : b ∈ s.bookings := mem_of_selectBookings hsel
    have hbq : 0 < b.quantity := hpos b hbmem
    refine ⟨?_, ?_⟩
    · intro x hx
      simp only [cancelled, List.mem_map] at hx
      obtain ⟨y, hy, rfl⟩ := hx
      have := hpos y hy
      by_cases hyid : y.id = bid <;> simpa [hyid] using this
    · intro x hx
      simp only [cancelled, List.mem_map] at hx
      obtain ⟨y, hy, rfl⟩ := hx
      obtain ⟨hy0, hyacc⟩ := hacc y hy
      have hc := confirmedSeats_cancel s.bookings b y.id hk.2.2.2 hbmem hst
      rw [hbid] at hc
      simp only [cancelled]
      by_cases hyid : y.id = b.event_id
      · rw [if_pos hyid]
        simp only
        rw [hc, if_pos hyid.symm]
        constructor <;> omega
      · rw [if_neg hyid, hc, if_neg (fun hc2 => hyid hc2.symm)]
        exact ⟨hy0, by omega⟩

/-- Create-event with a non-negative `total_seats` keeps the seat accounting. -/
theorem accounted_events_post (s : Store) (body : EventBody) (hk : KeysOk s)
    (h : SeatsAccounted s) (ho : orderly s (Request.createEvent body) = true) :
    SeatsAccounted (events_post s body).store := by
  rcases events_post_store_cases s body with hs | ⟨row, hid, hav, htot, hs⟩
  · rw [hs]; exact h
  · rw [hs]
    obtain ⟨hpos, hacc⟩ := h
    refine ⟨hpos, ?_⟩
    intro x hx
    simp only [List.mem_append, List.mem_singleton] at hx
    rcases hx with hx | rfl
    · exact hacc x hx
    · have hzero : confirmedSeats s.bookings x.id = 0 := by
        apply confirmedSeats_of_no_ref
        intro b hb
        rw [hid]
        exact Nat.ne_of_lt (hk.2.2.1 b hb).2
      have htot0 : 0 ≤ x.total_seats := by
        rcases htot with h100 | hsome
        · rw [h100]; decide
        · simpa [orderly, hsome] using ho
      simp only
      rw [hzero, hav]
      exact ⟨htot0, by ring⟩

/-- Update-event that does not shrink below the booked seats keeps the seat accounting. -/
theorem accounted_events_put (s : Store) (eventId : Nat) (body : EventBody) (hk : KeysOk s)
    (h : SeatsAccounted s) (ho : orderly s (Request.updateEvent eventId body) = true) :
    SeatsAccounted (events_put s eventId body).store := by
  rcases events_put_store_cases s eventId body with hs | ⟨cur, rest, hsel, hs⟩
  · rw [hs]; exact h
  · rw [hs]
    obtain ⟨hpos, hacc⟩ := h
    have hcid : cur.id = eventId := id_of_selectEvents hsel
    have hcmem : cur ∈ s.events := mem_of_selectEvents hsel
    refine ⟨hpos, ?_⟩
    intro x hx
    simp only [List.mem_map] at hx
    obtain ⟨y, hy, rfl⟩ := hx
    obtain ⟨hy0, hyacc⟩ := hacc y hy
    by_cases hyid : y.id = eventId
    · have hye : y = cur := event_eq_of_id_eq hk.2.1 hy hcmem (hyid.trans hcid.symm)
      subst hye
      rw [if_pos hyid]
      rcases hts : body.total_seats with _ | t
      · simp only [updatedRow, resizedAvailable, hts, coalesce]
        exact ⟨hy0, hyacc⟩
      · have ho2 : t ≠ 0 ∧ y.total_seats - y.available_seats ≤ t := by
          simp only [orderly, hts, Bool.and_eq_true, decide_eq_true_eq, List.all_eq_true,
            Bool.or_eq_true, bne_iff_ne, ne_eq] at ho
          refine ⟨ho.1, ?_⟩
          rcases ho.2 y hy with hne | hle
          · exact absurd hyid hne
          · exact hle
        simp only [updatedRow, resizedAvailable, hts, coalesce]
        by_cases hchg : t ≠ 0 ∧ t ≠ y.total_seats
        · rw [if_pos hchg]
          have hmax : max 0 (t - (y.total_seats - y.available_seats))
              = t - (y.total_seats - y.available_seats) := max_eq_right (by omega)
          rw [hmax]
          constructor <;> omega
        · rw [if_neg hchg]
          have hteq : t = y.total_seats := by
            by_contra hne
            exact hchg ⟨ho2.1, hne⟩
          constructor <;> omega
    · rw [if_neg hyid]
      exact ⟨hy0, hyacc⟩

/-- Delete-event keeps the seat accounting. -/
theorem accounted_events_delete (s : Store) (eventId : Nat) (h : SeatsAccounted s) :
    SeatsAccounted (events_delete s eventId).store := by
  rcases events_delete_store_cases s eventId with hs | hs
  · rw [hs]; exact h
  · rw [hs]
    exact ⟨h.1, fun x hx => h.2 x (List.mem_filter.mp hx).1⟩

/-- Every orderly request keeps the seat accounting. -/
theorem accounted_handle (s : Store) (r : Request) (hk : KeysOk s) (h : SeatsAccounted s)
    (ho : orderly s r = true) : SeatsAccounted (handle s r).store := by
  cases r with
  | createEvent body => exact accounted_events_post s body hk h ho
  | updateEvent eventId body => exact accounted_events_put s eventId body hk h ho
  | deleteEvent eventId => exact accounted_events_delete s eventId h
  | reserve body uuid now => exact accounted_bookings_post s body uuid now hk h ho
  | cancel bookingId => exact accounted_bookings_put_cancel s bookingId hk h

/-- The seat accounting holds in the empty store. -/
theorem accounted_empty : SeatsAccounted Store.empty := by
  refine ⟨?_, ?_⟩ <;> intro x hx <;> cases hx

/-- The seat accounting holds along every run of orderly requests. -/
theorem accounted_run (p : Store → Request → Bool)
    (hp : ∀ s r, p s r = true → orderly s r = true) (rs : List Request) (s : Store)
    (hk : KeysOk s) (h : SeatsAccounted s) (hrun : runWhere p s rs = true) :
    SeatsAccounted (run s rs) := by
  induction rs generalizing s with
  | nil => exact h
  | cons r rs ih =>
    simp only [runWhere, Bool.and_eq_true] at hrun
    exact ih _ (keysOk_handle s r hk) (accounted_handle s r hk h (hp s r hrun.1)) hrun.2

/-! ## The seat invariant along runs -/

/-- C1, as stated, fails (scenario C): after creating an event with 100 seats, reserving 70
and updating `total_seats` to 40, the event has `total_seats = 40`, `available_seats = 0` and
70 confirmed seats, so `available_seats` is not `total_seats` minus the confirmed seats. -/
theorem seat_invariant_fails_after_shrink :
    (run Store.empty shrinkRun).events.map (fun e =>
        (e.total_seats, e.available_seats,
          confirmedSeats (run Store.empty shrinkRun).bookings e.id)) = [(40, 0, 70)]
    ∧ ¬ ∀ e ∈ (run Store.empty shrinkRun).events,
        0 ≤ e.available_seats ∧ e.available_seats ≤ e.total_seats
        ∧ e.available_seats
          = e.total_seats - confirmedSeats (run Store.empty shrinkRun).bookings e.id := by
  decide

/-- C1, amended: in every store reached from the empty one by create-event, update-event,
delete-event, Reserve and Cancel requests in which no create-event carries a negative
`total_seats`, every Reserve quantity is positive, and every update-event carries no
`total_seats` or one that is non-zero and at least the seats currently booked on the event,
every event has `0 ≤ available_seats ≤ total_seats` and
`available_seats = total_seats - (sum of the quantities of its confirmed bookings)`. -/
theorem seat_invariant_of_orderly_run (rs : List Request)
    (h : runWhere orderly Store.empty rs = true) :
    ∀ e ∈ (run Store.empty rs).events,
      0 ≤ e.available_seats ∧ e.available_seats ≤ e.total_seats
      ∧ e.available_seats
        = e.total_seats - confirmedSeats (run Store.empty rs).bookings e.id := by
  intro e he
  obtain ⟨hpos, hacc⟩ :=
    accounted_run orderly (fun _ _ hp => hp) rs Store.empty keysOk_empty accounted_empty h
  obtain ⟨h0, heq⟩ := hacc e he
  have hnn := confirmedSeats_nonneg (run Store.empty rs).bookings e.id hpos
  exact ⟨h0, by omega, heq⟩

/-- Witness of C1 (amended): a run with requests of all five kinds. -/
theorem seat_invariant_of_orderly_run_witness :
    runWhere orderly Store.empty orderlyRun = true
    ∧ ∀ e ∈ (run Store.empty orderlyRun).events,
        0 ≤ e.available_seats ∧ e.available_seats ≤ e.total_seats
        ∧ e.available_seats
          = e.total_seats - confirmedSeats (run Store.empty orderlyRun).bookings e.id :=
  ⟨by decide, seat_invariant_of_orderly_run orderlyRun (by decide)⟩

/-- C2, as stated, fails (scenario C): the run uses no delete-event request and ends with an
event whose confirmed bookings hold 70 seats while `total_seats` is 40. -/
theorem overbooked_after_shrink :
    shrinkRun.all (fun r => !isDelete r) = true
    ∧ ∃ e ∈ (run Store.empty shrinkRun).events,
        e.total_seats = 40
        ∧ confirmedSeats (run Store.empty shrinkRun).bookings e.id = 70
        ∧ ¬ confirmedSeats (run Store.empty shrinkRun).bookings e.id ≤ e.total_seats := by
  decide

/-- C2, amended: in every store reached from the empty one by create-event, update-event,
Reserve and Cancel requests in which no create-event carries a negative `total_seats`, every
Reserve quantity is positive, and every update-event carries no `total_seats` or one that is
non-zero and at least the seats currently booked on the event, the confirmed bookings of every
event hold at most `total_seats` seats. -/
theorem no_overbooking_of_orderly_run (rs : List Request)
    (h : runWhere (fun s r => orderly s r && !isDelete r) Store.empty rs = true) :
    ∀ e ∈ (run Store.empty rs).events,
      confirmedSeats (run Store.empty rs).bookings e.id ≤ e.total_seats := by
  intro e he
  obtain ⟨_, hacc⟩ :=
    accounted_run (fun s r => orderly s r && !isDelete r)
      (fun s r hp => by
        simp only [Bool.and_eq_true] at hp
        exact hp.1)
      rs Store.empty keysOk_empty accounted_empty h
  obtain ⟨h0, heq⟩ := hacc e he
  omega

/-- Witness of C2 (amended): a run without delete-event. -/
theorem no_overbooking_of_orderly_run_witness :
    runWhere (fun s r => orderly s r && !isDelete r) Store.empty orderlyRunNoDelete = true
    ∧ ∀ e ∈ (run Store.empty orderlyRunNoDelete).events,
        confirmedSeats (run Store.empty orderlyRunNoDelete).bookings e.id ≤ e.total_seats :=
  ⟨by decide, no_overbooking_of_orderly_run orderlyRunNoDelete (by decide)⟩

/-! ## Reserve: rejected requests -/

/-- C19: a Reserve request with every field present whose `event_id` matches no event is
answered 404 "Event not found", leaves the whole store (events and bookings tables) as it was
and publishes nothing. -/
theorem reserve_unknown_event (s : Store) (eid : Nat) (n em m : String) (q : Int)
    (uuid : String) (now : Nat)
    (h0 : eid ≠ 0) (hn : n ≠ "") (hem : em ≠ "") (hm : m ≠ "") (hq : q ≠ 0)
    (hsel : selectEvents s eid = []) :
    (bookings_post s
        { event_id := some eid, name := some n, email := some em, mobile := some m,
          quantity := some q } uuid now).response = failure 404 "Event not found"
    ∧ (bookings_post s
        { event_id := some eid, name := some n, email := some em, mobile := some m,
          quantity := some q } uuid now).store = s
    ∧ (bookings_post s
        { event_id := some eid, name := some n, email := some em, mobile := some m,
          quantity := some q } uuid now).emitted = [] := by
  simp [bookings_post, h0, hn, hem, hm, hq, hsel]

/-- Witness of C19 (scenario A): a request for event 7, which does not exist. -/
theorem reserve_unknown_event_witness :
    (bookings_post scenarioA (order 7 1) "77aa01bc-0000-4000-8000-000000000001" 11).response
      = failure 404 "Event not found"
    ∧ (bookings_post scenarioA (order 7 1) "77aa01bc-0000-4000-8000-000000000001" 11).store
      = scenarioA
    ∧ (bookings_post scenarioA (order 7 1) "77aa01bc-0000-4000-8000-000000000001" 11).emitted
      = [] :=
  reserve_unknown_event scenarioA 7 "Ann" "ann@example.org" "5550100" 1
    "77aa01bc-0000-4000-8000-000000000001" 11
    (by decide) (by decide) (by decide) (by decide) (by decide) (by decide)

/-- The whole outcome of a request that fails the validation of its fields. -/
theorem bookings_post_of_missingField (s : Store) (body : BookingBody) (uuid : String)
    (now : Nat) (h : missingField body = true) :
    bookings_post s body uuid now
      = { store := s, response := failure 400 "All fields are required", emitted := [],
          conn := [ConnOp.beginTransaction, ConnOp.release] } := by
  rcases body with ⟨_ | eid, _ | n, _ | em, _ | m, _ | q⟩ <;>
    try (simp [bookings_post]; done)
  have hv : eid = 0 ∨ n = "" ∨ em = "" ∨ m = "" ∨ q = 0 := by
    simpa [missingField, or_assoc] using h
  simp [bookings_post, hv]

/-- C17, as stated, fails: for a request without a name on the empty store, the calls made on
the connection start with `beginTransaction`, and the transaction is neither committed nor
rolled back before the connection is released. -/
theorem validation_failure_begins_transaction :
    missingField namelessOrder = true
    ∧ (bookings_post Store.empty namelessOrder "77aa01bc-0000-4000-8000-000000000001" 11).response
      = failure 400 "All fields are required"
    ∧ (bookings_post Store.empty namelessOrder "77aa01bc-0000-4000-8000-000000000001" 11).conn
      = [ConnOp.beginTransaction, ConnOp.release] := by
  decide

/-- C17, amended: a Reserve request in which event_id, name, email, mobile or quantity is
missing (or falsy) is answered 400 "All fields are required" whatever the tables hold; the
store is unchanged and nothing is published; a transaction has been begun on the request's
connection before the validation, and it is not committed. -/
theorem reserve_missing_field (s : Store) (body : BookingBody) (uuid : String) (now : Nat)
    (h : missingField body = true) :
    (bookings_post s body uuid now).response = failure 400 "All fields are required"
    ∧ (bookings_post s body uuid now).store = s
    ∧ (bookings_post s body uuid now).emitted = []
    ∧ (bookings_post s body uuid now).conn.head? = some ConnOp.beginTransaction
    ∧ ConnOp.commit ∉ (bookings_post s body uuid now).conn := by
  rw [bookings_post_of_missingField s body uuid now h]
  simp

/-- Witness of C17 (amended): a request without a name on scenario A. -/
theorem reserve_missing_field_witness :
    missingField namelessOrder = true
    ∧ (bookings_post scenarioA namelessOrder "77aa01bc-0000-4000-8000-000000000001" 11).response
      = failure 400 "All fields are required"
    ∧ (bookings_post scenarioA namelessOrder "77aa01bc-0000-4000-8000-000000000001" 11).store
      = scenarioA
    ∧ (bookings_post scenarioA namelessOrder "77aa01bc-0000-4000-8000-000000000001" 11).emitted
      = []
    ∧ (bookings_post scenarioA namelessOrder
        "77aa01bc-0000-4000-8000-000000000001" 11).conn.head? = some ConnOp.beginTransaction
    ∧ ConnOp.commit ∉ (bookings_post scenarioA namelessOrder
        "77aa01bc-0000-4000-8000-000000000001" 11).conn :=
  ⟨by decide,
   reserve_missing_field scenarioA namelessOrder "77aa01bc-0000-4000-8000-000000000001" 11
     (by decide)⟩

/-- C18, at the failing input (scenario A, quantity -1): the request is answered 201, a
booking of -1 seats with amount -50 is written, and `available_seats` goes from 2 to 3. -/
theorem reserve_negative_quantity_accepted :
    (bookings_post scenarioA (order 1 (-1)) "77aa01bc-0000-4000-8000-000000000001" 11).response.status
      = 201
    ∧ (bookings_post scenarioA (order 1 (-1))
        "77aa01bc-0000-4000-8000-000000000001" 11).response.success = true
    ∧ (bookings_post scenarioA (order 1 (-1))
        "77aa01bc-0000-4000-8000-000000000001" 11).store.events
      = [{ concert with available_seats := 3 }]
    ∧ (bookings_post scenarioA (order 1 (-1))
        "77aa01bc-0000-4000-8000-000000000001" 11).store.bookings.map
          (fun b => (b.quantity, b.total_amount, b.status))
      = [(-1, -50, BookingStatus.confirmed)] := by
  decide

/-! ## Cancel and the seat bound -/

/-- C11, as stated, fails (scenario C continued): after creating an event with 100 seats,
reserving 70 and updating `total_seats` to 40, the Cancel of that booking succeeds and leaves
the event with `total_seats = 40` and `available_seats = 70`. -/
theorem cancel_exceeds_total_after_shrink :
    shrinkRun.all (fun r => !isDelete r) = true
    ∧ (bookings_put_cancel (run Store.empty shrinkRun) 1).response.success = true
    ∧ (bookings_put_cancel (run Store.empty shrinkRun) 1).store.events.map
        (fun e => (e.total_seats, e.available_seats)) = [(40, 70)] := by
  decide

/-- C11, amended: in every store reached from the empty one by create-event, update-event,
Reserve and Cancel requests in which no create-event carries a negative `total_seats`, every
Reserve quantity is positive, and every update-event carries no `total_seats` or one that is
non-zero and at least the seats currently booked on the event, a Cancel request (successful or
not) leaves every event with `available_seats ≤ total_seats`. -/
theorem cancel_within_total_of_orderly_run (rs : List Request)
    (h : runWhere (fun s r => orderly s r && !isDelete r) Store.empty rs = true)
    (bookingId : Nat) :
    ∀ e ∈ (bookings_put_cancel (run Store.empty rs) bookingId).store.events,
      e.available_seats ≤ e.total_seats := by
  intro e he
  have hk : KeysOk (run Store.empty rs) := keysOk_run rs Store.empty keysOk_empty
  have hacc : SeatsAccounted (run Store.empty rs) :=
    accounted_run (fun s r => orderly s r && !isDelete r)
      (fun s r hp => by
        simp only [Bool.and_eq_true] at hp
        exact hp.1)
      rs Store.empty keysOk_empty accounted_empty h
  obtain ⟨hpos, hev⟩ := accounted_bookings_put_cancel (run Store.empty rs) bookingId hk hacc
  obtain ⟨_, heq⟩ := hev e he
  have hnn := confirmedSeats_nonneg _ e.id hpos
  omega

/-- Witness of C11 (amended): after a growing resize, the Cancel of the first booking
succeeds and leaves `available_seats = 2` of `total_seats = 7`. -/
theorem cancel_within_total_of_orderly_run_witness :
    runWhere (fun s r => orderly s r && !isDelete r) Store.empty runBeforeCancel = true
    ∧ (bookings_put_cancel (run Store.empty runBeforeCancel) 1).response.success = true
    ∧ ∀ e ∈ (bookings_put_cancel (run Store.empty runBeforeCancel) 1).store.events,
        e.available_seats ≤ e.total_seats :=
  ⟨by decide, by decide, cancel_within_total_of_orderly_run runBeforeCancel (by decide) 1⟩

/-! ## Booking rows only move forward -/

/-- Every row is a status step of itself. -/
theorem statusStep_rows_refl (l : List Booking) : List.Forall₂ StatusStep l l := by
  induction l with
  | nil => exact List.Forall₂.nil
  | cons a t ih => exact List.Forall₂.cons (Or.inl rfl) ih

/-- The `UPDATE bookings SET status = 'cancelled' WHERE id = ?` statement moves rows by status
steps only. -/
theorem statusStep_rows_cancel (l : List Booking) (bid : Nat) :
    List.Forall₂ StatusStep l
      (l.map (fun x =>
        if x.id = bid then { x with status := BookingStatus.cancelled } else x)) := by
  induction l with
  | nil => exact List.Forall₂.nil
  | cons a t ih =>
    rw [List.map_cons]
    refine List.Forall₂.cons ?_ ih
    by_cases ha : a.id = bid
    · rw [if_pos ha]
      by_cases hst : a.status = BookingStatus.cancelled
      · left
        obtain ⟨i, ev, n, em, m, q, ta, bc, st, bd⟩ := a
        simp only at hst
        subst hst
        rfl
      · right
        exact ⟨confirmed_of_ne_cancelled hst, rfl⟩
    · rw [if_neg ha]
      exact Or.inl rfl

/-- C12: whatever request a handler of the events or bookings routes serves, the bookings table
afterwards is the old table, row by row, followed by the rows added; each old row is either
untouched or moved from `confirmed` to `cancelled` with all its other fields kept (so no row
is removed, none goes back to `confirmed`, no other field changes); and unless the request is
a Cancel, every old row is untouched. -/
theorem booking_status_one_way (s : Store) (r : Request) :
    ∃ kept added,
      (handle s r).store.bookings = kept ++ added
      ∧ List.Forall₂ StatusStep s.bookings kept
      ∧ ((∀ bookingId, r ≠ Request.cancel bookingId) → kept = s.bookings) := by
  cases r with
  | createEvent body =>
    refine ⟨s.bookings, [], ?_, statusStep_rows_refl _, fun _ => rfl⟩
    rcases events_post_store_cases s body with hs | ⟨row, _, _, _, hs⟩ <;>
      simp [handle, hs]
  | updateEvent eventId body =>
    refine ⟨s.bookings, [], ?_, statusStep_rows_refl _, fun _ => rfl⟩
    rcases events_put_store_cases s eventId body with hs | ⟨cur, rest, _, hs⟩ <;>
      simp [handle, hs]
  | deleteEvent eventId =>
    refine ⟨s.bookings, [], ?_, statusStep_rows_refl _, fun _ => rfl⟩
    rcases events_delete_store_cases s eventId with hs | hs <;>
      simp [handle, hs]
  | reserve body uuid now =>
    rcases bookings_post_store_cases s body uuid now with ⟨hs, _⟩ |
      ⟨eid, n, em, m, q, e, rest, _, _, _, _, hs⟩
    · exact ⟨s.bookings, [], by simp [handle, hs], statusStep_rows_refl _, fun _ => rfl⟩
    · refine ⟨s.bookings, (reserved s eid n em m q e.price uuid now).bookings.drop
        s.bookings.length, ?_, statusStep_rows_refl _, fun _ => rfl⟩
      simp [handle, hs, reserved]
  | cancel bookingId =>
    rcases bookings_put_cancel_store_cases s bookingId with hs | ⟨b, rest, _, _, hs⟩
    · exact ⟨s.bookings, [], by simp [handle, hs], statusStep_rows_refl _,
        fun h => absurd rfl (h bookingId)⟩
    · exact ⟨_, [], by simp only [handle, hs, cancelled, List.append_nil],
        statusStep_rows_cancel s.bookings bookingId, fun h => absurd rfl (h bookingId)⟩

/-! ## Booking codes -/

/-- Upper-casing a hexadecimal digit gives an upper-case hexadecimal digit, and no hexadecimal
digit is a hyphen. -/
theorem hexDigits_upper : ∀ c ∈ hexDigits,
    Char.toUpper c ∈ upperHexDigits ∧ (c != '-') = true := by
  decide

/-- Taking while a predicate holds stops exactly after a block on which it holds when the next
element fails it. -/
theorem takeWhile_block (p : Char → Bool) (a b : List Char) (c : Char)
    (ha : ∀ x ∈ a, p x = true) (hc : p c = false) :
    (a ++ c :: b).takeWhile p = a := by
  induction a with
  | nil => simp [List.takeWhile_cons, hc]
  | cons x t ih =>
    rw [List.cons_append, List.takeWhile_cons, ha x (List.mem_cons_self _ _)]
    simp only [if_true]
    rw [ih (fun y hy => ha y (List.mem_cons_of_mem _ hy))]

/-- The text before the first hyphen of a canonical UUID is its first eight characters, all of
them hexadecimal digits. -/
theorem first_group_of_canonical (uuid : String) (h : isCanonicalUuid uuid = true) :
    uuid.data.takeWhile (fun c => c != '-') = uuid.data.take 8
    ∧ (uuid.data.take 8).length = 8
    ∧ ∀ c ∈ uuid.data.take 8, c ∈ hexDigits := by
  simp only [isCanonicalUuid, hexGroups, Bool.and_eq_true, beq_iff_eq, List.all_eq_true,
    decide_eq_true_eq] at h
  obtain ⟨⟨⟨hlen, hhex⟩, hhead⟩, _⟩ := h
  refine ⟨?_, hlen, hhex⟩
  rcases hdrop : uuid.data.drop 8 with _ | ⟨c, rest⟩
  · rw [hdrop] at hhead
    simp at hhead
  · rw [hdrop] at hhead
    simp only [List.head?_cons, Option.some.injEq] at hhead
    subst hhead
    have hsplit : uuid.data = uuid.data.take 8 ++ '-' :: rest := by
      rw [← hdrop, List.take_append_drop]
    conv_lhs => rw [hsplit]
    exact takeWhile_block _ _ _ _ (fun x hx => (hexDigits_upper x (hhex x hx)).2) (by decide)

/-- C14: for a UUID in canonical form, `generateBookingCode` returns a string of 12
characters: the fixed text `EVT-` followed by the first group of the UUID upper-cased, which
is 8 characters, each in 0-9 or A-F. -/
theorem generateBookingCode_canonical (uuid : String) (h : isCanonicalUuid uuid = true) :
    (generateBookingCode uuid).length = 12
    ∧ (generateBookingCode uuid).data
      = ['E', 'V', 'T', '-'] ++ (uuid.data.take 8).map Char.toUpper
    ∧ ((generateBookingCode uuid).data.drop 4).length = 8
    ∧ ∀ c ∈ (generateBookingCode uuid).data.drop 4, c ∈ upperHexDigits := by
  obtain ⟨htake, hlen, hhex⟩ := first_group_of_canonical uuid h
  have hdata : (generateBookingCode uuid).data
      = ['E', 'V', 'T', '-'] ++ (uuid.data.take 8).map Char.toUpper := by
    simp only [generateBookingCode, String.data_append, htake]
  refine ⟨?_, hdata, ?_, ?_⟩
  · rw [String.length, hdata, List.length_append, List.length_map, hlen]
    rfl
  · rw [hdata]
    simp only [List.cons_append, List.nil_append, List.drop_succ_cons, List.drop_zero,
      List.length_map, hlen]
  · intro c hc
    rw [hdata] at hc
    simp only [List.cons_append, List.nil_append, List.drop_succ_cons, List.drop_zero,
      List.mem_map] at hc
    obtain ⟨x, hx, rfl⟩ := hc
    exact (hexDigits_upper x (hhex x hx)).1

/-- Witness of C14: a mixed-case canonical UUID. -/
theorem generateBookingCode_canonical_witness :
    isCanonicalUuid "3f2A9c1e-0b7d-4e58-9a6f-1c2d3e4f5a6b" = true
    ∧ generateBookingCode "3f2A9c1e-0b7d-4e58-9a6f-1c2d3e4f5a6b" = "EVT-3F2A9C1E"
    ∧ (generateBookingCode "3f2A9c1e-0b7d-4e58-9a6f-1c2d3e4f5a6b").length = 12
    ∧ ((generateBookingCode "3f2A9c1e-0b7d-4e58-9a6f-1c2d3e4f5a6b").data.drop 4).length = 8
    ∧ ∀ c ∈ (generateBookingCode "3f2A9c1e-0b7d-4e58-9a6f-1c2d3e4f5a6b").data.drop 4,
        c ∈ upperHexDigits :=
  ⟨by decide, by decide,
   (generateBookingCode_canonical "3f2A9c1e-0b7d-4e58-9a6f-1c2d3e4f5a6b" (by decide)).1,
   (generateBookingCode_canonical "3f2A9c1e-0b7d-4e58-9a6f-1c2d3e4f5a6b" (by decide)).2.2⟩

/-- C15, at the failing input: two distinct canonical UUIDs with the same first group get the
same booking code, and the run that draws them leaves two distinct bookings with one code. -/
theorem booking_codes_collide :
    isCanonicalUuid "c0ffee00-1111-4111-8111-111111111111" = true
    ∧ isCanonicalUuid "c0ffee00-2222-4222-9222-222222222222" = true
    ∧ "c0ffee00-1111-4111-8111-111111111111" ≠ "c0ffee00-2222-4222-9222-222222222222"
    ∧ generateBookingCode "c0ffee00-1111-4111-8111-111111111111"
      = generateBookingCode "c0ffee00-2222-4222-9222-222222222222"
    ∧ (run Store.empty collidingRun).bookings.map (fun b => (b.id, b.booking_code))
      = [(1, "EVT-C0FFEE00"), (2, "EVT-C0FFEE00")] := by
  decide

/-! ## Lookup by booking code -/

/-- The rows of the join: one per selected booking and event row it references. -/
theorem mem_joinBookings (s : Store) (p : Booking → Bool) (jb : JoinedBooking) :
    jb ∈ joinBookings s p ↔
      ∃ b ∈ s.bookings, p b = true ∧ ∃ e ∈ s.events, e.id = b.event_id
        ∧ jb = { booking := b, event_title := e.title, event_date := e.date,
                 event_location := e.location, event_img := e.img } := by
  unfold joinBookings
  simp only [List.mem_flatMap, List.mem_filter, List.mem_map, beq_iff_eq]
  constructor
  · rintro ⟨b, ⟨hb, hp⟩, e, ⟨he, hid⟩, rfl⟩
    exact ⟨b, hb, hp, e, he, hid, rfl⟩
  · rintro ⟨b, hb, hp, e, he, hid, rfl⟩
    exact ⟨b, ⟨hb, hp⟩, e, ⟨he, hid⟩, rfl⟩

/-- C16, as stated, fails: after a Reserve and the deletion of its event the ledger still
holds a booking with code `EVT-9B1DEB4D`, yet the lookup of that code is answered
"Booking not found". -/
theorem get_code_misses_orphaned_booking :
    (∃ b ∈ (run Store.empty orphaningRun).bookings, b.booking_code = "EVT-9B1DEB4D")
    ∧ bookings_get_code (run Store.empty orphaningRun) "EVT-9B1DEB4D"
      = failure 404 "Booking not found" := by
  decide

/-- C16, amended: for every string `c`, Get-booking-by-code is answered "Booking not found"
exactly when no booking of the ledger with `booking_code = c` references an existing event;
and whenever such a booking exists the answer is a success carrying a booking of the ledger
whose `booking_code` is exactly `c`. -/
theorem get_code_lookup (s : Store) (c : String) :
    (bookings_get_code s c = failure 404 "Booking not found" ↔
      ¬ ∃ b ∈ s.bookings, b.booking_code = c ∧ ∃ e ∈ s.events, e.id = b.event_id)
    ∧ ((∃ b ∈ s.bookings, b.booking_code = c ∧ ∃ e ∈ s.events, e.id = b.event_id) →
        ∃ jb, bookings_get_code s c
            = { status := 200, success := true, payload := Payload.booking (some jb) }
          ∧ jb.booking ∈ s.bookings ∧ jb.booking.booking_code = c) := by
  have hmem := mem_joinBookings s (fun b => b.booking_code == c)
  rcases hj : joinBookings s (fun b => b.booking_code == c) with _ | ⟨row0, more⟩
  · have hnone : ¬ ∃ b ∈ s.bookings, b.booking_code = c ∧ ∃ e ∈ s.events, e.id = b.event_id := by
      rintro ⟨b, hb, hc, e, he, hid⟩
      have := (hmem _).mpr ⟨b, hb, by simpa using hc, e, he, hid, rfl⟩
      rw [hj] at this
      cases this
    refine ⟨?_, fun h => absurd h hnone⟩
    simp only [bookings_get_code, hj, true_iff]
    exact hnone
  · obtain ⟨b, hb, hp, e, he, hid, hrow⟩ := (hmem row0).mp (by rw [hj]; exact List.mem_cons_self _ _)
    have hcode : b.booking_code = c := by simpa using hp
    have hsome : ∃ b ∈ s.bookings, b.booking_code = c ∧ ∃ e ∈ s.events, e.id = b.event_id :=
      ⟨b, hb, hcode, e, he, hid⟩
    refine ⟨?_, fun _ => ⟨row0, ?_, ?_, ?_⟩⟩
    · simp only [bookings_get_code, hj, failure]
      constructor
      · intro h
        simp at h
      · intro h
        exact absurd hsome h
    · simp only [bookings_get_code, hj]
    · rw [hrow]; exact hb
    · rw [hrow]; exact hcode

/-- Witness of C16 (scenario B): after one Reserve the lookup with the returned code succeeds
and the lookup with a different code is answered "Booking not found". -/
theorem get_code_lookup_witness :
    (returnedBooking (bookings_get_code bookedB "EVT-9B1DEB4D")).map
        (fun b => (b.id, b.booking_code)) = some (1, "EVT-9B1DEB4D")
    ∧ bookings_get_code bookedB "EVT-00000000" = failure 404 "Booking not found" :=
  ⟨by decide, (get_code_lookup bookedB "EVT-00000000").1.2 (by decide)⟩

/-- C13, at the failing input: the second Reserve of `collidingRun` succeeds and returns
booking 2 (three seats, amount 60, code `EVT-C0FFEE00`); the lookup of that code straight
afterwards returns booking 1 (one seat, amount 20). -/
theorem get_code_returns_older_booking :
    (returnedBooking
        (bookings_post beforeCollision (order 1 3)
          "c0ffee00-2222-4222-9222-222222222222" 42).response).map
          (fun b => (b.id, b.quantity, b.total_amount, b.status, b.booking_code))
      = some (2, 3, 60, BookingStatus.confirmed, "EVT-C0FFEE00")
    ∧ (returnedBooking
        (bookings_get_code
          (bookings_post beforeCollision (order 1 3)
            "c0ffee00-2222-4222-9222-222222222222" 42).store "EVT-C0FFEE00")).map
          (fun b => (b.id, b.quantity, b.total_amount, b.status, b.booking_code))
      = some (1, 1, 20, BookingStatus.confirmed, "EVT-C0FFEE00") := by
  decide

/-- The joined row of the booking just inserted, selected by its identifier. -/
theorem joinBookings_reserved_by_id (s : Store) (hk : KeysOk s) (eid : Nat) (n em m : String)
    (q : Int) (uuid : String) (now : Nat) (e : Event) (rest : List Event)
    (hsel : selectEvents s eid = e :: rest) :
    (joinBookings (reserved s eid n em m q e.price uuid now)
        (fun b => b.id == s.nextBookingId)).head?
      = some { booking :=
                { id := s.nextBookingId, event_id := eid, name := n, email := em, mobile := m,
                  quantity := q, total_amount := jsMul e.price (JsNumber.ofInt q),
                  booking_code := generateBookingCode uuid,
                  status := BookingStatus.confirmed, booking_date := now },
               event_title := e.title, event_date := e.date, event_location := e.location,
               event_img := e.img } := by
  have he : e.id = eid := id_of_selectEvents hsel
  have hsel2 : (reserved s eid n em m q e.price uuid now).events.filter (fun x => x.id == eid)
      = { e with available_seats := e.available_seats - q } ::
          rest.map (fun x =>
            if x.id = eid then { x with available_seats := x.available_seats - q } else x) := by
    unfold reserved
    simp only
    rw [filter_id_map_event _ (by intro x; by_cases hx : x.id = eid <;> simp [hx])]
    unfold selectEvents at hsel
    rw [hsel]
    simp [he]
  have hselb : (reserved s eid n em m q e.price uuid now).bookings.filter
      (fun b => b.id == s.nextBookingId)
      = [{ id := s.nextBookingId, event_id := eid, name := n, email := em, mobile := m,
           quantity := q, total_amount := jsMul e.price (JsNumber.ofInt q),
           booking_code := generateBookingCode uuid,
           status := BookingStatus.confirmed, booking_date := now }] := by
    unfold reserved
    exact filter_fresh_booking s.bookings
      { id := s.nextBookingId, event_id := eid, name := n, email := em, mobile := m,
        quantity := q, total_amount := jsMul e.price (JsNumber.ofInt q),
        booking_code := generateBookingCode uuid,
        status := BookingStatus.confirmed, booking_date := now }
      (fun b hb => (hk.2.2.1 b hb).1)
  unfold joinBookings
  rw [hselb]
  simp only [List.flatMap_cons, List.flatMap_nil, List.append_nil, hsel2]
  rfl

/-- When no earlier booking carries the code drawn, the lookup of the returned code straight
after a successful Reserve returns the very row Reserve returned. -/
theorem get_code_after_reserve_of_fresh_code (s : Store) (hk : KeysOk s) (body : BookingBody)
    (uuid : String) (now : Nat)
    (hok : (bookings_post s body uuid now).response.success = true)
    (hfresh : ∀ b ∈ s.bookings, b.booking_code ≠ generateBookingCode uuid) :
    ∃ jb, (bookings_post s body uuid now).response.payload = Payload.booking (some jb)
      ∧ jb.booking.booking_code = generateBookingCode uuid
      ∧ bookings_get_code (bookings_post s body uuid now).store jb.booking.booking_code
        = { status := 200, success := true, payload := Payload.booking (some jb) } := by
  obtain ⟨eid, n, em, m, q, e, rest, hb, h0, hn, hem, hm, hq, hsel, hav⟩ :=
    bookings_post_success_inv s body uuid now hok
  rw [hb, bookings_post_of_enough s eid n em m q uuid now e rest h0 hn hem hm hq hsel hav]
  have hjoin := joinBookings_reserved_by_id s hk eid n em m q uuid now e rest hsel
  have hsame : joinBookings (reserved s eid n em m q e.price uuid now)
      (fun b => b.booking_code == generateBookingCode uuid)
      = joinBookings (reserved s eid n em m q e.price uuid now)
          (fun b => b.id == s.nextBookingId) := by
    have h1 : (reserved s eid n em m q e.price uuid now).bookings.filter
        (fun b => b.booking_code == generateBookingCode uuid)
        = (reserved s eid n em m q e.price uuid now).bookings.filter
            (fun b => b.id == s.nextBookingId) := by
      unfold reserved
      simp only
      rw [filter_fresh_booking s.bookings
        { id := s.nextBookingId, event_id := eid, name := n, email := em, mobile := m,
          quantity := q, total_amount := jsMul e.price (JsNumber.ofInt q),
          booking_code := generateBookingCode uuid,
          status := BookingStatus.confirmed, booking_date := now }
        (fun b hb => (hk.2.2.1 b hb).1)]
      rw [List.filter_append]
      have hold : s.bookings.filter (fun b => b.booking_code == generateBookingCode uuid)
          = [] := by
        rw [List.filter_eq_nil_iff]
        intro b hb
        simpa using hfresh b hb
      rw [hold]
      simp
    unfold joinBookings
    rw [h1]
  refine ⟨{ booking :=
              { id := s.nextBookingId, event_id := eid, name := n, email := em, mobile := m,
                quantity := q, total_amount := jsMul e.price (JsNumber.ofInt q),
                booking_code := generateBookingCode uuid,
                status := BookingStatus.confirmed, booking_date := now },
             event_title := e.title, event_date := e.date, event_location := e.location,
             event_img := e.img }, by simp only [hjoin], rfl, ?_⟩
  simp only
  unfold bookings_get_code
  rw [hsame]
  rcases hj : joinBookings (reserved s eid n em m q e.price uuid now)
      (fun b => b.id == s.nextBookingId) with _ | ⟨row0, more⟩
  · rw [hj] at hjoin
    simp at hjoin
  · rw [hj] at hjoin
    simp only [List.head?_cons, Option.some.injEq] at hjoin
    rw [hjoin]

/-! ## Failures after the commit -/

/-- Without a fault the environment-aware handler is the handler. -/
theorem bookings_post_env_none (s : Store) (body : BookingBody) (uuid : String) (now : Nat) :
    bookings_post_env none s body uuid now = bookings_post s body uuid now := by
  unfold bookings_post_env bookings_post afterCommit
  simp only [reduceCtorEq, if_false]

/-- A request whose transaction was committed passed validation, found its event and found
enough seats. -/
theorem bookings_post_env_commit_inv (fault : Option PostCommitStep) (s : Store)
    (body : BookingBody) (uuid : String) (now : Nat)
    (hc : ConnOp.commit ∈ (bookings_post_env fault s body uuid now).conn) :
    ∃ eid n em m q e rest,
      body = { event_id := some eid, name := some n, email := some em, mobile := some m,
               quantity := some q }
      ∧ eid ≠ 0 ∧ n ≠ "" ∧ em ≠ "" ∧ m ≠ "" ∧ q ≠ 0
      ∧ selectEvents s eid = e :: rest ∧ q ≤ e.available_seats := by
  rcases body with ⟨_ | eid, _ | n, _ | em, _ | m, _ | q⟩ <;>
    try (simp [bookings_post_env] at hc)
  by_cases hv : eid = 0 ∨ n = "" ∨ em = "" ∨ m = "" ∨ q = 0
  · simp [bookings_post_env, hv] at hc
  · rcases hsel : selectEvents s eid with _ | ⟨e, rest⟩
    · simp [bookings_post_env, hv, hsel] at hc
    · by_cases hlt : e.available_seats < q
      · simp [bookings_post_env, hv, hsel, hlt] at hc
      · push_neg at hv
        exact ⟨eid, n, em, m, q, e, rest, rfl, hv.1, hv.2.1, hv.2.2.1, hv.2.2.2.1, hv.2.2.2.2,
          hsel, not_lt.mp hlt⟩

/-- With enough seats the environment-aware handler commits the reservation and goes on to
the post-commit steps. -/
theorem bookings_post_env_of_enough (fault : Option PostCommitStep) (s : Store) (eid : Nat)
    (n em m : String) (q : Int) (uuid : String) (now : Nat) (e : Event) (rest : List Event)
    (h0 : eid ≠ 0) (hn : n ≠ "") (hem : em ≠ "") (hm : m ≠ "") (hq : q ≠ 0)
    (hsel : selectEvents s eid = e :: rest) (hav : q ≤ e.available_seats) :
    bookings_post_env fault s
        { event_id := some eid, name := some n, email := some em, mobile := some m,
          quantity := some q } uuid now
      = afterCommit fault (reserved s eid n em m q e.price uuid now) eid s.nextBookingId := by
  simp only [bookings_post_env, h0, hn, hem, hm, hq, hsel, not_lt.mpr hav, or_self, if_false,
    reserved]

/-- A post-commit step that raises leaves the committed store and answers 500. -/
theorem afterCommit_of_fault (step : PostCommitStep) (s2 : Store) (event_id insertId : Nat) :
    (afterCommit (some step) s2 event_id insertId).store = s2
    ∧ (afterCommit (some step) s2 event_id insertId).response
      = failure 500 "Failed to create booking" := by
  rcases hsel : selectEvents s2 event_id with _ | ⟨u, more⟩ <;>
    cases step <;> simp [afterCommit, hsel]

/-- C20, at the failing input (scenario A, two seats, the re-read of the event after the commit
raises): the transaction has committed, the booking is in the ledger and the seats are gone,
and yet the response is the failure 500 "Failed to create booking" instead of the success
response carrying the booking. -/
theorem post_commit_failure_answers_500 :
    ConnOp.commit ∈ (bookings_post_env (some PostCommitStep.rereadEvent) scenarioA (order 1 2)
      "3f2a9c1e-0b7d-4e58-9a6f-1c2d3e4f5a6b" 10).conn
    ∧ (bookings_post_env (some PostCommitStep.rereadEvent) scenarioA (order 1 2)
        "3f2a9c1e-0b7d-4e58-9a6f-1c2d3e4f5a6b" 10).response
      = failure 500 "Failed to create booking"
    ∧ (bookings_post_env (some PostCommitStep.rereadEvent) scenarioA (order 1 2)
        "3f2a9c1e-0b7d-4e58-9a6f-1c2d3e4f5a6b" 10).store = soldOutA := by
  decide

/-- The extent of the defect: for every Reserve request, served in a store reached from the
empty one, whose transaction has committed, exactly one booking row was added and it stays in
the ledger whatever post-commit step raises (the store is the one left without any failure);
when no post-commit step raises the response is the success response (201) carrying the created
booking; when one raises, the response is the failure 500 "Failed to create booking". -/
theorem post_commit_failure_surfaces (rs : List Request) (fault : Option PostCommitStep)
    (body : BookingBody) (uuid : String) (now : Nat)
    (hc : ConnOp.commit ∈ (bookings_post_env fault (run Store.empty rs) body uuid now).conn) :
    (bookings_post_env fault (run Store.empty rs) body uuid now).store
      = (bookings_post (run Store.empty rs) body uuid now).store
    ∧ ∃ row,
        (bookings_post_env fault (run Store.empty rs) body uuid now).store.bookings
          = (run Store.empty rs).bookings ++ [row]
        ∧ (fault = none →
            (bookings_post_env fault (run Store.empty rs) body uuid now).response.status = 201
            ∧ (bookings_post_env fault (run Store.empty rs) body uuid now).response.success
              = true
            ∧ returnedBooking (bookings_post_env fault (run Store.empty rs) body uuid now).response
              = some row)
        ∧ (∀ step, fault = some step →
            (bookings_post_env fault (run Store.empty rs) body uuid now).response
              = failure 500 "Failed to create booking") := by
  have hk : KeysOk (run Store.empty rs) := keysOk_run rs Store.empty keysOk_empty
  obtain ⟨eid, n, em, m, q, e, rest, hb, h0, hn, hem, hm, hq, hsel, hav⟩ :=
    bookings_post_env_commit_inv fault _ body uuid now hc
  subst hb
  have hplain := bookings_post_of_enough (run Store.empty rs) eid n em m q uuid now e rest
    h0 hn hem hm hq hsel hav
  have hjoin := joinBookings_reserved_by_id (run Store.empty rs) hk eid n em m q uuid now e rest
    hsel
  rcases fault with _ | step
  · rw [bookings_post_env_none, hplain]
    refine ⟨rfl, _, rfl, ?_, ?_⟩
    · intro _
      refine ⟨rfl, rfl, ?_⟩
      simp only [returnedBooking, hjoin]
    · intro step hstep
      cases hstep
  · rw [bookings_post_env_of_enough (some step) (run Store.empty rs) eid n em m q uuid now e
      rest h0 hn hem hm hq hsel hav, hplain]
    obtain ⟨hst, hresp⟩ := afterCommit_of_fault step
      (reserved (run Store.empty rs) eid n em m q e.price uuid now) eid
      (run Store.empty rs).nextBookingId
    rw [hst, hresp]
    refine ⟨rfl, _, rfl, ?_, ?_⟩
    · intro h
      cases h
    · intro _ _
      rfl

/-- The same in scenario A when `io.emit('seatUpdate', ...)` raises after the commit: the
booking stays in the ledger and the response is 500. -/
theorem post_commit_failure_surfaces_witness :
    ConnOp.commit ∈ (bookings_post_env (some PostCommitStep.emitSeatUpdate)
      (run Store.empty [Request.createEvent concertBody]) (order 1 2)
      "3f2a9c1e-0b7d-4e58-9a6f-1c2d3e4f5a6b" 10).conn
    ∧ (bookings_post_env (some PostCommitStep.emitSeatUpdate)
        (run Store.empty [Request.createEvent concertBody]) (order 1 2)
        "3f2a9c1e-0b7d-4e58-9a6f-1c2d3e4f5a6b" 10).store.bookings = [annBooking]
    ∧ (bookings_post_env (some PostCommitStep.emitSeatUpdate)
        (run Store.empty [Request.createEvent concertBody]) (order 1 2)
        "3f2a9c1e-0b7d-4e58-9a6f-1c2d3e4f5a6b" 10).response
      = failure 500 "Failed to create booking" := by
  have h := post_commit_failure_surfaces [Request.createEvent concertBody]
    (some PostCommitStep.emitSeatUpdate) (order 1 2) "3f2a9c1e-0b7d-4e58-9a6f-1c2d3e4f5a6b" 10
    (by decide)
  obtain ⟨_, row, _, _, hresp⟩ := h
  exact ⟨by decide, by decide, hresp _ rfl⟩

/-! ## Update-event -/

/-- C24: an update-event request, whatever it carries (a new price in particular), leaves the
bookings table exactly as it was, so every booking keeps the `total_amount` written at its
reservation. -/
theorem update_keeps_bookings (s : Store) (eventId : Nat) (body : EventBody) :
    (events_put s eventId body).store.bookings = s.bookings
    ∧ ∀ b ∈ s.bookings, ∃ b' ∈ (events_put s eventId body).store.bookings,
        b' = b ∧ b'.total_amount = b.total_amount := by
  have h : (events_put s eventId body).store.bookings = s.bookings := by
    rcases events_put_store_cases s eventId body with hs | ⟨cur, rest, _, hs⟩ <;> rw [hs]
  exact ⟨h, fun b hb => ⟨b, by rw [h]; exact hb, rfl, rfl⟩⟩

/-- C23, as stated, fails. An update carrying `total_seats = 0` on the event of `fiveSeats`
(5 seats, all available) stores `total_seats = 0` and leaves `available_seats = 5`; and on the
event left by scenario C and the cancellation (`total_seats = 40`, `available_seats = 70`) an
update carrying `total_seats = 50` gives `available_seats = 80`, above the new total. -/
theorem resize_breaks_formula_and_bound :
    (events_put fiveSeats 1 (resizeTo 0)).store.events.map
        (fun e => (e.total_seats, e.available_seats)) = [(0, 5)]
    ∧ (events_put (run Store.empty shrinkThenCancelRun) 1 (resizeTo 50)).store.events.map
        (fun e => (e.total_seats, e.available_seats)) = [(50, 80)] := by
  decide

/-- C23, amended: for an existing event and an update request carrying a non-zero
`total_seats` value `T` different from the current one, the event row afterwards has
`total_seats = T` and `available_seats = max 0 (T - (old total_seats - old available_seats))`,
which is never negative, and which does not exceed `T` when `T` is not negative and the old
`available_seats` did not exceed the old `total_seats`. -/
theorem resize_recomputes_available (s : Store) (eventId : Nat) (body : EventBody) (T : Int)
    (cur : Event) (rest : List Event)
    (hsel : selectEvents s eventId = cur :: rest) (hT : body.total_seats = some T)
    (hT0 : T ≠ 0) (hne : T ≠ cur.total_seats) :
    ∃ e', (selectEvents (events_put s eventId body).store eventId).head? = some e'
      ∧ e'.id = cur.id
      ∧ e'.total_seats = T
      ∧ e'.available_seats = max 0 (T - (cur.total_seats - cur.available_seats))
      ∧ 0 ≤ e'.available_seats
      ∧ (0 ≤ T → cur.available_seats ≤ cur.total_seats → e'.available_seats ≤ T) := by
  have hstore : (events_put s eventId body).store
      = { s with events := s.events.map (fun e =>
          if e.id = eventId then updatedRow body (resizedAvailable body cur) e else e) } := by
    rcases events_put_store_cases s eventId body with hs | ⟨c2, r2, hsel2, hs⟩
    · exfalso
      have hcur : cur ∈ s.events := mem_of_selectEvents hsel
      simp only [events_put, hsel] at hs
      have hev := congrArg Store.events hs
      simp only at hev
      have hcid : cur.id = eventId := id_of_selectEvents hsel
      have hrow := congrArg (fun l => l.filter (fun e => e.id == eventId)) hev
      simp only at hrow
      rw [filter_id_map_event _ (by
        intro x
        by_cases hx : x.id = eventId <;> simp [hx])] at hrow
      unfold selectEvents at hsel
      rw [hsel] at hrow
      simp only [List.map_cons, hcid, if_true, List.cons.injEq] at hrow
      have htot := congrArg Event.total_seats hrow.1
      simp only [hT, coalesce] at htot
      exact hne htot
    · rw [hsel] at hsel2
      cases hsel2
      exact hs
  have hres : resizedAvailable body cur
      = max 0 (T - (cur.total_seats - cur.available_seats)) := by
    simp only [resizedAvailable, hT]
    rw [if_pos ⟨hT0, hne⟩]
  have hcid : cur.id = eventId := id_of_selectEvents hsel
  refine ⟨updatedRow body (resizedAvailable body cur) cur, ?_, rfl, ?_, ?_, ?_, ?_⟩
  · rw [hstore]
    unfold selectEvents
    simp only
    rw [filter_id_map_event _ (by
      intro x
      by_cases hx : x.id = eventId <;> simp [hx, updatedRow])]
    unfold selectEvents at hsel
    rw [hsel]
    simp [hcid]
  · simp only [updatedRow, hT, coalesce]
  · simp only [updatedRow, hres]
  · simp only [updatedRow, hres]
    exact le_max_left _ _
  · intro hT1 hle
    simp only [updatedRow, hres]
    exact max_le hT1 (by omega)

/-- Witness of C23 (scenario C): total 100, available 30, `T = 40` gives
`available_seats = 0`. -/
theorem resize_recomputes_available_witness :
    ∃ e', (selectEvents (events_put (run Store.empty (shrinkRun.take 2)) 1
        (resizeTo 40)).store 1).head? = some e'
      ∧ e'.id = 1
      ∧ e'.total_seats = 40
      ∧ e'.available_seats = 0
      ∧ 0 ≤ e'.available_seats
      ∧ ((0 : Int) ≤ 40 → (30 : Int) ≤ 100 → e'.available_seats ≤ 40) :=
  resize_recomputes_available (run Store.empty (shrinkRun.take 2)) 1 (resizeTo 40) 40
    { id := 1, title := "Festival", description := none, location := "Park",
      date := "2025-08-20 12:00:00", total_seats := 100, available_seats := 30, price := 30,
      img := none } []
    (by decide) (by decide) (by decide) (by decide)

/-! ## Create-event -/

/-- C28: a create-event request with title, location and date present is answered 201 and
appends one event whose `total_seats` and `available_seats` are both the requested
`total_seats` when that is a non-zero number and 100 otherwise, and whose price is the
requested price when given and non-zero (and not NaN, which no JSON body carries) and 0
otherwise; a request in which title, location or date is missing is answered 400 and leaves the
store as it was. -/
theorem create_event_starts_full (s : Store) (body : EventBody) :
    (missingEventField body = false →
      ∃ row : Event,
        (events_post s body).store.events = s.events ++ [row]
        ∧ (events_post s body).response.status = 201
        ∧ row.id = s.nextEventId
        ∧ body.title = some row.title ∧ body.location = some row.location
        ∧ body.date = some row.date
        ∧ row.available_seats = row.total_seats
        ∧ row.total_seats
          = (match body.total_seats with
             | some n => if n = 0 then 100 else n
             | none => 100)
        ∧ row.price
          = (match body.price with
             | some p => if p = 0 ∨ p = JsNumber.nan then 0 else p
             | none => 0))
    ∧ (missingEventField body = true →
        (events_post s body).response
          = failure 400 "Title, location, and date are required"
        ∧ (events_post s body).store = s) := by
  rcases body with ⟨_ | title, description, _ | location, _ | date, total_seats, price, img⟩ <;>
    try (simp [events_post, missingEventField]; done)
  by_cases hv : title = "" ∨ location = "" ∨ date = ""
  · have hm : missingEventField
        { title := some title, description := description, location := some location,
          date := some date, total_seats := total_seats, price := price, img := img } = true := by
      simpa [missingEventField, or_assoc] using hv
    refine ⟨fun h => absurd (hm.symm.trans h) (by decide), fun _ => ?_⟩
    simp [events_post, hv]
  · have hm : missingEventField
        { title := some title, description := description, location := some location,
          date := some date, total_seats := total_seats, price := price, img := img }
        = false := by
      rw [Bool.eq_false_iff]
      intro hmt
      apply hv
      simpa [missingEventField, or_assoc] using hmt
    refine ⟨fun _ => ?_, fun h => absurd (hm.symm.trans h) (by decide)⟩
    simp only [events_post, hv, if_false]
    refine ⟨_, rfl, ?_⟩
    rcases price with _ | p
    · simp
    · by_cases hp : p = 0 <;> simp [hp]

/-- Witness of C28 (scenario B): without `total_seats` the event starts with 100 seats, all
available, at the requested price 20; and a request without a title is rejected. -/
theorem create_event_starts_full_witness :
    (events_post Store.empty workshopBody).store.events = [workshop]
    ∧ (events_post Store.empty { workshopBody with title := none }).response
        = failure 400 "Title, location, and date are required"
    ∧ (events_post Store.empty { workshopBody with title := none }).store = Store.empty := by
  obtain ⟨row, hrow, _⟩ := (create_event_starts_full Store.empty workshopBody).1 (by decide)
  exact ⟨by decide,
    (create_event_starts_full Store.empty { workshopBody with title := none }).2 (by decide)⟩

/-! ## Client: quantity selector and seat updates -/

/-- One call of `handleQuantityChange` keeps the quantity within its bounds. -/
theorem handleQuantityChange_bounds (available_seats quantity delta : Int)
    (hq : 1 ≤ quantity ∧ quantity ≤ min 10 available_seats) :
    1 ≤ handleQuantityChange available_seats quantity delta
    ∧ handleQuantityChange available_seats quantity delta ≤ min 10 available_seats := by
  unfold handleQuantityChange
  simp only
  split_ifs with h
  · exact ⟨h.1, h.2⟩
  · exact hq

/-- C27: starting from quantity 1 on an event with `available_seats ≥ 1`, after any sequence
of `handleQuantityChange` calls (with `+1`, `-1` or any other step) the selected quantity `q`
satisfies `1 ≤ q ≤ min 10 available_seats`; and a call whose new quantity would leave this
range leaves the quantity unchanged. -/
theorem quantity_stays_capped (available_seats : Int) (deltas : List Int)
    (hav : 1 ≤ available_seats) :
    (1 ≤ quantityAfter available_seats 1 deltas
      ∧ quantityAfter available_seats 1 deltas ≤ min 10 available_seats)
    ∧ ∀ quantity delta : Int,
        ¬ (1 ≤ quantity + delta ∧ quantity + delta ≤ min 10 available_seats) →
        handleQuantityChange available_seats quantity delta = quantity := by
  constructor
  · have key : ∀ (ds : List Int) (q : Int), 1 ≤ q ∧ q ≤ min 10 available_seats →
        1 ≤ quantityAfter available_seats q ds
        ∧ quantityAfter available_seats q ds ≤ min 10 available_seats := by
      intro ds
      induction ds with
      | nil => intro q hq; exact hq
      | cons d t ih =>
        intro q hq
        exact ih _ (handleQuantityChange_bounds available_seats q d hq)
    exact key deltas 1 ⟨le_refl 1, le_min (by decide) hav⟩
  · intro quantity delta hout
    unfold handleQuantityChange
    simp only
    rw [if_neg (by simpa [ge_iff_le] using hout)]

/-- Witness of C27: on an event with 3 seats, eleven presses of plus and one of minus leave
the quantity at 2. -/
theorem quantity_stays_capped_witness :
    quantityAfter 3 1 [1, 1, 1, 1, 1, 1, 1, 1, 1, 1, 1, -1] = 2
    ∧ (1 ≤ quantityAfter 3 1 [1, 1, 1, 1, 1, 1, 1, 1, 1, 1, 1, -1]
      ∧ quantityAfter 3 1 [1, 1, 1, 1, 1, 1, 1, 1, 1, 1, 1, -1] ≤ min 10 3) :=
  ⟨by decide, (quantity_stays_capped 3 [1, 1, 1, 1, 1, 1, 1, 1, 1, 1, 1, -1] (by decide)).1⟩

/-- C30: the list produced by the `seatUpdate` listener has the length and order of the old
list: position by position, an event whose id differs from `eventId` is unchanged and an event
with that id differs from the old one only in `available_seats`, which is `availableSeats`;
and applying the same message twice gives the same list as applying it once. -/
theorem seat_update_frame (prev : List Event) (eventId : Nat) (availableSeats : Int) :
    (onSeatUpdate prev eventId availableSeats).length = prev.length
    ∧ List.Forall₂
        (fun e e' =>
          (e.id ≠ eventId → e' = e)
          ∧ (e.id = eventId → e' = { e with available_seats := availableSeats }))
        prev (onSeatUpdate prev eventId availableSeats)
    ∧ onSeatUpdate (onSeatUpdate prev eventId availableSeats) eventId availableSeats
      = onSeatUpdate prev eventId availableSeats := by
  refine ⟨by simp [onSeatUpdate], ?_, ?_⟩
  · induction prev with
    | nil => exact List.Forall₂.nil
    | cons a t ih =>
      refine List.Forall₂.cons ⟨?_, ?_⟩ ih
      · intro hne
        simp [hne]
      · intro heq
        simp [heq]
  · unfold onSeatUpdate
    rw [List.map_map]
    apply List.map_congr_left
    intro e _
    by_cases he : e.id = eventId <;> simp [he]

/-! ## Failures and the store -/

/-- C22, at the failing input: after a Reserve and the deletion of its event, the Cancel of
the booking is answered 500 "Failed to cancel booking" although the booking went from
`confirmed` to `cancelled` in the ledger. -/
theorem cancel_orphan_commits_then_fails :
    (bookings_put_cancel (run Store.empty orphaningRun) 1).response
      = failure 500 "Failed to cancel booking"
    ∧ (run Store.empty orphaningRun).bookings.map (fun b => (b.id, b.status))
      = [(1, BookingStatus.confirmed)]
    ∧ (bookings_put_cancel (run Store.empty orphaningRun) 1).store.bookings.map
        (fun b => (b.id, b.status)) = [(1, BookingStatus.cancelled)] := by
  decide

/-- A Reserve request that fails leaves the store as it was. -/
theorem reserve_failure_keeps_store (s : Store) (body : BookingBody) (uuid : String)
    (now : Nat) (hfail : (bookings_post s body uuid now).response.success = false) :
    (bookings_post s body uuid now).store = s := by
  rcases body with ⟨_ | eid, _ | n, _ | em, _ | m, _ | q⟩ <;>
    try (simp [bookings_post]; done)
  by_cases hv : eid = 0 ∨ n = "" ∨ em = "" ∨ m = "" ∨ q = 0
  · simp [bookings_post, hv]
  · rcases hsel : selectEvents s eid with _ | ⟨e, rest⟩
    · simp [bookings_post, hv, hsel]
    · by_cases hlt : e.available_seats < q
      · simp [bookings_post, hv, hsel, hlt]
      · exfalso
        push_neg at hv
        rw [bookings_post_of_enough s eid n em m q uuid now e rest hv.1 hv.2.1 hv.2.2.1
          hv.2.2.2.1 hv.2.2.2.2 hsel (not_lt.mp hlt)] at hfail
        simp at hfail

/-- A Cancel request that fails on a booking whose event exists leaves the store as it was. -/
theorem cancel_failure_keeps_store (s : Store) (bid : Nat)
    (hlive : ∀ b ∈ s.bookings, ∃ e ∈ s.events, e.id = b.event_id)
    (hfail : (bookings_put_cancel s bid).response.success = false) :
    (bookings_put_cancel s bid).store = s := by
  rcases hsel : selectBookings s bid with _ | ⟨b, rest⟩
  · simp [bookings_put_cancel, hsel]
  · by_cases hst : b.status = BookingStatus.cancelled
    · simp [bookings_put_cancel, hsel, hst]
    · exfalso
      obtain ⟨e, he, hid⟩ := hlive b (mem_of_selectBookings hsel)
      rcases hev : selectEvents s b.event_id with _ | ⟨e0, erest⟩
      · have : e ∈ selectEvents s b.event_id := by
          unfold selectEvents
          exact List.mem_filter.mpr ⟨he, by simpa using hid⟩
        rw [hev] at this
        cases this
      · rw [bookings_put_cancel_of_confirmed s bid b rest e0 erest hsel
          (confirmed_of_ne_cancelled hst) hev] at hfail
        simp at hfail

/-! ## What Reserve publishes -/

/-- The log of Reserve lists the connection calls and the messages of its outcome. -/
theorem bookings_post_log_agrees (s : Store) (body : BookingBody) (uuid : String) (now : Nat) :
    (bookings_post_log s body uuid now).filterMap LogEntry.connOp?
      = (bookings_post s body uuid now).conn
    ∧ (bookings_post_log s body uuid now).filterMap LogEntry.message?
      = (bookings_post s body uuid now).emitted := by
  rcases body with ⟨_ | eid, _ | n, _ | em, _ | m, _ | q⟩ <;>
    try (simp [bookings_post, bookings_post_log, LogEntry.connOp?, LogEntry.message?]; done)
  by_cases hv : eid = 0 ∨ n = "" ∨ em = "" ∨ m = "" ∨ q = 0
  · simp [bookings_post, bookings_post_log, LogEntry.connOp?, LogEntry.message?, hv]
  · rcases hsel : selectEvents s eid with _ | ⟨e, rest⟩
    · simp [bookings_post, bookings_post_log, LogEntry.connOp?, LogEntry.message?, hv, hsel]
    · by_cases hlt : e.available_seats < q
      · simp [bookings_post, bookings_post_log, LogEntry.connOp?, LogEntry.message?, hv, hsel,
          hlt]
      · rcases hsel2 : selectEvents (reserved s eid n em m q e.price uuid now) eid with
          _ | ⟨u, more⟩
        · unfold reserved at hsel2
          simp [bookings_post, bookings_post_log, LogEntry.connOp?, LogEntry.message?, hv,
            hsel, hlt, hsel2, reserved]
        · unfold reserved at hsel2
          simp [bookings_post, bookings_post_log, LogEntry.connOp?, LogEntry.message?, hv,
            hsel, hlt, hsel2, reserved]

/-- The log of a reservation that passes validation and finds enough seats. -/
theorem bookings_post_log_of_enough (s : Store) (eid : Nat) (n em m : String) (q : Int)
    (uuid : String) (now : Nat) (e : Event) (rest : List Event)
    (h0 : eid ≠ 0) (hn : n ≠ "") (hem : em ≠ "") (hm : m ≠ "") (hq : q ≠ 0)
    (hsel : selectEvents s eid = e :: rest) (hav : q ≤ e.available_seats) :
    bookings_post_log s
        { event_id := some eid, name := some n, email := some em, mobile := some m,
          quantity := some q } uuid now
      = [LogEntry.conn ConnOp.beginTransaction, LogEntry.conn ConnOp.commit,
         LogEntry.emit (Emit.seatUpdate eid (e.available_seats - q)),
         LogEntry.emit (Emit.bookingCreated
           (joinBookings (reserved s eid n em m q e.price uuid now)
             (fun b => b.id == s.nextBookingId)).head?),
         LogEntry.conn ConnOp.release] := by
  have hsel2 : selectEvents (reserved s eid n em m q e.price uuid now) eid
      = { e with available_seats := e.available_seats - q } ::
          rest.map (fun x =>
            if x.id = eid then { x with available_seats := x.available_seats - q } else x) := by
    have he : e.id = eid := id_of_selectEvents hsel
    unfold selectEvents reserved
    simp only
    rw [filter_id_map_event _ (by intro x; by_cases hx : x.id = eid <;> simp [hx])]
    unfold selectEvents at hsel
    rw [hsel]
    simp [he]
  simp only [bookings_post_log, h0, hn, hem, hm, hq, hsel, not_lt.mpr hav, or_self, if_false,
    hsel2]

/-- C21: for a Reserve request served in a store reached from the empty one, when it succeeds
the handler's actions are, in this order, begin, commit, publish
`seatUpdate {eventId, availableSeats = previous available_seats - quantity}`, publish
`bookingCreated` with the created booking joined with its event, release: exactly these two
messages, both after the commit; when it fails nothing is published. -/
theorem reserve_publishes_after_commit (rs : List Request) (body : BookingBody)
    (uuid : String) (now : Nat) :
    ((bookings_post (run Store.empty rs) body uuid now).response.success = true →
      ∃ eid q e row,
        body.event_id = some eid ∧ body.quantity = some q
        ∧ (selectEvents (run Store.empty rs) eid).head? = some e
        ∧ (bookings_post (run Store.empty rs) body uuid now).store.bookings
          = (run Store.empty rs).bookings ++ [row]
        ∧ bookings_post_log (run Store.empty rs) body uuid now
          = [LogEntry.conn ConnOp.beginTransaction, LogEntry.conn ConnOp.commit,
             LogEntry.emit (Emit.seatUpdate eid (e.available_seats - q)),
             LogEntry.emit (Emit.bookingCreated
               (some { booking := row, event_title := e.title, event_date := e.date,
                       event_location := e.location, event_img := e.img })),
             LogEntry.conn ConnOp.release]
        ∧ (bookings_post (run Store.empty rs) body uuid now).emitted
          = [Emit.seatUpdate eid (e.available_seats - q),
             Emit.bookingCreated
               (some { booking := row, event_title := e.title, event_date := e.date,
                       event_location := e.location, event_img := e.img })])
    ∧ ((bookings_post (run Store.empty rs) body uuid now).response.success = false →
        (bookings_post (run Store.empty rs) body uuid now).emitted = []
        ∧ ∀ msg, LogEntry.emit msg ∉ bookings_post_log (run Store.empty rs) body uuid now) := by
  have hk : KeysOk (run Store.empty rs) := keysOk_run rs Store.empty keysOk_empty
  constructor
  · intro hok
    obtain ⟨eid, n, em, m, q, e, rest, hb, h0, hn, hem, hm, hq, hsel, hav⟩ :=
      bookings_post_success_inv _ body uuid now hok
    subst hb
    have hjoin := joinBookings_reserved_by_id (run Store.empty rs) hk eid n em m q uuid now e
      rest hsel
    refine ⟨eid, q, e,
      { id := (run Store.empty rs).nextBookingId, event_id := eid, name := n, email := em,
        mobile := m, quantity := q, total_amount := jsMul e.price (JsNumber.ofInt q),
        booking_code := generateBookingCode uuid, status := BookingStatus.confirmed,
        booking_date := now },
      rfl, rfl, by rw [hsel]; rfl, ?_, ?_, ?_⟩
    · rw [bookings_post_of_enough _ eid n em m q uuid now e rest h0 hn hem hm hq hsel hav]
      rfl
    · rw [bookings_post_log_of_enough _ eid n em m q uuid now e rest h0 hn hem hm hq hsel hav,
        hjoin]
    · rw [bookings_post_of_enough _ eid n em m q uuid now e rest h0 hn hem hm hq hsel hav]
      simp only [hjoin]
  · intro hfail
    have hemit : (bookings_post (run Store.empty rs) body uuid now).emitted = [] := by
      rcases body with ⟨_ | eid, _ | n, _ | em, _ | m, _ | q⟩ <;>
        try (simp [bookings_post]; done)
      by_cases hv : eid = 0 ∨ n = "" ∨ em = "" ∨ m = "" ∨ q = 0
      · simp [bookings_post, hv]
      · rcases hsel : selectEvents (run Store.empty rs) eid with _ | ⟨e, rest⟩
        · simp [bookings_post, hv, hsel]
        · by_cases hlt : e.available_seats < q
          · simp [bookings_post, hv, hsel, hlt]
          · exfalso
            push_neg at hv
            rw [bookings_post_of_enough _ eid n em m q uuid now e rest hv.1 hv.2.1 hv.2.2.1
              hv.2.2.2.1 hv.2.2.2.2 hsel (not_lt.mp hlt)] at hfail
            simp at hfail
    refine ⟨hemit, ?_⟩
    intro msg hmem
    have hagree := (bookings_post_log_agrees (run Store.empty rs) body uuid now).2
    rw [hemit] at hagree
    have : msg ∈ (bookings_post_log (run Store.empty rs) body uuid now).filterMap
        LogEntry.message? :=
      List.mem_filterMap.mpr ⟨_, hmem, rfl⟩
    rw [hagree] at this
    cases this

/-- Witness of C21 (scenario A): the successful request for two seats publishes
`seatUpdate {1, 0}` and then `bookingCreated`, after the commit; the next request, which finds
no seat, publishes nothing. -/
theorem reserve_publishes_after_commit_witness :
    bookings_post_log (run Store.empty [Request.createEvent concertBody]) (order 1 2)
        "3f2a9c1e-0b7d-4e58-9a6f-1c2d3e4f5a6b" 10
      = [LogEntry.conn ConnOp.beginTransaction, LogEntry.conn ConnOp.commit,
         LogEntry.emit (Emit.seatUpdate 1 0),
         LogEntry.emit (Emit.bookingCreated
           (some { booking := annBooking, event_title := "Concert",
                   event_date := "2025-06-01 20:00:00", event_location := "Hall",
                   event_img := none })),
         LogEntry.conn ConnOp.release]
    ∧ (bookings_post
        (run Store.empty
          [Request.createEvent concertBody,
           Request.reserve (order 1 2) "3f2a9c1e-0b7d-4e58-9a6f-1c2d3e4f5a6b" 10])
        (order 1 1) "77aa01bc-0000-4000-8000-000000000001" 11).emitted = [] :=
  ⟨by decide,
   ((reserve_publishes_after_commit
      [Request.createEvent concertBody,
       Request.reserve (order 1 2) "3f2a9c1e-0b7d-4e58-9a6f-1c2d3e4f5a6b" 10]
      (order 1 1) "77aa01bc-0000-4000-8000-000000000001" 11).2 (by decide)).1⟩

/-! ## List bookings (admin) -/

/-- With distinct identifiers, selecting by identifier gives at most one row. -/
theorem filter_id_unique (l : List Event) (hpw : l.Pairwise (fun x y => x.id ≠ y.id))
    (id : Nat) :
    l.filter (fun e => e.id == id) = [] ∨ ∃ e ∈ l, l.filter (fun e => e.id == id) = [e] := by
  induction l with
  | nil => left; rfl
  | cons a t ih =>
    rw [List.pairwise_cons] at hpw
    by_cases ha : a.id = id
    · right
      refine ⟨a, List.mem_cons_self _ _, ?_⟩
      rw [List.filter_cons, if_pos (by simpa using ha)]
      congr 1
      rw [List.filter_eq_nil_iff]
      intro x hx
      have := hpw.1 x hx
      simp only [beq_iff_eq]
      intro hxid
      exact this (ha.trans hxid.symm)
    · rw [List.filter_cons, if_neg (by simpa using ha)]
      rcases ih hpw.2 with h | ⟨e, he, h⟩
      · left; exact h
      · right; exact ⟨e, List.mem_cons_of_mem _ he, h⟩

/-- With distinct event identifiers, the bookings of the join are the bookings whose event
exists, in ledger order, each once. -/
theorem joinBookings_bookings (s : Store) (hpw : s.events.Pairwise (fun x y => x.id ≠ y.id))
    (p : Booking → Bool) :
    (joinBookings s p).map (fun row => row.booking)
      = (s.bookings.filter p).filter (hasEvent s) := by
  unfold joinBookings
  induction s.bookings.filter p with
  | nil => rfl
  | cons b t ih =>
    rw [List.flatMap_cons, List.map_append, ih, List.filter_cons]
    rcases filter_id_unique s.events hpw b.event_id with h | ⟨e, he, h⟩
    · have hno : hasEvent s b = false := by
        unfold hasEvent
        rw [Bool.eq_false_iff]
        intro hany
        rw [List.any_eq_true] at hany
        obtain ⟨x, hx, hxid⟩ := hany
        have : x ∈ s.events.filter (fun e => e.id == b.event_id) :=
          List.mem_filter.mpr ⟨hx, hxid⟩
        rw [h] at this
        cases this
      rw [h, hno]
      simp
    · have hyes : hasEvent s b = true := by
        unfold hasEvent
        rw [List.any_eq_true]
        have : e ∈ s.events.filter (fun e => e.id == b.event_id) := by
          rw [h]; exact List.mem_cons_self _ _
        exact ⟨e, he, (List.mem_filter.mp this).2⟩
      rw [h, hyes]
      simp

/-- C26, as stated, fails: after a Reserve and the deletion of its event the ledger holds one
booking and List bookings returns none. -/
theorem list_bookings_misses_orphaned_booking :
    (run Store.empty orphaningRun).bookings.map (fun b => b.id) = [1]
    ∧ bookings_get (run Store.empty orphaningRun)
      = { status := 200, success := true, payload := Payload.bookings [] } := by
  decide

/-- C26, amended: in every store reached from the empty one (delete-event requests included),
List bookings returns the bookings of the ledger whose event still exists, each exactly once
(the bookings returned are a rearrangement of those ledger rows), newest `booking_date`
first. -/
theorem list_bookings_live_newest_first (rs : List Request) :
    (bookings_get (run Store.empty rs)).success = true
    ∧ ((listedBookings (bookings_get (run Store.empty rs))).map (fun row => row.booking)).Perm
        ((run Store.empty rs).bookings.filter (hasEvent (run Store.empty rs)))
    ∧ (listedBookings (bookings_get (run Store.empty rs))).Sorted
        (fun a b => b.booking.booking_date ≤ a.booking.booking_date) := by
  have hk : KeysOk (run Store.empty rs) := keysOk_run rs Store.empty keysOk_empty
  refine ⟨rfl, ?_, ?_⟩
  · simp only [bookings_get, listedBookings]
    refine ((List.perm_insertionSort _ _).map _).trans ?_
    rw [List.map_map]
    have hcomp : ((fun row : JoinedBooking => row.booking)
        ∘ fun row : JoinedBooking => { row with event_img := none })
        = fun row : JoinedBooking => row.booking := rfl
    rw [hcomp, joinBookings_bookings _ hk.2.1]
    simp
  · simp only [bookings_get, listedBookings]
    have htotal : IsTotal JoinedBooking
        (fun a b => b.booking.booking_date ≤ a.booking.booking_date) :=
      ⟨fun a b => le_total _ _⟩
    have htrans : IsTrans JoinedBooking
        (fun a b => b.booking.booking_date ≤ a.booking.booking_date) :=
      ⟨fun a b c hab hbc => le_trans hbc hab⟩
    exact List.sorted_insertionSort _ _

/-- Witness of C26 (amended): after `orderlyRun`, whose event 2 was deleted, the two bookings
of event 1 are listed, the one of time 12 before the one of time 10. -/
theorem list_bookings_live_newest_first_witness :
    (listedBookings (bookings_get (run Store.empty orderlyRun))).map
        (fun row => (row.booking.id, row.booking.booking_date)) = [(2, 12), (1, 10)]
    ∧ (listedBookings (bookings_get (run Store.empty orderlyRun))).Sorted
        (fun a b => b.booking.booking_date ≤ a.booking.booking_date) :=
  ⟨by decide, (list_bookings_live_newest_first orderlyRun).2.2⟩

/-! ## Client: countdown -/

/-- Dividing a non-negative integer twice is dividing by the product. -/
theorem ediv_ediv_nat (d : Int) (c m : Nat) (hd : 0 ≤ d) :
    d / ((c : Int) * (m : Int)) = d / (c : Int) / (m : Int) := by
  obtain ⟨n, rfl⟩ := Int.eq_ofNat_of_zero_le hd
  norm_cast
  rw [Nat.div_div_eq_div_mul]

/-- The floor of `(d / c) % m` is the integer quotient of `d` by `c`, modulo `m`. -/
theorem floor_jsRem (d : Int) (c m : Nat) (hd : 0 ≤ d) :
    ⌊jsRem ((d : ℚ) / (c : ℚ)) (m : ℚ)⌋ = (d / (c : Int)) % (m : Int) := by
  have hx : (0 : ℚ) ≤ (d : ℚ) / (c : ℚ) / (m : ℚ) := by
    have : (0 : ℚ) ≤ (d : ℚ) := by exact_mod_cast hd
    positivity
  have hq : ⌊(d : ℚ) / (c : ℚ) / (m : ℚ)⌋ = d / (c : Int) / (m : Int) := by
    rw [div_div, ← Nat.cast_mul, Rat.floor_intCast_div_natCast, Nat.cast_mul,
      ediv_ediv_nat d c m hd]
  unfold jsRem
  rw [if_pos hx, hq]
  have hcast : (m : ℚ) * ((d / (c : Int) / (m : Int) : Int) : ℚ)
      = (((m : Int) * (d / (c : Int) / (m : Int)) : Int) : ℚ) := by push_cast; ring
  rw [hcast, Int.floor_sub_int, Rat.floor_intCast_div_natCast, Int.emod_def]

/-- C29: for an integer millisecond difference `d`, `calculateTimeLeft` returns four zeros
when `d ≤ 0`; when `d > 0` it returns non-negative integers with `hours < 24`, `minutes < 60`,
`seconds < 60` and
`days*86400000 + hours*3600000 + minutes*60000 + seconds*1000 = 1000 * floor(d / 1000)`. -/
theorem countdown_decomposition (d : Int) :
    (d ≤ 0 → calculateTimeLeft d = { days := 0, hours := 0, minutes := 0, seconds := 0 })
    ∧ (0 < d →
        0 ≤ (calculateTimeLeft d).days
        ∧ 0 ≤ (calculateTimeLeft d).hours ∧ (calculateTimeLeft d).hours < 24
        ∧ 0 ≤ (calculateTimeLeft d).minutes ∧ (calculateTimeLeft d).minutes < 60
        ∧ 0 ≤ (calculateTimeLeft d).seconds ∧ (calculateTimeLeft d).seconds < 60
        ∧ (calculateTimeLeft d).days * 86400000 + (calculateTimeLeft d).hours * 3600000
            + (calculateTimeLeft d).minutes * 60000 + (calculateTimeLeft d).seconds * 1000
          = 1000 * (d / 1000)) := by
  constructor
  · intro h
    simp [calculateTimeLeft, h]
  · intro h
    have hd : 0 ≤ d := le_of_lt h
    have hdays : ⌊(d : ℚ) / (1000 * 60 * 60 * 24)⌋ = d / 86400000 := by
      have hc : (d : ℚ) / (1000 * 60 * 60 * 24) = (d : ℚ) / ((86400000 : ℕ) : ℚ) := by norm_num
      rw [hc, Rat.floor_intCast_div_natCast]
      rfl
    have hhours : ⌊jsRem ((d : ℚ) / (1000 * 60 * 60)) 24⌋ = (d / 3600000) % 24 := by
      have hc : (d : ℚ) / (1000 * 60 * 60) = (d : ℚ) / ((3600000 : ℕ) : ℚ) := by norm_num
      rw [hc]
      exact floor_jsRem d 3600000 24 hd
    have hminutes : ⌊jsRem ((d : ℚ) / 1000 / 60) 60⌋ = (d / 60000) % 60 := by
      have hc : (d : ℚ) / 1000 / 60 = (d : ℚ) / ((60000 : ℕ) : ℚ) := by
        rw [div_div]; norm_num
      rw [hc]
      exact floor_jsRem d 60000 60 hd
    have hseconds : ⌊jsRem ((d : ℚ) / 1000) 60⌋ = (d / 1000) % 60 := by
      have hc : (d : ℚ) / 1000 = (d : ℚ) / ((1000 : ℕ) : ℚ) := by norm_num
      rw [hc]
      exact floor_jsRem d 1000 60 hd
    simp only [calculateTimeLeft, not_le.mpr h, if_false, hdays, hhours, hminutes, hseconds]
    omega

/-- Witness of C29: 90 061 999 ms are 1 day, 1 hour, 1 minute and 1 second. -/
theorem countdown_decomposition_witness :
    (0 : Int) < 90061999
    ∧ (calculateTimeLeft 90061999).days = 1 ∧ (calculateTimeLeft 90061999).hours = 1
    ∧ (calculateTimeLeft 90061999).minutes = 1 ∧ (calculateTimeLeft 90061999).seconds = 1 := by
  have h := (countdown_decomposition 90061999).2 (by decide)
  refine ⟨by decide, ?_⟩
  omega

/-! ## List events -/

/-- `LIKE` on a pattern that starts with a character taken literally, against a non-empty
text. -/
theorem likeMatch_plain_cons (x : Char) (p : List Char) (c : Char) (u : List Char)
    (h1 : x ≠ '%') (h2 : x ≠ '_') (h3 : x ≠ '\\') :
    likeMatch (x :: p) (c :: u) = (x == c && likeMatch p u) := by
  rw [likeMatch]
  · exact h1
  · exact h2
  · intro y q hx _
    exact h3 hx

/-- `LIKE` on a pattern that starts with a character taken literally, against the empty
text. -/
theorem likeMatch_plain_nil (x : Char) (p : List Char)
    (h1 : x ≠ '%') (h2 : x ≠ '_') (h3 : x ≠ '\\') :
    likeMatch (x :: p) [] = false := by
  rw [likeMatch]
  · exact h1
  · exact h2
  · intro y q hx _
    exact h3 hx

/-- `LIKE` on a pattern that starts with `%`. -/
theorem likeMatch_percent (p t : List Char) :
    likeMatch ('%' :: p) t = t.tails.any (fun u => likeMatch p u) := by
  rw [likeMatch]

/-- `LIKE` on the empty pattern. -/
theorem likeMatch_nil (t : List Char) : likeMatch [] t = t.isEmpty := by
  rw [likeMatch]

/-- A pattern of literal characters followed by `%` matches the texts it is a prefix of. -/
theorem likeMatch_plain_leading (needle : List Char)
    (hplain : ∀ c ∈ needle, c ≠ '%' ∧ c ≠ '_' ∧ c ≠ '\\') :
    ∀ u : List Char, likeMatch (needle ++ ['%']) u = true ↔ needle <+: u := by
  induction needle with
  | nil =>
    intro u
    simp only [List.nil_append, likeMatch_percent, likeMatch_nil, List.any_eq_true,
      List.mem_tails, List.nil_prefix, iff_true]
    exact ⟨[], List.nil_suffix, rfl⟩
  | cons x p ih =>
    intro u
    obtain ⟨h1, h2, h3⟩ := hplain x (List.mem_cons_self _ _)
    have hp : ∀ c ∈ p, c ≠ '%' ∧ c ≠ '_' ∧ c ≠ '\\' :=
      fun c hc => hplain c (List.mem_cons_of_mem _ hc)
    cases u with
    | nil =>
      rw [List.cons_append, likeMatch_plain_nil _ _ h1 h2 h3]
      simp
    | cons c v =>
      rw [List.cons_append, likeMatch_plain_cons _ _ _ _ h1 h2 h3, Bool.and_eq_true, ih hp v,
        List.cons_prefix_cons]
      simp

/-- Between two `%`, a pattern of literal characters matches the texts it is a substring
of. -/
theorem likeMatch_plain_within (needle text : List Char)
    (hplain : ∀ c ∈ needle, c ≠ '%' ∧ c ≠ '_' ∧ c ≠ '\\') :
    likeMatch ('%' :: needle ++ ['%']) text = true ↔ needle <:+: text := by
  rw [List.cons_append, likeMatch_percent, List.any_eq_true, List.infix_iff_prefix_suffix]
  constructor
  · rintro ⟨u, hu, hm⟩
    exact ⟨u, (likeMatch_plain_leading needle hplain u).mp hm, (List.mem_tails _ _).mp hu⟩
  · rintro ⟨u, hpre, hsuf⟩
    exact ⟨u, (List.mem_tails _ _).mpr hsuf, (likeMatch_plain_leading needle hplain u).mpr hpre⟩

/-- For a plain value, `LIKE '%value%'` is "value is a substring". -/
theorem likeContains_plain (value text : String) (hplain : isPlain (some value) = true) :
    likeContains value text = true ↔ value.data <:+: text.data := by
  unfold likeContains
  apply likeMatch_plain_within
  intro c hc
  simp only [isPlain, List.all_eq_true, Bool.and_eq_true, bne_iff_ne, ne_eq] at hplain
  obtain ⟨⟨h1, h2⟩, h3⟩ := hplain c hc
  exact ⟨h1, h2, h3⟩

/-- The order of date-time texts is total. -/
theorem textLe_total : ∀ s t : List Char, textLe s t = true ∨ textLe t s = true := by
  intro s
  induction s with
  | nil => intro t; left; rfl
  | cons a s ih =>
    intro t
    cases t with
    | nil => right; rfl
    | cons b t =>
      simp only [textLe, Bool.or_eq_true, decide_eq_true_eq, Bool.and_eq_true, beq_iff_eq]
      rcases lt_trichotomy a b with h | h | h
      · left; left; exact h
      · rcases ih t with h2 | h2
        · left; right; exact ⟨h, h2⟩
        · right; right; exact ⟨h.symm, h2⟩
      · right; left; exact h

/-- The order of date-time texts is transitive. -/
theorem textLe_trans : ∀ s t u : List Char,
    textLe s t = true → textLe t u = true → textLe s u = true := by
  intro s
  induction s with
  | nil => intro t u _ _; rfl
  | cons a s ih =>
    intro t u hst htu
    cases t with
    | nil => simp [textLe] at hst
    | cons b t =>
      cases u with
      | nil => simp [textLe] at htu
      | cons c u =>
        simp only [textLe, Bool.or_eq_true, decide_eq_true_eq, Bool.and_eq_true,
          beq_iff_eq] at hst htu ⊢
        rcases hst with h1 | ⟨h1, h1'⟩ <;> rcases htu with h2 | ⟨h2, h2'⟩
        · left; exact lt_trans h1 h2
        · left; rw [← h2]; exact h1
        · left; rw [h1]; exact h2
        · right; exact ⟨h1.trans h2, ih t u h1' h2'⟩

/-- The `search` filter of the query, for a plain value. -/
theorem searchFilter_iff (search : Option String) (e : Event) :
    isPlain search = true →
    ((match search with
     | some v =>
       v == "" || likeContains v e.title
         || (match e.description with
             | some d => likeContains v d
             | none => false)
     | none => true) = true
    ↔ ∀ v, search = some v → v ≠ "" →
        v.data <:+: e.title.data ∨ ∃ d, e.description = some d ∧ v.data <:+: d.data) := by
  intro hs
  cases search with
  | none => simp
  | some v =>
    simp only [Option.some.injEq, forall_eq', Bool.or_eq_true, beq_iff_eq]
    by_cases hv : v = ""
    · simp [hv]
    · rw [likeContains_plain v e.title hs]
      cases hd : e.description with
      | none => simp [hv]
      | some d =>
        simp only [hv, false_or, ne_eq, not_false_eq_true, forall_const, Option.some.injEq,
          exists_eq_left']
        rw [likeContains_plain v d hs]

/-- The `location` filter of the query, for a plain value. -/
theorem locationFilter_iff (location : Option String) (e : Event) :
    isPlain location = true →
    ((match location with
     | some v => v == "" || likeContains v e.location
     | none => true) = true
    ↔ ∀ v, location = some v → v ≠ "" → v.data <:+: e.location.data) := by
  intro hl
  cases location with
  | none => simp
  | some v =>
    simp only [Option.some.injEq, forall_eq', Bool.or_eq_true, beq_iff_eq]
    by_cases hv : v = ""
    · simp [hv]
    · rw [likeContains_plain v e.location hl]
      simp [hv]

/-- A filter that compares the event with the value when the value is present and not
empty. -/
theorem valueFilter_iff (value : Option String) (test : String → Bool) :
    (match value with
     | some v => v == "" || test v
     | none => true) = true
    ↔ ∀ v, value = some v → v ≠ "" → test v = true := by
  cases value with
  | none => simp
  | some v =>
    simp only [Option.some.injEq, forall_eq', Bool.or_eq_true, beq_iff_eq]
    by_cases hv : v = ""
    · simp [hv]
    · simp [hv]

/-- For plain `search` and `location` values the `WHERE` clause says what the specification
says. -/
theorem eventMatches_iff (q : EventQuery) (e : Event) (hs : isPlain q.search = true)
    (hl : isPlain q.location = true) :
    eventMatches q e = true ↔ satisfiesFilters q e := by
  unfold eventMatches satisfiesFilters
  rw [Bool.and_eq_true, Bool.and_eq_true, Bool.and_eq_true, Bool.and_eq_true,
    searchFilter_iff q.search e hs, locationFilter_iff q.location e hl,
    valueFilter_iff q.date (fun v => String.mk (e.date.data.take 10) == v),
    valueFilter_iff q.startDate (fun v => textLe v.data e.date.data),
    valueFilter_iff q.endDate (fun v => textLe e.date.data v.data)]
  simp only [beq_iff_eq, and_assoc]

/-- C25, as stated, fails: in scenario A the search `_` returns the event "Concert", whose
title does not contain the character `_` and which has no description. -/
theorem list_events_wildcard_search :
    listedEvents (events_get scenarioA
        { search := some "_", location := none, date := none, startDate := none,
          endDate := none }) = [concert]
    ∧ '_' ∉ concert.title.data ∧ concert.description = none := by
  decide

/-- C25, amended: when the `search` and `location` values contain none of the characters `%`,
`_` and backslash, List events returns exactly the events that satisfy every filter that is
present and not empty (`search` is a substring of title or description, `location` a substring
of location, `date` the calendar date of the event, `startDate ≤ date ≤ endDate`), each once
(the rows returned are a rearrangement of the matching rows of the table), sorted by date
ascending; and with no filter it returns all events. -/
theorem list_events_filtered_sorted (s : Store) (q : EventQuery)
    (hs : isPlain q.search = true) (hl : isPlain q.location = true) :
    (listedEvents (events_get s q)).Perm (s.events.filter (eventMatches q))
    ∧ (∀ e, eventMatches q e = true ↔ satisfiesFilters q e)
    ∧ (∀ e, e ∈ listedEvents (events_get s q) ↔ e ∈ s.events ∧ satisfiesFilters q e)
    ∧ (listedEvents (events_get s q)).Sorted
        (fun a b => textLe a.date.data b.date.data = true)
    ∧ (listedEvents (events_get s noFilter)).Perm s.events := by
  have hperm : ∀ q' : EventQuery,
      (listedEvents (events_get s q')).Perm (s.events.filter (eventMatches q')) := by
    intro q'
    simp only [events_get, listedEvents]
    exact List.perm_insertionSort _ _
  refine ⟨hperm q, fun e => eventMatches_iff q e hs hl, ?_, ?_, ?_⟩
  · intro e
    rw [(hperm q).mem_iff, List.mem_filter, eventMatches_iff q e hs hl]
  · simp only [events_get, listedEvents]
    have htotal : IsTotal Event (fun a b => textLe a.date.data b.date.data = true) :=
      ⟨fun a b => textLe_total _ _⟩
    have htrans : IsTrans Event (fun a b => textLe a.date.data b.date.data = true) :=
      ⟨fun a b c hab hbc => textLe_trans _ _ _ hab hbc⟩
    exact List.sorted_insertionSort _ _
  · refine (hperm noFilter).trans ?_
    have hall : s.events.filter (eventMatches noFilter) = s.events := by
      rw [List.filter_eq_self]
      intro e _
      rfl
    rw [hall]

/-- Witness of C25 (amended): of three events created out of date order, the search `s` with
start date `2025-06-15` returns the workshop (July) before the festival (August), and the
query without filter returns all three by date. -/
theorem list_events_filtered_sorted_witness :
    (listedEvents (events_get threeEvents
        { search := some "s", location := none, date := none,
          startDate := some "2025-06-15", endDate := none })).map (fun e => (e.id, e.title))
      = [(3, "Workshop"), (1, "Festival")]
    ∧ (listedEvents (events_get threeEvents noFilter)).map (fun e => e.title)
      = ["Concert", "Workshop", "Festival"]
    ∧ (listedEvents (events_get threeEvents
        { search := some "s", location := none, date := none,
          startDate := some "2025-06-15", endDate := none })).Sorted
        (fun a b => textLe a.date.data b.date.data = true) :=
  ⟨by decide, by decide,
   (list_events_filtered_sorted threeEvents
      { search := some "s", location := none, date := none,
        startDate := some "2025-06-15", endDate := none } (by decide) (by decide)).2.2.2.1⟩

end EventBooking
